import Mathlib

/-!
# mydocker: the IP allocator, the network orchestrator, the container init sequence, the
workspace and `Run`

A shallow embedding of `network/ipam.go`, `network/network.go`, `network/bridge.go`,
`container/init.go`, `container/volume.go`, `container/container_process.go` and `run.go`,
and theorems about it.

Conventions of the embedding.

* A Go `uint8` is a `Fin 256`; every arithmetic step that can wrap is written out with
  `% 256` (see `u8`).  A Go `int` is 64 bits wide (the allocator never reaches 2^63), so
  it is a `Nat`.
* A Go `string` is the list of its bytes, a `List Char` in which every character stands
  for the byte of the same code: `len(s)` is `List.length` and `s[:n]` is `List.take n`.
  A text of ASCII characters is its own Go string, and so is every string the allocator
  itself writes; a text with other characters is a Go string through `utf8`, which takes
  more bytes than the text has characters.
* The allocator file is the only state that survives a call of `IPAM.Allocate` or
  `IPAM.Release` (both start from an empty map and `load`), so both are functions from the
  file's content to a result and the file's new content.
* `encoding/json` is embedded on the texts the allocator writes: one object, keys in
  order, string literals of plain characters, no white space.  The agreement of
  `jsonScan` with `json.Unmarshal` is meant for these texts and for what a read of the
  first 2000 bytes leaves of them.
* Calls into the operating system (netlink, iptables, namespaces, mounts, exec) are
  answered by a host given as a parameter and recorded in order.  In the network code
  creating directories and writing descriptor files is taken to succeed; in the workspace
  and in `Run` every such call can fail.
-/

namespace MyDocker

/-! ## Addresses and subnets (Go `net.IP`, `net.IPNet`) -/

/-- Conversion of a number to a Go `uint8`: its value modulo 2^8. -/
def u8 (n : Nat) : Fin 256 := ⟨n % 256, Nat.mod_lt n (by decide)⟩

/-- An IPv4 address: the four bytes of a Go `net.IP`, index 0 first. -/
structure IPv4 where
  b0 : Fin 256
  b1 : Fin 256
  b2 : Fin 256
  b3 : Fin 256
deriving DecidableEq, Repr

/-- A Go `net.IPNet` whose mask is an IPv4 CIDR mask: the address bytes and the number of
leading one bits of the mask (`Mask.Size()` returns `(ones, 32)`). -/
structure IPNet where
  IP : IPv4
  ones : Fin 33
deriving DecidableEq, Repr

/-- Byte `i` of `net.CIDRMask(ones, 32)`: the first `ones` bits of the mask are set. -/
def maskByte (ones : Nat) (i : Nat) : Nat :=
  256 - 2 ^ (8 - min 8 (ones - 8 * i))

/-- Go `IP.Mask`: every byte of the address and-ed with the matching byte of the mask. -/
def IPv4.Mask (ip : IPv4) (ones : Fin 33) : IPv4 :=
  { b0 := u8 (ip.b0.val &&& maskByte ones.val 0)
    b1 := u8 (ip.b1.val &&& maskByte ones.val 1)
    b2 := u8 (ip.b2.val &&& maskByte ones.val 2)
    b3 := u8 (ip.b3.val &&& maskByte ones.val 3) }

/-- Go `IPNet.Contains`: the address and the network address agree under the mask. -/
def IPNet.Contains (n : IPNet) (ip : IPv4) : Bool :=
  decide (n.IP.Mask n.ones = ip.Mask n.ones)

/-- Go `net.ParseCIDR` on the text `a.b.c.d/ones`: the address as written, and the network
it lies in (the address masked, with the mask).  The text is given already split into the
address and the mask length; `ParseCIDR` is only ever called here on the output of
`IPNet.String` or on a well-formed command line argument. -/
def ParseCIDR (ip : IPv4) (ones : Fin 33) : IPv4 × IPNet :=
  (ip, { IP := ip.Mask ones, ones := ones })

/-- Decimal digits of a number, as `strconv` prints it. -/
def itoa (n : Nat) : List Char := Nat.toDigits 10 n

/-- Go `IP.String` for an IPv4 address: dotted decimal. -/
def IPv4.String (ip : IPv4) : List Char :=
  itoa ip.b0.val ++ '.' :: itoa ip.b1.val ++ '.' :: itoa ip.b2.val ++ '.' :: itoa ip.b3.val

/-- Go `IPNet.String`: the address, a slash, the mask length. -/
def IPNet.String (n : IPNet) : List Char :=
  n.IP.String ++ '/' :: itoa n.ones.val

/-! ## The allocator map (Go `map[string]string`) -/

/-- Strict lexicographic order on strings by character code, the order in which
`encoding/json` writes the keys of a map. -/
def keyLt : List Char → List Char → Bool
  | [], [] => false
  | [], _ :: _ => true
  | _ :: _, [] => false
  | a :: as, b :: bs => a.toNat < b.toNat || (a.toNat == b.toNat && keyLt as bs)

/-- The allocator state `IPAM.Subnets`: subnet text to bitmap.  The Go map is kept as an
association list in key order. -/
abbrev Subnets := List (List Char × List Char)

/-- Map lookup `m[k]` with the `exist` flag. -/
def Subnets.get? : Subnets → List Char → Option (List Char)
  | [], _ => none
  | (k, v) :: rest, key => if key = k then some v else Subnets.get? rest key

/-- Map assignment `m[k] = v`. -/
def Subnets.set : Subnets → List Char → List Char → Subnets
  | [], key, val => [(key, val)]
  | (k, v) :: rest, key, val =>
    if key = k then (k, val) :: rest
    else if keyLt key k then (key, val) :: (k, v) :: rest
    else (k, v) :: Subnets.set rest key val

/-! ## The allocator file (`encoding/json` on a `map[string]string`) -/

/-- The double quote character. -/
def dquote : Char := Char.ofNat 34

/-- The backslash character. -/
def bslash : Char := Char.ofNat 92

/-- The opening brace. -/
def lbrace : Char := Char.ofNat 123

/-- The closing brace. -/
def rbrace : Char := Char.ofNat 125

/-- Characters that `encoding/json` writes into a string literal as they are, one byte
each: printable ASCII other than the double quote, the backslash and the three characters
escaped for HTML. -/
def plainChar (c : Char) : Bool :=
  decide (32 ≤ c.toNat) && decide (c.toNat < 127) && c != dquote && c != bslash &&
    c != '<' && c != '>' && c != '&'

/-- A JSON string literal.  The embedding covers strings of plain characters, which is
what subnet texts and bitmaps are; escapes are not modelled. -/
def jsonString (s : List Char) : List Char := dquote :: (s ++ [dquote])

/-- The members of a JSON object, separated by commas. -/
def jsonMembers : Subnets → List Char
  | [] => []
  | [(k, v)] => jsonString k ++ ':' :: jsonString v
  | (k, v) :: rest => jsonString k ++ ':' :: jsonString v ++ ',' :: jsonMembers rest

/-- Go `json.Marshal` of the map: an object with the keys in order, no white space. -/
def jsonMarshal (m : Subnets) : List Char := lbrace :: (jsonMembers m ++ [rbrace])

/-- Position of the JSON scanner inside an object of strings. -/
inductive Scan where
  | start
  | firstKey
  | inKey (acc : List Char)
  | colon (key : List Char)
  | valueOpen (key : List Char)
  | inValue (key : List Char) (acc : List Char)
  | afterValue
  | nextKey
  | done
deriving DecidableEq, Repr

/-- Go `json.Unmarshal` into the (empty) map, on the text of an object whose keys and
values are string literals of plain characters: the scanner runs over the text one
character at a time; the text is rejected as a whole (`none`) when it stops short or a
character is out of place.  The accumulators hold the current literal in reverse. -/
def jsonScan : Scan → Subnets → List Char → Option Subnets
  | Scan.done, m, [] => some m
  | _, _, [] => none
  | Scan.start, m, c :: cs => if c = lbrace then jsonScan Scan.firstKey m cs else none
  | Scan.firstKey, m, c :: cs =>
    if c = rbrace then jsonScan Scan.done m cs
    else if c = dquote then jsonScan (Scan.inKey []) m cs else none
  | Scan.inKey acc, m, c :: cs =>
    if c = dquote then jsonScan (Scan.colon acc.reverse) m cs
    else if plainChar c then jsonScan (Scan.inKey (c :: acc)) m cs else none
  | Scan.colon k, m, c :: cs => if c = ':' then jsonScan (Scan.valueOpen k) m cs else none
  | Scan.valueOpen k, m, c :: cs =>
    if c = dquote then jsonScan (Scan.inValue k []) m cs else none
  | Scan.inValue k acc, m, c :: cs =>
    if c = dquote then jsonScan Scan.afterValue (m.set k acc.reverse) cs
    else if plainChar c then jsonScan (Scan.inValue k (c :: acc)) m cs else none
  | Scan.afterValue, m, c :: cs =>
    if c = ',' then jsonScan Scan.nextKey m cs
    else if c = rbrace then jsonScan Scan.done m cs else none
  | Scan.nextKey, m, c :: cs => if c = dquote then jsonScan (Scan.inKey []) m cs else none
  | Scan.done, _, _ :: _ => none

/-- Go `json.Unmarshal(text, ipam.Subnets)` with `ipam.Subnets` pointing at an empty map. -/
def jsonUnmarshal (text : List Char) : Option Subnets := jsonScan Scan.start [] text

/-- The allocator file at `SubnetAllocatorPath`: missing, or its content. -/
abbrev AllocFile := Option (List Char)

/-- What `IPAM.load` can report. -/
inductive LoadErr where
  | readEOF
  | badJSON
deriving DecidableEq, Repr

/-- Size of the buffer `IPAM.load` reads the file into: `make([]byte, 2000)`. -/
def loadBufferSize : Nat := 2000

/-- The method `IPAM.load`, run on the empty map `Allocate` and `Release` start from: the map
after the call and the error returned.  A missing file is not an error.  Otherwise one
`Read` fills at most `loadBufferSize` bytes and `json.Unmarshal` decodes what was read;
when it fails the map stays empty. -/
def IPAM.load (file : AllocFile) : Subnets × Option LoadErr :=
  match file with
  | none => ([], none)
  | some content =>
    let buf := content.take loadBufferSize
    if buf.isEmpty then ([], some LoadErr.readEOF)
    else
      match jsonUnmarshal buf with
      | some m => (m, none)
      | none => ([], some LoadErr.badJSON)

/-- The method `IPAM.dump`: the file is truncated and the whole map written as JSON.
Directory creation, open and write are taken to succeed. -/
def IPAM.dump (m : Subnets) : AllocFile := some (jsonMarshal m)

/-! ## Allocate and Release -/

/-- Index of the first `'0'` of a bitmap, the bit the scan of `Allocate` stops at. -/
def firstZero : List Char → Option Nat
  | [] => none
  | c :: cs => if c = '0' then some 0 else (firstZero cs).map (· + 1)

/-- The address `Allocate` computes for bitmap index `c`: for `t = 4, 3, 2, 1` byte `4 - t`
of the network address gets `uint8(c >> ((t - 1) * 8))` added, then the last byte gets 1
added; every addition is a `uint8` addition. -/
def offsetIP (base : IPv4) (c : Nat) : IPv4 :=
  let ip : IPv4 :=
    { b0 := u8 (base.b0.val + (u8 (c >>> 24)).val)
      b1 := u8 (base.b1.val + (u8 (c >>> 16)).val)
      b2 := u8 (base.b2.val + (u8 (c >>> 8)).val)
      b3 := u8 (base.b3.val + (u8 (c >>> 0)).val) }
  { ip with b3 := u8 (ip.b3.val + 1) }

/-- What a call of `IPAM.Allocate` leaves behind: the returned address (`none` is the nil
`net.IP`), the returned error, and the allocator file after `dump`. -/
structure AllocResult where
  ip : Option IPv4
  err : Option LoadErr
  file : AllocFile
deriving DecidableEq, Repr

/-- The method `IPAM.Allocate`. -/
def IPAM.Allocate (file : AllocFile) (subnet : IPNet) : AllocResult :=
  let (m0, err) := IPAM.load file
  let net := (ParseCIDR subnet.IP subnet.ones).2
  let key := net.String
  let m1 :=
    match m0.get? key with
    | some _ => m0
    | none => m0.set key (List.replicate (1 <<< (32 - net.ones.val)) '0')
  let bitmap := (m1.get? key).getD []
  match firstZero bitmap with
  | some c =>
    { ip := some (offsetIP net.IP c), err := err,
      file := IPAM.dump (m1.set key (bitmap.set c '1')) }
  | none => { ip := none, err := err, file := IPAM.dump m1 }

/-- The bitmap index `Release` computes: the last byte of the address is decremented, then
for `t = 4, 3, 2, 1` the `uint8` difference of byte `t - 1` of the address and of the
network address is shifted left by `(4 - t) * 8` and added up. -/
def releaseIndex (base : IPv4) (ip : IPv4) : Nat :=
  let r3 := u8 (ip.b3.val + 255)
  ((u8 (r3.val + 256 - base.b3.val)).val <<< 0) +
  ((u8 (ip.b2.val + 256 - base.b2.val)).val <<< 8) +
  ((u8 (ip.b1.val + 256 - base.b1.val)).val <<< 16) +
  ((u8 (ip.b0.val + 256 - base.b0.val)).val <<< 24)

/-- What a call of `IPAM.Release` leaves behind.  `ipAfter` is the caller's address after
the call: `To4` returns the caller's own bytes and `Release` decrements the last one in
place.  `panicked` is the run-time panic of `ipalloc[c]` with `c` out of range, which
happens before `dump`. -/
inductive ReleaseResult where
  | returned (file : AllocFile) (ipAfter : IPv4)
  | panicked (file : AllocFile) (ipAfter : IPv4)
deriving DecidableEq, Repr

/-- The method `IPAM.Release`. -/
def IPAM.Release (file : AllocFile) (subnet : IPNet) (ipaddr : IPv4) : ReleaseResult :=
  let net := (ParseCIDR subnet.IP subnet.ones).2
  let key := net.String
  let (m0, _) := IPAM.load file
  let releaseIP : IPv4 := { ipaddr with b3 := u8 (ipaddr.b3.val + 255) }
  let c := releaseIndex net.IP ipaddr
  let ipalloc := (m0.get? key).getD []
  if c < ipalloc.length then
    ReleaseResult.returned (IPAM.dump (m0.set key (ipalloc.set c '0'))) releaseIP
  else ReleaseResult.panicked file releaseIP

/-! ## The host: netlink, iptables, network namespaces

Everything `network.go` and `bridge.go` do to the machine goes through the calls below.
The host decides the answer to each call from the calls made so far, and every call is
recorded. -/

/-- Go `strings.Split(s, sep)` for a separator of one character. -/
def splitAux (sep : Char) : List Char → List Char → List (List Char)
  | [], acc => [acc.reverse]
  | c :: cs, acc =>
    if c = sep then acc.reverse :: splitAux sep cs [] else splitAux sep cs (c :: acc)

/-- Go `strings.Split(s, sep)` for a separator of one character. -/
def strSplit (sep : Char) (s : List Char) : List (List Char) := splitAux sep s []

/-- A call into the host made by the network code. -/
inductive HostCall where
  | InterfaceByName (name : List Char)
  | LinkByName (name : List Char)
  | LinkAddBridge (name : List Char)
  | LinkAddVeth (name : List Char) (master : List Char) (peerName : List Char)
  | LinkDel (name : List Char)
  | LinkSetUp (name : List Char)
  | ParseIPNet (ip : Option IPv4) (ones : Fin 33)
  | AddrAdd (name : List Char) (ip : IPv4) (ones : Fin 33)
  | Sleep
  | IptablesMasquerade (source : IPNet) (bridge : List Char)
  | IptablesDNAT (hostPort : List Char) (ip : Option IPv4) (containerPort : List Char)
  | OpenNetns (pid : List Char)
  | LockOSThread
  | LinkSetNsFd (link : List Char) (pid : List Char)
  | NetnsGet
  | NetnsSetContainer (pid : List Char)
  | NetnsSetOrigin
  | CloseOrigin
  | UnlockOSThread
  | CloseNetns
  | RouteAddDefault (dev : List Char) (gw : IPv4)
deriving DecidableEq, Repr

/-- The answer of the host to a call. `notFound` only matters for `InterfaceByName`, whose
error text decides whether the bridge is created. -/
inductive HostAnswer where
  | ok
  | notFound
  | failed
deriving DecidableEq, Repr

/-- The host: the answer to a call, given the calls made so far (oldest first). -/
abbrev Host := List HostCall → HostCall → HostAnswer

/-- Make a call: the answer, and the record with the call appended. -/
def Host.call (host : Host) (log : List HostCall) (c : HostCall) : HostAnswer × List HostCall :=
  (host log c, log ++ [c])

/-- An error value returned by the network code. -/
inductive NetErr where
  | NoSuchNetwork (name : List Char)
  | Ipam (e : LoadErr)
  | Host (c : HostCall)
deriving DecidableEq, Repr

/-- How a function of the network code ends: it returns nil, returns an error, or the
run-time panics. -/
inductive Res where
  | ok
  | err (e : NetErr)
  | panic
deriving DecidableEq, Repr

/-- The struct `Network`. -/
structure Network where
  Name : List Char
  IpRange : IPNet
  Driver : List Char
deriving DecidableEq, Repr

/-- The device of an endpoint, `netlink.Veth`: its name, the bridge it is enslaved to and
the name of the peer. -/
structure Veth where
  Name : List Char
  Master : List Char
  PeerName : List Char
deriving DecidableEq, Repr

/-- The struct `Endpoint`. `IPAddress` is `none` for the nil `net.IP`. -/
structure Endpoint where
  ID : List Char
  Device : Veth
  IPAddress : Option IPv4
  Network : Network
  PortMapping : List (List Char)
deriving DecidableEq, Repr

/-- The fields of `container.ContainerInfo` the network code reads. -/
structure ContainerInfo where
  Pid : List Char
  Id : List Char
  Name : List Char
  PortMapping : List (List Char)
deriving DecidableEq, Repr

/-! ## The bridge driver (`bridge.go`) -/

/-- The function `createBridgeInterface`: nothing to do when the interface exists; any lookup
error other than "no such network interface" is returned; otherwise the bridge is added. -/
def createBridgeInterface (host : Host) (log : List HostCall) (bridgeName : List Char) :
    Res × List HostCall :=
  let (a, log1) := host.call log (HostCall.InterfaceByName bridgeName)
  match a with
  | HostAnswer.ok => (Res.ok, log1)
  | HostAnswer.failed => (Res.err (NetErr.Host (HostCall.InterfaceByName bridgeName)), log1)
  | HostAnswer.notFound =>
    let (a2, log2) := host.call log1 (HostCall.LinkAddBridge bridgeName)
    match a2 with
    | HostAnswer.ok => (Res.ok, log2)
    | _ => (Res.err (NetErr.Host (HostCall.LinkAddBridge bridgeName)), log2)

/-- The lookup loop of `setInterfaceIP`: at most `retries` lookups, a sleep after each one
that fails; the result says whether the last lookup succeeded. -/
def lookupWithRetry (host : Host) (name : List Char) :
    Nat → List HostCall → Bool × List HostCall
  | 0, log => (false, log)
  | n + 1, log =>
    let (a, log1) := host.call log (HostCall.LinkByName name)
    match a with
    | HostAnswer.ok => (true, log1)
    | _ =>
      let (_, log2) := host.call log1 HostCall.Sleep
      match n with
      | 0 => (false, log2)
      | _ + 1 => lookupWithRetry host name n log2

/-- The function `setInterfaceIP`; `rawIP` is the text of the address and mask length, and
`netlink.ParseIPNet` fails on the text of a nil address. -/
def setInterfaceIP (host : Host) (log : List HostCall) (name : List Char)
    (rawIP : Option IPv4 × Fin 33) : Res × List HostCall :=
  let (found, log1) := lookupWithRetry host name 2 log
  if found then
    match rawIP.1 with
    | none => (Res.err (NetErr.Host (HostCall.ParseIPNet none rawIP.2)), log1)
    | some ip =>
      let (a, log2) := host.call log1 (HostCall.AddrAdd name ip rawIP.2)
      match a with
      | HostAnswer.ok => (Res.ok, log2)
      | _ => (Res.err (NetErr.Host (HostCall.AddrAdd name ip rawIP.2)), log2)
  else (Res.err (NetErr.Host (HostCall.LinkByName name)), log1)

/-- The function `setInterfaceUP`.  When the lookup fails the error message is built from
`iface.Attrs().Name` with `iface` nil, which panics. -/
def setInterfaceUP (host : Host) (log : List HostCall) (interfaceName : List Char) :
    Res × List HostCall :=
  let (a, log1) := host.call log (HostCall.LinkByName interfaceName)
  match a with
  | HostAnswer.ok =>
    let (a2, log2) := host.call log1 (HostCall.LinkSetUp interfaceName)
    match a2 with
    | HostAnswer.ok => (Res.ok, log2)
    | _ => (Res.err (NetErr.Host (HostCall.LinkSetUp interfaceName)), log2)
  | _ => (Res.panic, log1)

/-- The function `setupIPTables`: one `iptables` command adding the masquerade rule. -/
def setupIPTables (host : Host) (log : List HostCall) (bridgeName : List Char)
    (subnet : IPNet) : Res × List HostCall :=
  let (a, log1) := host.call log (HostCall.IptablesMasquerade subnet bridgeName)
  match a with
  | HostAnswer.ok => (Res.ok, log1)
  | _ => (Res.err (NetErr.Host (HostCall.IptablesMasquerade subnet bridgeName)), log1)

/-- The method `BridgeNetworkDriver.initBridge`. -/
def initBridge (host : Host) (log : List HostCall) (n : Network) : Res × List HostCall :=
  match createBridgeInterface host log n.Name with
  | (Res.ok, log1) =>
    match setInterfaceIP host log1 n.Name (some n.IpRange.IP, n.IpRange.ones) with
    | (Res.ok, log2) =>
      match setInterfaceUP host log2 n.Name with
      | (Res.ok, log3) => setupIPTables host log3 n.Name n.IpRange
      | r => r
    | r => r
  | r => r

/-- The method `BridgeNetworkDriver.Create` on the text `ip/ones`: the network keeps the
address as written, not the masked one; the network is returned together with the result
of `initBridge`. -/
def BridgeNetworkDriver.Create (host : Host) (log : List HostCall) (subnet : IPv4 × Fin 33)
    (name : List Char) : Network × Res × List HostCall :=
  let (ip, ipRange) := ParseCIDR subnet.1 subnet.2
  let n : Network :=
    { Name := name, IpRange := { ipRange with IP := ip }, Driver := "bridge".toList }
  (n, initBridge host log n)

/-- The method `BridgeNetworkDriver.Delete`. -/
def BridgeNetworkDriver.Delete (host : Host) (log : List HostCall) (network : Network) :
    Res × List HostCall :=
  let (a, log1) := host.call log (HostCall.LinkByName network.Name)
  match a with
  | HostAnswer.ok =>
    let (a2, log2) := host.call log1 (HostCall.LinkDel network.Name)
    match a2 with
    | HostAnswer.ok => (Res.ok, log2)
    | _ => (Res.err (NetErr.Host (HostCall.LinkDel network.Name)), log2)
  | _ => (Res.err (NetErr.Host (HostCall.LinkByName network.Name)), log1)

/-- The method `BridgeNetworkDriver.Connect`: the endpoint with its device filled in and the
result.  The id is a Go string, the list of its bytes: `endpoint.ID[:5]` is its first 5
bytes, and it panics on an id shorter than 5 bytes. -/
def BridgeNetworkDriver.Connect (host : Host) (log : List HostCall) (network : Network)
    (endpoint : Endpoint) : Endpoint × Res × List HostCall :=
  let (a, log1) := host.call log (HostCall.LinkByName network.Name)
  match a with
  | HostAnswer.ok =>
    if endpoint.ID.length < 5 then (endpoint, Res.panic, log1)
    else
      let dev : Veth :=
        { Name := endpoint.ID.take 5, Master := network.Name,
          PeerName := "cif-".toList ++ endpoint.ID.take 5 }
      let ep := { endpoint with Device := dev }
      let add := HostCall.LinkAddVeth dev.Name dev.Master dev.PeerName
      let (a2, log2) := host.call log1 add
      match a2 with
      | HostAnswer.ok =>
        let (a3, log3) := host.call log2 (HostCall.LinkSetUp dev.Name)
        match a3 with
        | HostAnswer.ok => (ep, Res.ok, log3)
        | _ => (ep, Res.err (NetErr.Host (HostCall.LinkSetUp dev.Name)), log3)
      | _ => (ep, Res.err (NetErr.Host add), log2)
  | _ => (endpoint, Res.err (NetErr.Host (HostCall.LinkByName network.Name)), log1)

/-! ## The network orchestrator (`network.go`) -/

/-- Assignment `m[k] = v` in a Go map kept as an association list. -/
def assocSet {β : Type} : List (List Char × β) → List Char → β → List (List Char × β)
  | [], key, val => [(key, val)]
  | (k, v) :: rest, key, val =>
    if key = k then (k, val) :: rest else (k, v) :: assocSet rest key val

/-- Removal of the entry of a key. -/
def assocErase {β : Type} : List (List Char × β) → List Char → List (List Char × β)
  | [], _ => []
  | (k, v) :: rest, key => if key = k then assocErase rest key else (k, v) :: assocErase rest key

/-- Everything the network commands read and change: the allocator file, the package
variables `drivers` and `networks`, the descriptor files under `defaultNetworkPath` (one
per network, kept as the `Network` each one decodes to), and the record of host calls.
Only `BridgeNetworkDriver` implements `NetworkDriver`, so `drivers` is the list of names
it is registered under; any other name maps to the nil interface. -/
structure World where
  ipam : AllocFile
  drivers : List (List Char)
  networks : List (List Char × Network)
  netDir : List (List Char × Network)
  log : List HostCall
deriving DecidableEq, Repr

/-- The function `Init`: the bridge driver is registered under its name and every descriptor
file is loaded into `networks` under its file name. -/
def Init (w : World) : World :=
  { w with
    drivers := if "bridge".toList ∈ w.drivers then w.drivers else "bridge".toList :: w.drivers
    networks := w.netDir.foldl (fun reg e => assocSet reg e.1 e.2) w.networks }

/-- The function `CreateNetwork` on the driver name, the subnet text `ip/ones` and the
network name.  A call of a method on the nil interface `drivers[driver]` panics, and so
does `Create` on the text of a nil address; the descriptor is written only when `Create`
returned no error. -/
def CreateNetwork (host : Host) (w : World) (driver : List Char) (subnet : IPv4 × Fin 33)
    (name : List Char) : Res × World :=
  let cidr := (ParseCIDR subnet.1 subnet.2).2
  let r := IPAM.Allocate w.ipam cidr
  let w1 := { w with ipam := r.file }
  match r.err with
  | some e => (Res.err (NetErr.Ipam e), w1)
  | none =>
    if driver ∈ w1.drivers then
      match r.ip with
      | none => (Res.panic, w1)
      | some ip =>
        match BridgeNetworkDriver.Create host w1.log (ip, cidr.ones) name with
        | (nw, Res.ok, log1) =>
          (Res.ok, { w1 with log := log1, netDir := assocSet w1.netDir nw.Name nw })
        | (_, r1, log1) => (r1, { w1 with log := log1 })
    else (Res.panic, w1)

/-- The function `DeleteNetwork`.  `Release` is handed `&nw.IpRange.IP`, so the registered
network holds the address as `Release` left it. -/
def DeleteNetwork (host : Host) (w : World) (networkName : List Char) : Res × World :=
  match w.networks.lookup networkName with
  | none => (Res.err (NetErr.NoSuchNetwork networkName), w)
  | some nw =>
    match IPAM.Release w.ipam nw.IpRange nw.IpRange.IP with
    | ReleaseResult.panicked file ipAfter =>
      let nw1 := { nw with IpRange := { nw.IpRange with IP := ipAfter } }
      (Res.panic, { w with ipam := file, networks := assocSet w.networks networkName nw1 })
    | ReleaseResult.returned file ipAfter =>
      let nw1 := { nw with IpRange := { nw.IpRange with IP := ipAfter } }
      let w1 := { w with ipam := file, networks := assocSet w.networks networkName nw1 }
      if nw1.Driver ∈ w1.drivers then
        match BridgeNetworkDriver.Delete host w1.log nw1 with
        | (Res.ok, log1) =>
          (Res.ok, { w1 with log := log1, netDir := assocErase w1.netDir nw1.Name })
        | (r1, log1) => (r1, { w1 with log := log1 })
      else (Res.panic, w1)

/-- The function `enterContainerNetns` up to its `return`: every error is only logged. -/
def enterContainerNetns (host : Host) (log : List HostCall) (enLink : List Char)
    (cinfo : ContainerInfo) : List HostCall :=
  let log1 := (host.call log (HostCall.OpenNetns cinfo.Pid)).2
  let log2 := (host.call log1 HostCall.LockOSThread).2
  let log3 := (host.call log2 (HostCall.LinkSetNsFd enLink cinfo.Pid)).2
  let log4 := (host.call log3 HostCall.NetnsGet).2
  (host.call log4 (HostCall.NetnsSetContainer cinfo.Pid)).2

/-- The function `enterContainerNetns` returns, run: back to the original namespace. -/
def leaveContainerNetns (host : Host) (log : List HostCall) : List HostCall :=
  let log1 := (host.call log HostCall.NetnsSetOrigin).2
  let log2 := (host.call log1 HostCall.CloseOrigin).2
  let log3 := (host.call log2 HostCall.UnlockOSThread).2
  (host.call log3 HostCall.CloseNetns).2

/-- The body of `configEndpointIpAddressAndRoute` after the `defer`: address, peer up,
loopback up, default route through the gateway `ep.Network.IpRange.IP`. -/
def configInsideNetns (host : Host) (log : List HostCall) (ep : Endpoint) :
    Res × List HostCall :=
  match setInterfaceIP host log ep.Device.PeerName (ep.IPAddress, ep.Network.IpRange.ones) with
  | (Res.ok, log1) =>
    match setInterfaceUP host log1 ep.Device.PeerName with
    | (Res.ok, log2) =>
      match setInterfaceUP host log2 "lo".toList with
      | (Res.ok, log3) =>
        let route := HostCall.RouteAddDefault ep.Device.PeerName ep.Network.IpRange.IP
        let (a, log4) := host.call log3 route
        match a with
        | HostAnswer.ok => (Res.ok, log4)
        | _ => (Res.err (NetErr.Host route), log4)
      | r => r
    | r => r
  | r => r

/-- The function `configEndpointIpAddressAndRoute`: the deferred function runs however the
body ends. -/
def configEndpointIpAddressAndRoute (host : Host) (log : List HostCall) (ep : Endpoint)
    (cinfo : ContainerInfo) : Res × List HostCall :=
  let (a, log1) := host.call log (HostCall.LinkByName ep.Device.PeerName)
  match a with
  | HostAnswer.ok =>
    let log2 := enterContainerNetns host log1 ep.Device.PeerName cinfo
    let (r, log3) := configInsideNetns host log2 ep
    (r, leaveContainerNetns host log3)
  | _ => (Res.err (NetErr.Host (HostCall.LinkByName ep.Device.PeerName)), log1)

/-- The function `configPortMapping`: one DNAT rule for every mapping that splits into two
parts at the colon; failures are logged and skipped, the result is always nil. -/
def configPortMapping (host : Host) (ep : Endpoint) :
    List (List Char) → List HostCall → List HostCall
  | [], log => log
  | pm :: rest, log =>
    match strSplit ':' pm with
    | [hostPort, containerPort] =>
      configPortMapping host ep rest
        (host.call log (HostCall.IptablesDNAT hostPort ep.IPAddress containerPort)).2
    | _ => configPortMapping host ep rest log

/-- The function `Connect`, together with the endpoint it built (`none` when it returned
before building one). -/
def Connect (host : Host) (w : World) (networkName : List Char) (cinfo : ContainerInfo) :
    Res × Option Endpoint × World :=
  match w.networks.lookup networkName with
  | none => (Res.err (NetErr.NoSuchNetwork networkName), none, w)
  | some network =>
    let r := IPAM.Allocate w.ipam network.IpRange
    let w1 := { w with ipam := r.file }
    match r.err with
    | some e => (Res.err (NetErr.Ipam e), none, w1)
    | none =>
      let ep : Endpoint :=
        { ID := cinfo.Id ++ '-' :: networkName, Device := { Name := [], Master := [], PeerName := [] },
          IPAddress := r.ip, Network := network, PortMapping := cinfo.PortMapping }
      if network.Driver ∈ w1.drivers then
        match BridgeNetworkDriver.Connect host w1.log network ep with
        | (ep1, Res.ok, log1) =>
          match configEndpointIpAddressAndRoute host log1 ep1 cinfo with
          | (Res.ok, log2) =>
            (Res.ok, some ep1, { w1 with log := configPortMapping host ep1 ep1.PortMapping log2 })
          | (r2, log2) => (r2, some ep1, { w1 with log := log2 })
        | (ep1, r1, log1) => (r1, some ep1, { w1 with log := log1 })
      else (Res.panic, some ep, w1)

/-! ## The container init process (`container/init.go`) -/

/-- A system call or library call of the init sequence. -/
inductive SysCall where
  | Getwd
  | MountBind (root : List Char)
  | Mkdir (dir : List Char)
  | PivotRoot (root : List Char) (putOld : List Char)
  | Chdir (dir : List Char)
  | Unmount (dir : List Char)
  | Remove (dir : List Char)
  | MountProc
  | MountDev
  | LookPath (file : List Char)
  | Exec (path : List Char) (argv : List (List Char))
deriving DecidableEq, Repr

/-- The machine the init process runs on: the directory `Getwd` reports, the path
`LookPath` resolves a command to, and whether a call succeeds given the calls made so far. -/
structure InitEnv where
  pwd : List Char
  resolve : List Char → List Char
  succeeds : List SysCall → SysCall → Bool

/-- Make a system call: whether it succeeded, and the record with the call appended. -/
def InitEnv.call (env : InitEnv) (log : List SysCall) (c : SysCall) : Bool × List SysCall :=
  (env.succeeds log c, log ++ [c])

/-- The function `pivotRoot`: `true` when it returned nil.  Each step that fails returns its
error at once. -/
def pivotRoot (env : InitEnv) (log : List SysCall) (root : List Char) : Bool × List SysCall :=
  let (ok1, log1) := env.call log (SysCall.MountBind root)
  if ok1 then
    let pivotDir := root ++ "/.pivot_root".toList
    let (ok2, log2) := env.call log1 (SysCall.Mkdir pivotDir)
    if ok2 then
      let (ok3, log3) := env.call log2 (SysCall.PivotRoot root pivotDir)
      if ok3 then
        let (ok4, log4) := env.call log3 (SysCall.Chdir "/".toList)
        if ok4 then
          let (ok5, log5) := env.call log4 (SysCall.Unmount "/.pivot_root".toList)
          if ok5 then env.call log5 (SysCall.Remove "/.pivot_root".toList)
          else (false, log5)
        else (false, log4)
      else (false, log3)
    else (false, log2)
  else (false, log1)

/-- The function `setUpMount`: it returns nothing; the result of `pivotRoot` and of the two
mounts is dropped. -/
def setUpMount (env : InitEnv) (log : List SysCall) : List SysCall :=
  let (ok, log1) := env.call log SysCall.Getwd
  if ok then
    let log2 := (pivotRoot env log1 env.pwd).2
    let log3 := (env.call log2 SysCall.MountProc).2
    (env.call log3 SysCall.MountDev).2
  else log1

/-- The function `readUserCommand` on what the pipe delivers (`none`: the read failed). -/
def readUserCommand (msg : Option (List Char)) : Option (List (List Char)) :=
  msg.map (strSplit ' ')

/-- How `RunContainerInitProcess` ends. -/
inductive InitEnd where
  | noCommand
  | lookPathFailed
  | execed (path : List Char) (argv : List (List Char))
  | execFailed
deriving DecidableEq, Repr

/-- The function `RunContainerInitProcess`: how it ends and the calls it made, in order. -/
def RunContainerInitProcess (env : InitEnv) (msg : Option (List Char)) :
    InitEnd × List SysCall :=
  match readUserCommand msg with
  | none => (InitEnd.noCommand, [])
  | some [] => (InitEnd.noCommand, [])
  | some (cmd :: args) =>
    let log1 := setUpMount env []
    let (found, log2) := env.call log1 (SysCall.LookPath cmd)
    if found then
      let (ok, log3) := env.call log2 (SysCall.Exec (env.resolve cmd) (cmd :: args))
      if ok then (InitEnd.execed (env.resolve cmd) (cmd :: args), log3)
      else (InitEnd.execFailed, log3)
    else (InitEnd.lookPathFailed, log2)

/-! ## The workspace (`container/volume.go`)

The functions of `volume.go` work on directories and mounts.  The embedding keeps the set
of directories that exist (what `os.Stat` looks at) and the record of the calls made;
whether a call succeeds is the host's answer, given the record so far.  Error reports
(`log.Errorf`, and `log.Infof` of an error) are part of the record. -/

/-- The package variable `RootUrl`. -/
def RootUrl : List Char := "/root".toList

/-- The text `fmt.Sprintf(MntUrl, containerName)`. -/
def mntUrlOf (containerName : List Char) : List Char := "/root/mnt/".toList ++ containerName

/-- The text `fmt.Sprintf(WriteLayerUrl, containerName)`. -/
def writeLayerUrlOf (containerName : List Char) : List Char :=
  "/root/writeLayer/".toList ++ containerName

/-- A call of `volume.go` into the operating system: `os.Stat`, `os.MkdirAll`, `os.Mkdir`,
`tar -xvf archive -C target`, `mount -t aufs -o dirs none target`, `umount`,
`os.RemoveAll`. -/
inductive WsCall where
  | Stat (path : List Char)
  | MkdirAll (path : List Char)
  | Mkdir (path : List Char)
  | Untar (archive : List Char) (target : List Char)
  | MountAufs (dirs : List Char) (target : List Char)
  | Umount (path : List Char)
  | RemoveAll (path : List Char)
deriving DecidableEq, Repr

/-- The answer to a workspace call; `notExist` only matters for `Stat`. -/
inductive WsAnswer where
  | ok
  | notExist
  | failed
deriving DecidableEq, Repr

/-- An entry of the record: a call made, the report of a failed call, or the message that
the volume parameter is not correct. -/
inductive WsEvent where
  | call (c : WsCall)
  | logged (c : WsCall)
  | volumeIgnored
deriving DecidableEq, Repr

/-- The host of the workspace: the answer to a call, given the record so far. -/
abbrev WsHost := List WsEvent → WsCall → WsAnswer

/-- The directories that exist and the record of calls and reports, oldest first. -/
structure WsWorld where
  dirs : List (List Char)
  trace : List WsEvent
deriving DecidableEq, Repr

/-- Whether `path` is `dir` or lies below it. -/
def liesUnder (dir : List Char) (path : List Char) : Bool :=
  path == dir || (dir ++ ['/']).isPrefixOf path

/-- Make a call.  `Stat` fails when the host says so and otherwise reports whether the
directory exists; a successful `MkdirAll` or `Mkdir` makes the directory exist; a
successful `RemoveAll` removes it with everything below it. -/
def WsHost.call (host : WsHost) (w : WsWorld) (c : WsCall) : WsAnswer × WsWorld :=
  let w1 := { w with trace := w.trace ++ [WsEvent.call c] }
  match c with
  | WsCall.Stat path =>
    if host w.trace c = WsAnswer.failed then (WsAnswer.failed, w1)
    else if path ∈ w.dirs then (WsAnswer.ok, w1) else (WsAnswer.notExist, w1)
  | WsCall.MkdirAll path =>
    if host w.trace c = WsAnswer.ok then
      (WsAnswer.ok, { w1 with dirs := if path ∈ w.dirs then w.dirs else path :: w.dirs })
    else (WsAnswer.failed, w1)
  | WsCall.Mkdir path =>
    if host w.trace c = WsAnswer.ok then
      (WsAnswer.ok, { w1 with dirs := if path ∈ w.dirs then w.dirs else path :: w.dirs })
    else (WsAnswer.failed, w1)
  | WsCall.RemoveAll path =>
    if host w.trace c = WsAnswer.ok then
      (WsAnswer.ok, { w1 with dirs := w.dirs.filter (fun d => !liesUnder path d) })
    else (WsAnswer.failed, w1)
  | _ => if host w.trace c = WsAnswer.ok then (WsAnswer.ok, w1) else (WsAnswer.failed, w1)

/-- Record the report of a failed call. -/
def WsWorld.report (w : WsWorld) (c : WsCall) : WsWorld :=
  { w with trace := w.trace ++ [WsEvent.logged c] }

/-- An `error` result of a workspace function: nil, or the error of a call. -/
inductive WsRes where
  | ok
  | err (c : WsCall)
deriving DecidableEq, Repr

/-- The function `PathExists`: `(true, nil)`, `(false, nil)` or `(false, err)`. -/
def PathExists (host : WsHost) (w : WsWorld) (path : List Char) : WsAnswer × WsWorld :=
  host.call w (WsCall.Stat path)

/-- The function `CreateReadOnlyLayer`. -/
def CreateReadOnlyLayer (host : WsHost) (w : WsWorld) (imageName : List Char) :
    WsRes × WsWorld :=
  let unTarFolderUrl := RootUrl ++ "/".toList ++ imageName ++ "/".toList
  let imageUrl := RootUrl ++ "/".toList ++ imageName ++ ".tar".toList
  match PathExists host w unTarFolderUrl with
  | (WsAnswer.failed, w1) =>
    (WsRes.err (WsCall.Stat unTarFolderUrl), w1.report (WsCall.Stat unTarFolderUrl))
  | (WsAnswer.ok, w1) => (WsRes.ok, w1)
  | (WsAnswer.notExist, w1) =>
    match host.call w1 (WsCall.MkdirAll unTarFolderUrl) with
    | (WsAnswer.ok, w2) =>
      match host.call w2 (WsCall.Untar imageUrl unTarFolderUrl) with
      | (WsAnswer.ok, w3) => (WsRes.ok, w3)
      | (_, w3) =>
        (WsRes.err (WsCall.Untar imageUrl unTarFolderUrl),
          w3.report (WsCall.Untar imageUrl unTarFolderUrl))
    | (_, w2) =>
      (WsRes.err (WsCall.MkdirAll unTarFolderUrl), w2.report (WsCall.MkdirAll unTarFolderUrl))

/-- The function `CreateWriteLayer`: it returns nothing, a failure is only reported. -/
def CreateWriteLayer (host : WsHost) (w : WsWorld) (containerName : List Char) : WsWorld :=
  let writeURL := writeLayerUrlOf containerName
  match host.call w (WsCall.MkdirAll writeURL) with
  | (WsAnswer.ok, w1) => w1
  | (_, w1) => w1.report (WsCall.MkdirAll writeURL)

/-- The function `MountVolume` on the two parts of the volume parameter: two `Mkdir` whose
failure is only reported, then the mount of the host directory at the directory inside
the mount point. -/
def MountVolume (host : WsHost) (w : WsWorld) (parentUrl containerUrl : List Char)
    (containerName : List Char) : WsRes × WsWorld :=
  let w1 :=
    match host.call w (WsCall.Mkdir parentUrl) with
    | (WsAnswer.ok, w1) => w1
    | (_, w1) => w1.report (WsCall.Mkdir parentUrl)
  let containerVolumeURL := mntUrlOf containerName ++ "/".toList ++ containerUrl
  let w2 :=
    match host.call w1 (WsCall.Mkdir containerVolumeURL) with
    | (WsAnswer.ok, w2) => w2
    | (_, w2) => w2.report (WsCall.Mkdir containerVolumeURL)
  let mount := WsCall.MountAufs ("dirs=".toList ++ parentUrl) containerVolumeURL
  match host.call w2 mount with
  | (WsAnswer.ok, w3) => (WsRes.ok, w3)
  | (_, w3) => (WsRes.err mount, w3.report mount)

/-- The function `CreateMountPoint`: the writable layer first, then the image layer. -/
def CreateMountPoint (host : WsHost) (w : WsWorld) (containerName imageName : List Char) :
    WsRes × WsWorld :=
  let mntUrl := mntUrlOf containerName
  match host.call w (WsCall.MkdirAll mntUrl) with
  | (WsAnswer.ok, w1) =>
    let mount := WsCall.MountAufs
      ("dirs=".toList ++ writeLayerUrlOf containerName ++ ":".toList ++ RootUrl ++ "/".toList
        ++ imageName) mntUrl
    match host.call w1 mount with
    | (WsAnswer.ok, w2) => (WsRes.ok, w2)
    | (_, w2) => (WsRes.err mount, w2.report mount)
  | (_, w1) => (WsRes.err (WsCall.MkdirAll mntUrl), w1.report (WsCall.MkdirAll mntUrl))

/-- The test both `NewWorkSpace` and `DeleteWorkSpace` make on the volume parameter: it is
not empty, `strings.Split(volume, ":")` has length 2 and both parts are not empty.  The
result is the two parts when the test passes. -/
def volumeParts (volume : List Char) : Option (List Char × List Char) :=
  if volume ≠ [] then
    match strSplit ':' volume with
    | [a, b] => if a ≠ [] ∧ b ≠ [] then some (a, b) else none
    | _ => none
  else none

/-- The function `NewWorkSpace`: it returns nothing; the results of the three creation steps
and of `MountVolume` are dropped. -/
def NewWorkSpace (host : WsHost) (w : WsWorld) (volume imageName containerName : List Char) :
    WsWorld :=
  let w1 := (CreateReadOnlyLayer host w imageName).2
  let w2 := CreateWriteLayer host w1 containerName
  let w3 := (CreateMountPoint host w2 containerName imageName).2
  if volume ≠ [] then
    match volumeParts volume with
    | some (parentUrl, containerUrl) => (MountVolume host w3 parentUrl containerUrl containerName).2
    | none => { w3 with trace := w3.trace ++ [WsEvent.volumeIgnored] }
  else w3

/-- The function `DeleteVolume`. -/
def DeleteVolume (host : WsHost) (w : WsWorld) (containerUrl : List Char)
    (containerName : List Char) : WsRes × WsWorld :=
  let umount := WsCall.Umount (mntUrlOf containerName ++ "/".toList ++ containerUrl)
  match host.call w umount with
  | (WsAnswer.ok, w1) => (WsRes.ok, w1)
  | (_, w1) => (WsRes.err umount, w1.report umount)

/-- The function `DeleteMountPoint`: when the `umount` fails it returns at once. -/
def DeleteMountPoint (host : WsHost) (w : WsWorld) (containerName : List Char) :
    WsRes × WsWorld :=
  let mntURL := mntUrlOf containerName
  match host.call w (WsCall.Umount mntURL) with
  | (WsAnswer.ok, w1) =>
    match host.call w1 (WsCall.RemoveAll mntURL) with
    | (WsAnswer.ok, w2) => (WsRes.ok, w2)
    | (_, w2) => (WsRes.err (WsCall.RemoveAll mntURL), w2.report (WsCall.RemoveAll mntURL))
  | (_, w1) => (WsRes.err (WsCall.Umount mntURL), w1.report (WsCall.Umount mntURL))

/-- The function `DeleteWriteLayer`. -/
def DeleteWriteLayer (host : WsHost) (w : WsWorld) (containerName : List Char) : WsWorld :=
  let writeURL := writeLayerUrlOf containerName
  match host.call w (WsCall.RemoveAll writeURL) with
  | (WsAnswer.ok, w1) => w1
  | (_, w1) => w1.report (WsCall.RemoveAll writeURL)

/-- The function `DeleteWorkSpace`: the results of `DeleteVolume` and `DeleteMountPoint` are
dropped. -/
def DeleteWorkSpace (host : WsHost) (w : WsWorld) (volume containerName : List Char) :
    WsWorld :=
  let w1 :=
    match volumeParts volume with
    | some (_, containerUrl) => (DeleteVolume host w containerUrl containerName).2
    | none => w
  let w2 := (DeleteMountPoint host w1 containerName).2
  DeleteWriteLayer host w2 containerName

/-! ## The launcher and `Run` (`container/container_process.go`, `run.go`)

`Run` drives the workspace, the cgroup manager and the network code.  Its own record
holds the calls it makes itself and one entry for each of the larger steps; the workspace
and the network keep their own records.  The cgroup manager is not part of the embedded
sources: `Run` ignores what `Set`, `Apply` and `Destroy` return, so they are entries of
the record and nothing else. -/

/-- Go `strings.Join(elems, sep)`. -/
def strJoin (sep : List Char) : List (List Char) → List Char
  | [] => []
  | [a] => a
  | a :: b :: rest => a ++ sep ++ strJoin sep (b :: rest)

/-- The function `randStringBytes`: `n` characters of `"1234567890"`, character `i` picked
by draw `i` of `rand.Intn(10)`. -/
def randStringBytes (draws : Nat → Nat) (n : Nat) : List Char :=
  (List.range n).map (fun i => "1234567890".toList.getD (draws i % 10) '0')

/-- A call `Run` and `NewParentProcess` make themselves. -/
inductive ProcCall where
  | Pipe
  | Readlink
  | MkdirAll (path : List Char)
  | Create (path : List Char)
  | Start
  | WriteInfo (path : List Char)
  | Wait
  | RemoveAll (path : List Char)
deriving DecidableEq, Repr

/-- An entry of the record of `Run`. -/
inductive RunEvent where
  | call (c : ProcCall)
  | NewWorkSpace
  | CgroupSet
  | CgroupApply (pid : Nat)
  | CgroupDestroy
  | NetworkInit
  | NetworkConnect (name : List Char) (r : Res)
  | PipeWrite (command : List Char)
  | PipeClose
  | DeleteWorkSpace
deriving DecidableEq, Repr

/-- The machine `Run` runs on: whether one of its own calls succeeds given the record so
far, the path `/proc/self/exe` links to, the environment, the pid the child gets, the
draws of the random generator, and the hosts of the workspace and of the network. -/
structure RunEnv where
  succeeds : List RunEvent → ProcCall → Bool
  exe : List Char
  environ : List (List Char)
  pid : Nat
  draws : Nat → Nat
  wsHost : WsHost
  netHost : Host

/-- The state `Run` works on: its record, the workspace and the network. -/
structure RunState where
  trace : List RunEvent
  ws : WsWorld
  net : World
deriving DecidableEq, Repr

/-- Make one of the calls of `Run`. -/
def RunEnv.call (env : RunEnv) (st : RunState) (c : ProcCall) : Bool × RunState :=
  (env.succeeds st.trace c, { st with trace := st.trace ++ [RunEvent.call c] })

/-- The fields of the `exec.Cmd` the launcher fills in.  `Stdio` says that the three
standard streams are the parent's; `LogFile` is the file standard output goes to
otherwise; `ExtraFiles` holds the read end of the pipe. -/
structure Cmd where
  Path : List Char
  Args : List (List Char)
  Cloneflags : List (List Char)
  Stdio : Bool
  LogFile : Option (List Char)
  ExtraFiles : List (List Char)
  Env : List (List Char)
  Dir : List Char
deriving DecidableEq, Repr

/-- The text `fmt.Sprintf(DefaultInfoLocation, containerName)`. -/
def infoLocationOf (containerName : List Char) : List Char :=
  "/var/run/mydocker/".toList ++ containerName ++ "/".toList

/-- The function `NewParentProcess`: the command (`none` for the nil result) and the state.
`NewWorkSpace` returns nothing, so the command is handed back whatever happened in it. -/
def NewParentProcess (env : RunEnv) (st : RunState) (tty : Bool)
    (containerName volume imageName : List Char) (envSlice : List (List Char)) :
    Option Cmd × RunState :=
  let (ok1, st1) := env.call st ProcCall.Pipe
  if ok1 then
    let (ok2, st2) := env.call st1 ProcCall.Readlink
    if ok2 then
      let cmd : Cmd :=
        { Path := env.exe, Args := [env.exe, "init".toList],
          Cloneflags := ["CLONE_NEWUTS".toList, "CLONE_NEWPID".toList, "CLONE_NEWNS".toList,
            "CLONE_NEWNET".toList, "CLONE_NEWIPC".toList],
          Stdio := false, LogFile := none, ExtraFiles := [], Env := [], Dir := [] }
      let finish := fun (cmd1 : Cmd) (st3 : RunState) =>
        let st4 : RunState :=
          { st3 with
            ws := NewWorkSpace env.wsHost st3.ws volume imageName containerName
            trace := st3.trace ++ [RunEvent.NewWorkSpace] }
        (some { cmd1 with
            ExtraFiles := ["readPipe".toList], Env := env.environ ++ envSlice,
            Dir := mntUrlOf containerName }, st4)
      if tty then finish { cmd with Stdio := true } st2
      else
        let dirURL := infoLocationOf containerName
        let (ok3, st3) := env.call st2 (ProcCall.MkdirAll dirURL)
        if ok3 then
          let stdLogFilePath := dirURL ++ "container.log".toList
          let (ok4, st4) := env.call st3 (ProcCall.Create stdLogFilePath)
          if ok4 then finish { cmd with LogFile := some stdLogFilePath } st4
          else (none, st4)
        else (none, st3)
    else (none, st2)
  else (none, st1)

/-- The function `sendInitCommand`: the arguments joined by spaces are written to the pipe
and the pipe is closed. -/
def sendInitCommand (st : RunState) (comArray : List (List Char)) : RunState :=
  { st with
    trace := st.trace ++ [RunEvent.PipeWrite (strJoin " ".toList comArray), RunEvent.PipeClose] }

/-- The function `recordContainerInfo`: `true` when it returned no error. -/
def recordContainerInfo (env : RunEnv) (st : RunState) (containerName : List Char) :
    Bool × RunState :=
  let dirUrl := infoLocationOf containerName
  let (ok1, st1) := env.call st (ProcCall.MkdirAll dirUrl)
  if ok1 then
    let fileName := dirUrl ++ "/".toList ++ "config.json".toList
    let (ok2, st2) := env.call st1 (ProcCall.Create fileName)
    if ok2 then env.call st2 (ProcCall.WriteInfo fileName)
    else (false, st2)
  else (false, st1)

/-- How `Run` ends. -/
inductive RunEnd where
  | noParent
  | recordFailed
  | connectFailed (e : NetErr)
  | panicked
  | finished
deriving DecidableEq, Repr

/-- The function `Run`, started on a workspace and a network state with an empty record.
After a failed `Start` the process of the command is nil and reading its pid panics.
`cgroupManager.Destroy` is deferred once the manager exists and runs however the rest
ends. -/
def Run (env : RunEnv) (ws : WsWorld) (net : World) (tty : Bool) (comArray : List (List Char))
    (containerName volume imageName : List Char) (envSlice : List (List Char))
    (nw : List Char) (portmapping : List (List Char)) : RunEnd × RunState :=
  let st : RunState := { trace := [], ws := ws, net := net }
  let containerID := randStringBytes env.draws 10
  let containerName := if containerName = [] then containerID else containerName
  match NewParentProcess env st tty containerName volume imageName envSlice with
  | (none, st1) => (RunEnd.noParent, st1)
  | (some _, st1) =>
    let (started, st2) := env.call st1 ProcCall.Start
    if started then
      let (recorded, st3) := recordContainerInfo env st2 containerName
      if recorded then
        let st4 : RunState :=
          { st3 with trace := st3.trace ++ [RunEvent.CgroupSet, RunEvent.CgroupApply env.pid] }
        let destroy := fun (s : RunState) =>
          { s with trace := s.trace ++ [RunEvent.CgroupDestroy] }
        let rest := fun (st5 : RunState) =>
          let st6 := sendInitCommand st5 comArray
          if tty then
            let st7 := (env.call st6 ProcCall.Wait).2
            let st8 := (env.call st7 (ProcCall.RemoveAll (infoLocationOf containerName))).2
            let st9 : RunState :=
              { st8 with
                ws := DeleteWorkSpace env.wsHost st8.ws volume containerName
                trace := st8.trace ++ [RunEvent.DeleteWorkSpace] }
            (RunEnd.finished, destroy st9)
          else (RunEnd.finished, destroy st6)
        if nw ≠ [] then
          let containerInfo : ContainerInfo :=
            { Id := containerID, Pid := itoa env.pid, Name := containerName,
              PortMapping := portmapping }
          let connected := Connect env.netHost (Init st4.net) nw containerInfo
          let st5 : RunState :=
            { st4 with
              net := connected.2.2
              trace := st4.trace ++ [RunEvent.NetworkInit, RunEvent.NetworkConnect nw connected.1] }
          match connected.1 with
          | Res.ok => rest st5
          | Res.err e => (RunEnd.connectFailed e, destroy st5)
          | Res.panic => (RunEnd.panicked, destroy st5)
        else rest st4
      else (RunEnd.recordFailed, st3)
    else (RunEnd.panicked, st2)

/-! ## Well-formed states, runs and the scenarios used below -/

/-- The keys of the map are strictly increasing: the list is a Go map (no key twice) in the
order `encoding/json` writes it. -/
def Subnets.Sorted (m : Subnets) : Prop := m.Pairwise (fun a b => keyLt a.1 b.1 = true)

/-- Every key and every bitmap is a string of plain characters, so that `jsonMarshal`
writes it as `encoding/json` does.  Subnet texts and bitmaps of `'0'` and `'1'` are. -/
def Subnets.Plain (m : Subnets) : Prop :=
  ∀ e ∈ m, (∀ c ∈ e.1, plainChar c = true) ∧ (∀ c ∈ e.2, plainChar c = true)

/-- Number of bytes the members of the map take in the JSON text, each with its four
quotes, its colon and one comma. -/
def membersSize : Subnets → Nat
  | [] => 0
  | (k, v) :: rest => k.length + v.length + 6 + membersSize rest

/-- Successive calls of `IPAM.Allocate`, each one starting from the file the previous one
left; the results in order. -/
def allocRun : AllocFile → List IPNet → List AllocResult
  | _, [] => []
  | file, s :: rest =>
    let r := IPAM.Allocate file s
    r :: allocRun r.file rest

/-- A host on which every call succeeds; `InterfaceByName` may also report that the
interface does not exist yet. -/
def Host.Obliging (host : Host) : Prop :=
  ∀ log c, host log c = HostAnswer.ok ∨
    ((∃ n, c = HostCall.InterfaceByName n) ∧ host log c = HostAnswer.notFound)

/-- A host on which no interface exists beforehand and every other call succeeds. -/
def freshHost : Host := fun _ c =>
  match c with
  | HostCall.InterfaceByName _ => HostAnswer.notFound
  | _ => HostAnswer.ok

/-- The state of a machine on which nothing was created yet, at the start of a command:
no allocator file, no descriptor file, the package variables empty. -/
def emptyWorld : World :=
  { ipam := none, drivers := [], networks := [], netDir := [], log := [] }

/-- The subnet text `192.168.10.0/24`. -/
def testnetCIDR : IPv4 × Fin 33 := (⟨192, 168, 10, 0⟩, 24)

/-- A container with id `c1`. -/
def containerC1 : ContainerInfo :=
  { Pid := "4242".toList, Id := "c1".toList, Name := "c1".toList, PortMapping := [] }

/-- The subnet `10.0.0.0/16`. -/
def corpNet : IPNet := ⟨⟨10, 0, 0, 0⟩, 16⟩

/-- The map `Allocate` dumps after the first allocation in `10.0.0.0/16`: 65536 bits, the
first one set. -/
def corpMap : Subnets := [("10.0.0.0/16".toList, '1' :: List.replicate (2 ^ 16 - 1) '0')]

/-- The subnet `192.168.i.0/24`. -/
def lan (i : Fin 256) : IPNet := ⟨⟨192, 168, i, 0⟩, 24⟩

/-- A history of allocations: two addresses in `192.168.0.0/24`, the first address of seven
more subnets, then two more calls for `192.168.0.0/24`. -/
def lanHistory : List IPNet :=
  [lan 0, lan 0, lan 1, lan 2, lan 3, lan 4, lan 5, lan 6, lan 7, lan 0, lan 0]

/-- The map of eight `/24` subnets with the first address of each allocated. -/
def eightLans : Subnets :=
  (List.range 8).map (fun i => ((lan (u8 i)).String, '1' :: List.replicate 255 '0'))

/-- The subnet `192.168.0.4/30`. -/
def smallNet : IPNet := ⟨⟨192, 168, 0, 4⟩, 30⟩

/-- A machine on which the bind mount of the new root fails and every other call
succeeds; commands are found under `/bin`. -/
def brokenMountEnv : InitEnv :=
  { pwd := "/root/mnt/c1".toList
    resolve := fun cmd => "/bin/".toList ++ cmd
    succeeds := fun _ c =>
      match c with
      | SysCall.MountBind _ => false
      | _ => true }

/-- Entries of the record of `Run` that are one of its own calls or the workspace step. -/
def RunEvent.quiet : RunEvent → Bool
  | RunEvent.call _ => true
  | RunEvent.NewWorkSpace => true
  | _ => false

/-- Entries of the record of `Run` that write the command to the pipe. -/
def RunEvent.isPipeWrite : RunEvent → Bool
  | RunEvent.PipeWrite _ => true
  | _ => false

/-- Host calls that switch the network namespace or pin or release the thread. -/
def HostCall.switches : HostCall → Bool
  | HostCall.LockOSThread => true
  | HostCall.UnlockOSThread => true
  | HostCall.NetnsSetContainer _ => true
  | HostCall.NetnsSetOrigin => true
  | _ => false

/-- A workspace host on which every call succeeds. -/
def allOkWs : WsHost := fun _ _ => WsAnswer.ok

/-- A workspace host on which every `umount` fails (the mount point is busy, say) and
every other call succeeds. -/
def busyMountWs : WsHost := fun _ c =>
  match c with
  | WsCall.Umount _ => WsAnswer.failed
  | _ => WsAnswer.ok

/-- A workspace host without the image archive: `tar` fails, and so does the union mount
over the empty image directory; every other call succeeds. -/
def missingImageWs : WsHost := fun _ c =>
  match c with
  | WsCall.Untar _ _ => WsAnswer.failed
  | WsCall.MountAufs _ _ => WsAnswer.failed
  | _ => WsAnswer.ok

/-- A machine with no directory recorded and an empty record. -/
def emptyWs : WsWorld := { dirs := [], trace := [] }

/-- A machine on which every call of `Run` itself succeeds, with the given workspace host;
the child gets pid 4242 and every random draw is 0. -/
def launchEnv (wsHost : WsHost) : RunEnv :=
  { succeeds := fun _ _ => true
    exe := "/usr/bin/mydocker".toList
    environ := []
    pid := 4242
    draws := fun _ => 0
    wsHost := wsHost
    netHost := freshHost }

/-- A host on which adding an address to an interface fails and every other call
succeeds. -/
def addrFailHost : Host := fun _ c =>
  match c with
  | HostCall.AddrAdd _ _ _ => HostAnswer.failed
  | _ => HostAnswer.ok

/-- The endpoint of container `c1` on the network `testnet` after the bridge driver has
filled in the device. -/
def endpointC1 : Endpoint :=
  { ID := "c1-testnet".toList
    Device :=
      { Name := "c1-te".toList, Master := "testnet".toList, PeerName := "cif-c1-te".toList }
    IPAddress := some ⟨192, 168, 0, 2⟩
    Network :=
      { Name := "testnet".toList, IpRange := ⟨⟨192, 168, 0, 1⟩, 24⟩,
        Driver := "bridge".toList }
    PortMapping := [] }

/-- A host on which a link can no longer be looked up once an address was added to an
interface: the lookups before that succeed, the ones after it fail; no interface exists
beforehand and every other call succeeds. -/
def vanishingLinkHost : Host := fun log c =>
  match c with
  | HostCall.InterfaceByName _ => HostAnswer.notFound
  | HostCall.LinkByName _ =>
    if log.any (fun d => match d with
      | HostCall.AddrAdd _ _ _ => true
      | _ => false) then HostAnswer.failed
    else HostAnswer.ok
  | _ => HostAnswer.ok

/-- The subnet text `10.0.0.0/16`. -/
def corpCIDR : IPv4 × Fin 33 := (⟨10, 0, 0, 0⟩, 16)

/-- The network `corp` as `CreateNetwork` stores it: the range holds the gateway address
`10.0.0.1` with the mask length 16. -/
def corpNetwork : Network :=
  { Name := "corp".toList, IpRange := ⟨⟨10, 0, 0, 1⟩, 16⟩, Driver := "bridge".toList }

/-- The history of allocations that fills `192.168.0.4/30` and then takes the first address
of eight `/24` subnets. -/
def crowdedHistory : List IPNet :=
  [smallNet, smallNet, smallNet, smallNet, lan 1, lan 2, lan 3, lan 4, lan 5, lan 6, lan 7,
    lan 8]

/-- The map after `crowdedHistory`: every bit of `192.168.0.4/30` set, and the first bit of
`192.168.1.0/24` to `192.168.8.0/24`. -/
def crowdedMap : Subnets :=
  (smallNet.String, "1111".toList) ::
    (List.range 8).map (fun i => ((lan (u8 (i + 1))).String, '1' :: List.replicate 255 '0'))

/-- The map after the first nine calls of `lanHistory`: two bits of `192.168.0.0/24` set,
and the first bit of `192.168.1.0/24` to `192.168.7.0/24`. -/
def nineCallsMap : Subnets :=
  ((lan 0).String, '1' :: '1' :: List.replicate 254 '0') ::
    (List.range 7).map (fun i => ((lan (u8 (i + 1))).String, '1' :: List.replicate 255 '0'))

/-- Where the calling thread stands: whether it is in the network namespace of the
container, and whether it is locked to its OS thread. -/
structure NetnsState where
  inContainer : Bool
  locked : Bool
deriving DecidableEq, Repr

/-- The effect of one host call on where the thread stands, `done` being the calls made
before it: a `netns.Set` that the host answers with success moves the thread, one that
fails leaves it where it is. -/
def netnsStep (host : Host) (done : List HostCall) (s : NetnsState) (c : HostCall) :
    NetnsState :=
  match c with
  | HostCall.LockOSThread => { s with locked := true }
  | HostCall.UnlockOSThread => { s with locked := false }
  | HostCall.NetnsSetContainer _ =>
    if host done c = HostAnswer.ok then { s with inContainer := true } else s
  | HostCall.NetnsSetOrigin =>
    if host done c = HostAnswer.ok then { s with inContainer := false } else s
  | _ => s

/-- Where the thread stands after the calls `todo`, made after the calls `done`. -/
def netnsReplay (host : Host) : List HostCall → List HostCall → NetnsState → NetnsState
  | _, [], s => s
  | done, c :: todo, s => netnsReplay host (done ++ [c]) todo (netnsStep host done s c)

/-- The host `host` with `netns.Get` failing: `origns` is then the invalid handle, so
`netns.Set(origns)` fails as well. -/
def lostOrigin (host : Host) : Host := fun log c =>
  match c with
  | HostCall.NetnsGet => HostAnswer.failed
  | HostCall.NetnsSetOrigin => HostAnswer.failed
  | _ => host log c

/-! ## Lemmas -/

/-! ## Map lemmas -/

theorem keyLt_irrefl (a : List Char) : keyLt a a = false := by
  induction a with
  | nil => rfl
  | cons x xs ih => simp [keyLt, ih]

theorem keyLt_asymm : ∀ (a b : List Char), keyLt a b = true → keyLt b a = false
  | [], [], h => by simp [keyLt] at h
  | [], _ :: _, _ => by simp [keyLt]
  | _ :: _, [], h => by simp [keyLt] at h
  | x :: xs, y :: ys, h => by
    simp only [keyLt, Bool.or_eq_true, decide_eq_true_eq, Bool.and_eq_true, beq_iff_eq] at h
    simp only [keyLt, Bool.or_eq_false_iff, decide_eq_false_iff_not, Bool.and_eq_false_imp,
      beq_iff_eq]
    rcases h with h | ⟨h1, h2⟩
    · exact ⟨by omega, fun h' => by omega⟩
    · exact ⟨by omega, fun _ => keyLt_asymm xs ys h2⟩

theorem get?_set_self (m : Subnets) (k v : List Char) : (m.set k v).get? k = some v := by
  induction m with
  | nil => simp [Subnets.set, Subnets.get?]
  | cons e rest ih =>
    obtain ⟨k', v'⟩ := e
    simp only [Subnets.set]
    split_ifs with h1 h2
    · simp [Subnets.get?, h1]
    · simp [Subnets.get?]
    · simp [Subnets.get?, h1, ih]

theorem get?_set_other (m : Subnets) (k k' v : List Char) (h : k' ≠ k) :
    (m.set k v).get? k' = m.get? k' := by
  induction m with
  | nil => simp [Subnets.set, Subnets.get?, h]
  | cons e rest ih =>
    obtain ⟨k0, v0⟩ := e
    simp only [Subnets.set]
    split_ifs with h1 h2
    · subst h1; simp [Subnets.get?, h]
    · simp [Subnets.get?, h]
    · by_cases h3 : k' = k0
      · simp [Subnets.get?, h3]
      · simp [Subnets.get?, h3, ih]

theorem set_append_last (m : Subnets) (k v : List Char)
    (h : ∀ e ∈ m, keyLt e.1 k = true) : m.set k v = m ++ [(k, v)] := by
  induction m with
  | nil => rfl
  | cons e rest ih =>
    obtain ⟨k0, v0⟩ := e
    have h0 : keyLt k0 k = true := h (k0, v0) (List.mem_cons_self _ _)
    have hne : k ≠ k0 := by
      intro hk; subst hk; rw [keyLt_irrefl] at h0; exact Bool.false_ne_true h0
    have hnlt : keyLt k k0 = false := keyLt_asymm _ _ h0
    simp only [Subnets.set, hne, hnlt, if_false, Bool.false_eq_true, List.cons_append]
    rw [ih (fun e he => h e (List.mem_cons_of_mem _ he))]

theorem foldl_set_sorted (es acc : Subnets) (h : Subnets.Sorted (acc ++ es)) :
    es.foldl (fun m e => m.set e.1 e.2) acc = acc ++ es := by
  induction es generalizing acc with
  | nil => simp
  | cons e es ih =>
    have hlast : ∀ a ∈ acc, keyLt a.1 e.1 = true := by
      intro a ha
      have := List.pairwise_append.mp h
      exact this.2.2 a ha e (List.mem_cons_self _ _)
    simp only [List.foldl_cons]
    rw [set_append_last acc e.1 e.2 hlast]
    have h' : Subnets.Sorted ((acc ++ [(e.1, e.2)]) ++ es) := by
      simpa [Subnets.Sorted] using h
    rw [ih _ h']
    simp


theorem plainChar_ne_dquote (c : Char) (h : plainChar c = true) : c ≠ dquote := by
  intro hc
  subst hc
  revert h
  decide

theorem scan_key_body (s : List Char) (hs : ∀ c ∈ s, plainChar c = true)
    (acc : List Char) (m : Subnets) (rest : List Char) :
    jsonScan (Scan.inKey acc) m (s ++ dquote :: rest)
      = jsonScan (Scan.colon (acc.reverse ++ s)) m rest := by
  induction s generalizing acc with
  | nil => simp [jsonScan]
  | cons c cs ih =>
    have hc : plainChar c = true := hs c (List.mem_cons_self _ _)
    have hne : c ≠ dquote := plainChar_ne_dquote c hc
    simp only [List.cons_append, jsonScan, hne, if_false, hc, if_true]
    refine (ih (fun x hx => hs x (List.mem_cons_of_mem _ hx)) (c :: acc)).trans ?_
    simp

theorem scan_value_body (s : List Char) (hs : ∀ c ∈ s, plainChar c = true)
    (k acc : List Char) (m : Subnets) (rest : List Char) :
    jsonScan (Scan.inValue k acc) m (s ++ dquote :: rest)
      = jsonScan Scan.afterValue (m.set k (acc.reverse ++ s)) rest := by
  induction s generalizing acc with
  | nil => simp [jsonScan]
  | cons c cs ih =>
    have hc : plainChar c = true := hs c (List.mem_cons_self _ _)
    have hne : c ≠ dquote := plainChar_ne_dquote c hc
    simp only [List.cons_append, jsonScan, hne, if_false, hc, if_true]
    refine (ih (fun x hx => hs x (List.mem_cons_of_mem _ hx)) (c :: acc)).trans ?_
    simp

theorem scan_member (k v : List Char) (hk : ∀ c ∈ k, plainChar c = true)
    (hv : ∀ c ∈ v, plainChar c = true) (m : Subnets) (rest : List Char) :
    jsonScan (Scan.inKey []) m (k ++ dquote :: ':' :: dquote :: (v ++ dquote :: rest))
      = jsonScan Scan.afterValue (m.set k v) rest := by
  rw [scan_key_body k hk]
  simp only [jsonScan, if_true, List.reverse_nil, List.nil_append]
  rw [scan_value_body v hv]
  simp

theorem scan_members (es : Subnets) (hes : Subnets.Plain es) (e : List Char × List Char)
    (he : (∀ c ∈ e.1, plainChar c = true) ∧ (∀ c ∈ e.2, plainChar c = true)) (m : Subnets) :
    jsonScan (Scan.inKey []) m ((jsonMembers (e :: es) ++ [rbrace]).tail)
      = some ((e :: es).foldl (fun m x => m.set x.1 x.2) m) := by
  induction es generalizing e m with
  | nil =>
    obtain ⟨k, v⟩ := e
    have : (jsonMembers [(k, v)] ++ [rbrace]).tail
        = k ++ dquote :: ':' :: dquote :: (v ++ dquote :: [rbrace]) := by
      simp [jsonMembers, jsonString]
    rw [this, scan_member k v he.1 he.2]
    have h1 : (rbrace = ',') = False := by decide
    simp [jsonScan, h1]
  | cons e2 es ih =>
    obtain ⟨k, v⟩ := e
    have : (jsonMembers ((k, v) :: e2 :: es) ++ [rbrace]).tail
        = k ++ dquote :: ':' :: dquote :: (v ++ dquote :: ',' :: dquote ::
            (jsonMembers (e2 :: es) ++ [rbrace]).tail) := by
      obtain ⟨k2, v2⟩ := e2
      cases es <;> simp [jsonMembers, jsonString]
    rw [this, scan_member k v he.1 he.2]
    simp only [jsonScan, if_true]
    rw [ih (fun x hx => hes x (List.mem_cons_of_mem _ hx)) e2 (hes e2 (List.mem_cons_self _ _))]
    simp

theorem jsonUnmarshal_marshal (m : Subnets) (hs : Subnets.Sorted m) (hp : Subnets.Plain m) :
    jsonUnmarshal (jsonMarshal m) = some m := by
  cases m with
  | nil => simp [jsonUnmarshal, jsonMarshal, jsonMembers, jsonScan]
  | cons e es =>
    have hhead : jsonMembers (e :: es) ++ [rbrace]
        = dquote :: (jsonMembers (e :: es) ++ [rbrace]).tail := by
      obtain ⟨k, v⟩ := e
      cases es <;> simp [jsonMembers, jsonString]
    have h1 : (dquote = rbrace) = False := by decide
    unfold jsonUnmarshal jsonMarshal
    rw [hhead]
    simp only [jsonScan, if_true, h1, if_false]
    rw [scan_members es (fun x hx => hp x (List.mem_cons_of_mem _ hx)) e
      (hp e (List.mem_cons_self _ _))]
    rw [foldl_set_sorted (e :: es) [] (by simpa using hs)]
    simp

theorem jsonScan_proper_initial (xs ys : List Char) (hy : ys ≠ []) (st : Scan) (m r : Subnets)
    (h : jsonScan st m (xs ++ ys) = some r) : jsonScan st m xs = none := by
  induction xs generalizing st m with
  | nil =>
    cases ys with
    | nil => exact absurd rfl hy
    | cons y ys' => cases st <;> simp_all [jsonScan]
  | cons c cs ih =>
    cases st <;> simp only [List.cons_append, jsonScan] at h ⊢ <;>
      (try split_ifs at h ⊢) <;> exact ih _ _ h


theorem u8_val (n : Nat) : (u8 n).val = n % 256 := rfl

theorem jsonMarshal_ne_nil (m : Subnets) : jsonMarshal m ≠ [] := by
  simp [jsonMarshal]

theorem load_dump (m : Subnets) (hs : Subnets.Sorted m) (hp : Subnets.Plain m) :
    IPAM.load (IPAM.dump m)
      = if (jsonMarshal m).length ≤ loadBufferSize then (m, none)
        else ([], some LoadErr.badJSON) := by
  have hne : ((jsonMarshal m).take loadBufferSize).isEmpty = false := by
    simp [jsonMarshal, loadBufferSize]
  simp only [IPAM.load, IPAM.dump, hne, Bool.false_eq_true, if_false]
  split_ifs with hlen
  · rw [List.take_of_length_le hlen, jsonUnmarshal_marshal m hs hp]
  · have hdrop : (jsonMarshal m).drop loadBufferSize ≠ [] := by
      intro h
      have := List.drop_eq_nil_iff.mp h
      exact hlen this
    have hfull : jsonScan Scan.start []
        ((jsonMarshal m).take loadBufferSize ++ (jsonMarshal m).drop loadBufferSize) = some m := by
      rw [List.take_append_drop]
      exact jsonUnmarshal_marshal m hs hp
    have := jsonScan_proper_initial _ _ hdrop Scan.start [] m hfull
    simp only [jsonUnmarshal, this]

theorem releaseIndex_offsetIP (base : IPv4) (c : Nat) (hc : c < 2 ^ 32) :
    releaseIndex base (offsetIP base c) = c := by
  obtain ⟨b0, b1, b2, b3⟩ := base
  simp only [releaseIndex, offsetIP, u8_val, Nat.shiftRight_eq_div_pow, Nat.shiftLeft_eq]
  have h0 := b0.isLt
  have h1 := b1.isLt
  have h2 := b2.isLt
  have h3 := b3.isLt
  norm_num at hc ⊢
  omega

theorem firstZero_lt : ∀ (bm : List Char) (c : Nat), firstZero bm = some c → c < bm.length
  | [], c, h => by simp [firstZero] at h
  | x :: xs, c, h => by
    simp only [firstZero] at h
    split_ifs at h with hx
    · simp at h; subst h; simp
    · simp only [Option.map_eq_some'] at h
      obtain ⟨a, ha, rfl⟩ := h
      have := firstZero_lt xs a ha
      simp; omega

theorem firstZero_none (bm : List Char) (h : ∀ c ∈ bm, c ≠ '0') : firstZero bm = none := by
  induction bm with
  | nil => rfl
  | cons x xs ih =>
    have hx : x ≠ '0' := h x (List.mem_cons_self _ _)
    simp [firstZero, hx, ih (fun c hc => h c (List.mem_cons_of_mem _ hc))]


theorem obliging_ok (host : Host) (h : host.Obliging) (log : List HostCall) (c : HostCall)
    (hc : ∀ n, c ≠ HostCall.InterfaceByName n) : host log c = HostAnswer.ok := by
  rcases h log c with h1 | ⟨⟨n, hn⟩, _⟩
  · exact h1
  · exact absurd hn (hc n)

theorem createBridgeInterface_obliging (host : Host) (h : host.Obliging) (log : List HostCall)
    (name : List Char) : ∃ log1, createBridgeInterface host log name = (Res.ok, log1) := by
  have hok := obliging_ok host h
  rcases h log (HostCall.InterfaceByName name) with h1 | ⟨_, h1⟩ <;>
    simp [createBridgeInterface, Host.call, h1, hok]

theorem setInterfaceIP_obliging (host : Host) (h : host.Obliging) (log : List HostCall)
    (name : List Char) (ip : IPv4) (ones : Fin 33) :
    setInterfaceIP host log name (some ip, ones)
      = (Res.ok, log ++ [HostCall.LinkByName name, HostCall.AddrAdd name ip ones]) := by
  have hok := obliging_ok host h
  simp [setInterfaceIP, lookupWithRetry, Host.call, hok]

theorem setInterfaceUP_obliging (host : Host) (h : host.Obliging) (log : List HostCall)
    (name : List Char) :
    setInterfaceUP host log name
      = (Res.ok, log ++ [HostCall.LinkByName name, HostCall.LinkSetUp name]) := by
  have hok := obliging_ok host h
  simp [setInterfaceUP, Host.call, hok]

theorem initBridge_obliging (host : Host) (h : host.Obliging) (log : List HostCall)
    (n : Network) : ∃ log1, initBridge host log n = (Res.ok, log1) := by
  have hok := obliging_ok host h
  obtain ⟨l1, h1⟩ := createBridgeInterface_obliging host h log n.Name
  simp [initBridge, h1, setInterfaceIP_obliging host h, setInterfaceUP_obliging host h,
    setupIPTables, Host.call, hok]

theorem CreateNetwork_obliging (host : Host) (h : host.Obliging) (w : World)
    (driver : List Char) (subnet : IPv4 × Fin 33) (name : List Char) (gw : IPv4)
    (hd : driver ∈ w.drivers)
    (hip : (IPAM.Allocate w.ipam (ParseCIDR subnet.1 subnet.2).2).ip = some gw)
    (herr : (IPAM.Allocate w.ipam (ParseCIDR subnet.1 subnet.2).2).err = none) :
    ∃ log1, CreateNetwork host w driver subnet name
      = (Res.ok, { w with
          ipam := (IPAM.Allocate w.ipam (ParseCIDR subnet.1 subnet.2).2).file
          log := log1
          netDir := assocSet w.netDir name
            { Name := name, IpRange := { IP := gw, ones := subnet.2 },
              Driver := "bridge".toList } }) := by
  obtain ⟨l1, h1⟩ := initBridge_obliging host h w.log
    { Name := name, IpRange := { IP := gw, ones := subnet.2 }, Driver := "bridge".toList }
  refine ⟨l1, ?_⟩
  simp only [ParseCIDR] at hip herr
  simp only [CreateNetwork, ParseCIDR, herr, hip, hd, if_true, BridgeNetworkDriver.Create, h1]

theorem BridgeConnect_obliging (host : Host) (h : host.Obliging) (log : List HostCall)
    (network : Network) (ep : Endpoint) (hlen : 5 ≤ ep.ID.length) :
    BridgeNetworkDriver.Connect host log network ep
      = ({ ep with Device := { Name := ep.ID.take 5, Master := network.Name,
                               PeerName := "cif-".toList ++ ep.ID.take 5 } },
         Res.ok,
         log ++ [HostCall.LinkByName network.Name,
           HostCall.LinkAddVeth (ep.ID.take 5) network.Name ("cif-".toList ++ ep.ID.take 5),
           HostCall.LinkSetUp (ep.ID.take 5)]) := by
  have hok := obliging_ok host h
  have hlen' : ¬ ep.ID.length < 5 := by omega
  simp [BridgeNetworkDriver.Connect, Host.call, hok, hlen']

theorem configEndpoint_obliging (host : Host) (h : host.Obliging) (log : List HostCall)
    (ep : Endpoint) (cinfo : ContainerInfo) (ip : IPv4) (hip : ep.IPAddress = some ip) :
    configEndpointIpAddressAndRoute host log ep cinfo
      = (Res.ok, log ++ [HostCall.LinkByName ep.Device.PeerName, HostCall.OpenNetns cinfo.Pid,
          HostCall.LockOSThread, HostCall.LinkSetNsFd ep.Device.PeerName cinfo.Pid,
          HostCall.NetnsGet, HostCall.NetnsSetContainer cinfo.Pid,
          HostCall.LinkByName ep.Device.PeerName,
          HostCall.AddrAdd ep.Device.PeerName ip ep.Network.IpRange.ones,
          HostCall.LinkByName ep.Device.PeerName, HostCall.LinkSetUp ep.Device.PeerName,
          HostCall.LinkByName "lo".toList, HostCall.LinkSetUp "lo".toList,
          HostCall.RouteAddDefault ep.Device.PeerName ep.Network.IpRange.IP,
          HostCall.NetnsSetOrigin, HostCall.CloseOrigin, HostCall.UnlockOSThread,
          HostCall.CloseNetns]) := by
  have hok := obliging_ok host h
  simp [configEndpointIpAddressAndRoute, enterContainerNetns, leaveContainerNetns,
    configInsideNetns, Host.call, hok, hip, setInterfaceIP_obliging host h,
    setInterfaceUP_obliging host h]

theorem configPortMapping_mono (host : Host) (ep : Endpoint) (pms : List (List Char))
    (log : List HostCall) (c : HostCall) (hc : c ∈ log) :
    c ∈ configPortMapping host ep pms log := by
  induction pms generalizing log with
  | nil => simpa [configPortMapping] using hc
  | cons pm rest ih =>
    simp only [configPortMapping]
    split
    · exact ih _ (by simp [Host.call, hc])
    · exact ih _ hc

theorem Connect_obliging (host : Host) (h : host.Obliging) (w : World) (name : List Char)
    (cinfo : ContainerInfo) (network : Network) (ip : IPv4)
    (hn : w.networks.lookup name = some network) (hd : network.Driver ∈ w.drivers)
    (hip : (IPAM.Allocate w.ipam network.IpRange).ip = some ip)
    (herr : (IPAM.Allocate w.ipam network.IpRange).err = none)
    (hlen : 5 ≤ (cinfo.Id ++ '-' :: name).length) :
    ∃ ep w1, Connect host w name cinfo = (Res.ok, some ep, w1) ∧
      ep.ID = cinfo.Id ++ '-' :: name ∧ ep.IPAddress = some ip ∧ ep.Network = network ∧
      w1.ipam = (IPAM.Allocate w.ipam network.IpRange).file ∧
      HostCall.RouteAddDefault ("cif-".toList ++ (cinfo.Id ++ '-' :: name).take 5)
        network.IpRange.IP ∈ w1.log := by
  simp only [Connect, hn, herr, hip, hd, if_true]
  rw [BridgeConnect_obliging host h _ _ _ hlen]
  simp only []
  rw [configEndpoint_obliging host h _ _ _ ip rfl]
  refine ⟨_, _, rfl, rfl, rfl, rfl, rfl, ?_⟩
  apply configPortMapping_mono
  simp


theorem set_set (m : Subnets) (k v v2 : List Char) : (m.set k v).set k v2 = m.set k v2 := by
  induction m with
  | nil => simp [Subnets.set]
  | cons e rest ih =>
    obtain ⟨k0, v0⟩ := e
    simp only [Subnets.set]
    split_ifs with h1 h2
    · simp [Subnets.set, h1]
    · simp [Subnets.set]
    · simp [Subnets.set, h1, h2, ih]

theorem load_err_map (file : AllocFile) (h : (IPAM.load file).2 ≠ none) :
    (IPAM.load file).1 = [] := by
  unfold IPAM.load at h ⊢
  cases file with
  | none => simp at h
  | some content =>
    simp only at h ⊢
    split_ifs with h1
    · rfl
    · split <;> simp_all

theorem offsetIP_zero (base : IPv4) :
    offsetIP base 0 = { base with b3 := u8 (base.b3.val + 1) } := by
  obtain ⟨b0, b1, b2, b3⟩ := base
  have h0 := b0.isLt
  have h1 := b1.isLt
  have h2 := b2.isLt
  have h3 := b3.isLt
  simp only [offsetIP, IPv4.mk.injEq]
  refine ⟨?_, ?_, ?_, ?_⟩ <;> apply Fin.ext <;> simp [u8_val]

theorem Allocate_absent (file : AllocFile) (subnet : IPNet)
    (h : (IPAM.load file).1.get? (ParseCIDR subnet.IP subnet.ones).2.String = none) :
    IPAM.Allocate file subnet
      = { ip := some { (ParseCIDR subnet.IP subnet.ones).2.IP with
                  b3 := u8 ((ParseCIDR subnet.IP subnet.ones).2.IP.b3.val + 1) }
          err := (IPAM.load file).2
          file := IPAM.dump ((IPAM.load file).1.set (ParseCIDR subnet.IP subnet.ones).2.String
            ('1' :: List.replicate (2 ^ (32 - subnet.ones.val) - 1) '0')) } := by
  rcases hload : IPAM.load file with ⟨m0, err⟩
  rw [hload] at h
  have hpos : 0 < 2 ^ (32 - subnet.ones.val) := Nat.pow_pos (by decide)
  have hrep : List.replicate (1 <<< (32 - subnet.ones.val)) '0'
      = '0' :: List.replicate (2 ^ (32 - subnet.ones.val) - 1) '0' := by
    rw [Nat.one_shiftLeft]
    obtain ⟨n, hn⟩ := Nat.exists_eq_succ_of_ne_zero (Nat.pos_iff_ne_zero.mp hpos)
    rw [hn]
    simp [List.replicate_succ]
  simp only [IPAM.Allocate, hload]
  simp only [ParseCIDR] at h ⊢
  simp only [h, get?_set_self, Option.getD_some, hrep, firstZero, if_true, List.set_cons_zero,
    set_set, offsetIP_zero]


theorem corpMap_sorted : Subnets.Sorted corpMap :=
  List.pairwise_singleton _ _

theorem corpMap_plain : Subnets.Plain corpMap := by
  intro e he
  simp only [corpMap, List.mem_singleton] at he
  subst he
  refine ⟨by decide, ?_⟩
  intro c hc
  simp only [List.mem_cons] at hc
  rcases hc with rfl | hc
  · decide
  · rw [List.eq_of_mem_replicate hc]; decide

theorem jsonMarshal_single_length (k v : List Char) :
    (jsonMarshal [(k, v)]).length = k.length + v.length + 7 := by
  simp only [jsonMarshal, jsonMembers, jsonString, List.length_cons, List.length_append,
    List.length_nil]
  omega

theorem corpMap_long : ¬ (jsonMarshal corpMap).length ≤ loadBufferSize := by
  have h : (jsonMarshal corpMap).length
      = "10.0.0.0/16".toList.length + ('1' :: List.replicate (2 ^ 16 - 1) '0').length + 7 :=
    jsonMarshal_single_length _ _
  rw [h, List.length_cons, List.length_replicate]
  decide

theorem corpMap_load : IPAM.load (IPAM.dump corpMap) = ([], some LoadErr.badJSON) := by
  rw [load_dump corpMap corpMap_sorted corpMap_plain, if_neg corpMap_long]

theorem corpNet_first :
    IPAM.Allocate none corpNet
      = { ip := some ⟨10, 0, 0, 1⟩, err := none, file := IPAM.dump corpMap } := by
  rw [Allocate_absent none corpNet (by decide)]
  have hkey : (ParseCIDR corpNet.IP corpNet.ones).2.String = "10.0.0.0/16".toList := by decide
  have hip : (ParseCIDR corpNet.IP corpNet.ones).2.IP = ⟨10, 0, 0, 0⟩ := by decide
  rw [hkey, hip]
  rfl

theorem corpNet_second :
    IPAM.Allocate (IPAM.dump corpMap) corpNet
      = { ip := some ⟨10, 0, 0, 1⟩, err := some LoadErr.badJSON, file := IPAM.dump corpMap } := by
  rw [Allocate_absent (IPAM.dump corpMap) corpNet (by rw [corpMap_load]; rfl)]
  have hkey : (ParseCIDR corpNet.IP corpNet.ones).2.String = "10.0.0.0/16".toList := by decide
  have hip : (ParseCIDR corpNet.IP corpNet.ones).2.IP = ⟨10, 0, 0, 0⟩ := by decide
  rw [hkey, hip, corpMap_load]
  rfl

set_option maxRecDepth 100000 in
theorem lanHistory_run :
    (allocRun none lanHistory).map (fun r => (r.ip, r.err))
      = [(some ⟨192, 168, 0, 1⟩, none), (some ⟨192, 168, 0, 2⟩, none),
         (some ⟨192, 168, 1, 1⟩, none), (some ⟨192, 168, 2, 1⟩, none),
         (some ⟨192, 168, 3, 1⟩, none), (some ⟨192, 168, 4, 1⟩, none),
         (some ⟨192, 168, 5, 1⟩, none), (some ⟨192, 168, 6, 1⟩, none),
         (some ⟨192, 168, 7, 1⟩, none), (some ⟨192, 168, 0, 1⟩, some LoadErr.badJSON),
         (some ⟨192, 168, 0, 2⟩, none)] := by
  decide

set_option maxRecDepth 100000 in
theorem eightLans_load : IPAM.load (IPAM.dump eightLans) = ([], some LoadErr.badJSON) := by
  decide

set_option maxRecDepth 100000 in
theorem brokenMountEnv_run :
    RunContainerInitProcess brokenMountEnv (some "sh".toList)
      = (InitEnd.execed "/bin/sh".toList ["sh".toList],
         [SysCall.Getwd, SysCall.MountBind "/root/mnt/c1".toList, SysCall.MountProc,
          SysCall.MountDev, SysCall.LookPath "sh".toList,
          SysCall.Exec "/bin/sh".toList ["sh".toList]]) := by
  decide

set_option maxRecDepth 100000 in
theorem smallNet_run :
    (allocRun none [smallNet, smallNet, smallNet, smallNet]).map (fun r => (r.ip, r.err))
      = [(some ⟨192, 168, 0, 5⟩, none), (some ⟨192, 168, 0, 6⟩, none),
         (some ⟨192, 168, 0, 7⟩, none), (some ⟨192, 168, 0, 8⟩, none)] := by
  decide

set_option maxRecDepth 100000 in
theorem testnet_gateway :
    (IPAM.Allocate none ⟨⟨192, 168, 10, 0⟩, 24⟩).ip = some ⟨192, 168, 10, 1⟩ ∧
    (IPAM.Allocate none ⟨⟨192, 168, 10, 0⟩, 24⟩).err = none := by
  decide

set_option maxRecDepth 100000 in
theorem testnet_container :
    (IPAM.Allocate (IPAM.Allocate none ⟨⟨192, 168, 10, 0⟩, 24⟩).file
      ⟨⟨192, 168, 10, 1⟩, 24⟩).ip = some ⟨192, 168, 10, 2⟩ ∧
    (IPAM.Allocate (IPAM.Allocate none ⟨⟨192, 168, 10, 0⟩, 24⟩).file
      ⟨⟨192, 168, 10, 1⟩, 24⟩).err = none := by
  decide

theorem freshHost_obliging : freshHost.Obliging := by
  intro log c
  cases c <;> simp [freshHost]


theorem offsetIP_injective (base : IPv4) (c d : Nat) (hc : c < 2 ^ 32) (hd : d < 2 ^ 32)
    (h : offsetIP base c = offsetIP base d) : c = d := by
  rw [← releaseIndex_offsetIP base c hc, ← releaseIndex_offsetIP base d hd, h]

theorem firstZero_set : ∀ (bm : List Char) (c : Nat), firstZero bm = some c →
    (bm.set c '1').set c '0' = bm
  | [], c, h => by simp [firstZero] at h
  | x :: xs, c, h => by
    simp only [firstZero] at h
    split_ifs at h with hx
    · simp at h; subst h; simp [hx]
    · simp only [Option.map_eq_some'] at h
      obtain ⟨a, ha, rfl⟩ := h
      simp [firstZero_set xs a ha]

theorem Allocate_present (file : AllocFile) (subnet : IPNet) (bitmap : List Char) (c : Nat)
    (h : (IPAM.load file).1.get? (ParseCIDR subnet.IP subnet.ones).2.String = some bitmap)
    (hc : firstZero bitmap = some c) :
    IPAM.Allocate file subnet
      = { ip := some (offsetIP (ParseCIDR subnet.IP subnet.ones).2.IP c)
          err := (IPAM.load file).2
          file := IPAM.dump ((IPAM.load file).1.set (ParseCIDR subnet.IP subnet.ones).2.String
            (bitmap.set c '1')) } := by
  rcases hload : IPAM.load file with ⟨m0, err⟩
  rw [hload] at h
  simp only [IPAM.Allocate, hload]
  simp only [ParseCIDR] at h ⊢
  simp only [h, Option.getD_some, hc]

theorem jsonMembers_length : ∀ (m : Subnets), m ≠ [] →
    (jsonMembers m).length + 1 = membersSize m
  | [], h => absurd rfl h
  | [(k, v)], _ => by
    simp only [jsonMembers, jsonString, membersSize, List.length_cons, List.length_append,
      List.length_nil]
    omega
  | (k, v) :: e :: rest, _ => by
    have ih := jsonMembers_length (e :: rest) (by simp)
    simp only [jsonMembers, jsonString, membersSize, List.length_cons, List.length_append,
      List.length_nil] at ih ⊢
    omega

theorem jsonMarshal_length (m : Subnets) (h : m ≠ []) :
    (jsonMarshal m).length = membersSize m + 1 := by
  have := jsonMembers_length m h
  simp only [jsonMarshal, List.length_cons, List.length_append, List.length_nil]
  omega

theorem get?_some_mem : ∀ (m : Subnets) (k v : List Char), m.get? k = some v → (k, v) ∈ m
  | [], _, _, h => by simp [Subnets.get?] at h
  | (k0, v0) :: rest, k, v, h => by
    simp only [Subnets.get?] at h
    split_ifs at h with hk
    · simp at h; subst hk; subst h; simp
    · exact List.mem_cons_of_mem _ (get?_some_mem rest k v h)

/-- Replacing the bitmap of a subnet that has one: the keys stay in place. -/
theorem set_present : ∀ (m : Subnets) (k v0 v : List Char), Subnets.Sorted m →
    m.get? k = some v0 →
    Subnets.Sorted (m.set k v) ∧ (m.set k v).set k v0 = m ∧
    membersSize (m.set k v) + v0.length = membersSize m + v.length ∧
    (∀ e ∈ m.set k v, e ∈ m ∨ e = (k, v)) ∧ (∀ a ∈ m.set k v, ∃ b ∈ m, b.1 = a.1)
  | [], k, v0, v, _, h => by simp [Subnets.get?] at h
  | (k0, v1) :: rest, k, v0, v, hs, h => by
    have hs' : Subnets.Sorted rest := (List.pairwise_cons.mp hs).2
    have hhead := (List.pairwise_cons.mp hs).1
    simp only [Subnets.get?] at h
    by_cases hk : k = k0
    · subst hk
      simp only [if_true, Option.some.injEq] at h
      subst h
      simp only [Subnets.set, if_true, membersSize]
      refine ⟨?_, trivial, by omega, ?_, ?_⟩
      · exact List.pairwise_cons.mpr ⟨hhead, hs'⟩
      · intro e he
        simp only [List.mem_cons] at he ⊢
        rcases he with rfl | he
        · exact Or.inr rfl
        · exact Or.inl (Or.inr he)
      · intro a ha
        simp only [List.mem_cons] at ha
        rcases ha with rfl | ha
        · exact ⟨(k, v1), List.mem_cons_self _ _, rfl⟩
        · exact ⟨a, List.mem_cons_of_mem _ ha, rfl⟩
    · simp only [hk, if_false] at h
      have hlt : keyLt k0 k = true := hhead (k, v0) (get?_some_mem rest k v0 h)
      have hnlt : keyLt k k0 = false := keyLt_asymm _ _ hlt
      obtain ⟨ih1, ih2, ih3, ih4, ih5⟩ := set_present rest k v0 v hs' h
      simp only [Subnets.set, hk, if_false, hnlt, Bool.false_eq_true, membersSize]
      refine ⟨?_, ?_, by omega, ?_, ?_⟩
      · refine List.pairwise_cons.mpr ⟨?_, ih1⟩
        intro a ha
        obtain ⟨b, hb, hba⟩ := ih5 a ha
        rw [← hba]
        exact hhead b hb
      · rw [ih2]
      · intro e he
        simp only [List.mem_cons] at he ⊢
        rcases he with rfl | he
        · exact Or.inl (Or.inl rfl)
        · rcases ih4 e he with h1 | h1
          · exact Or.inl (Or.inr h1)
          · exact Or.inr h1
      · intro a ha
        simp only [List.mem_cons] at ha
        rcases ha with rfl | ha
        · exact ⟨(k0, v1), List.mem_cons_self _ _, rfl⟩
        · obtain ⟨b, hb, hba⟩ := ih5 a ha
          exact ⟨b, List.mem_cons_of_mem _ hb, hba⟩


theorem mem_size_le : ∀ (m : Subnets) (k v : List Char), (k, v) ∈ m →
    v.length ≤ membersSize m
  | [], _, _, h => by cases h
  | (k0, v0) :: rest, k, v, h => by
    simp only [List.mem_cons] at h
    simp only [membersSize]
    rcases h with heq | h
    · injection heq with h1 h2
      subst h2
      omega
    · have := mem_size_le rest k v h
      omega

/-- While the allocator file fits the buffer of `load`, `Allocate` followed by `Release` of
the returned address restores the file: for a map of plain strings in key order whose
JSON text has at most 2000 bytes and in which the subnet's bitmap has a first `'0'` at
index `c`, `Allocate` returns the address of index `c` with a nil error, `Release`
computes the index `c` from that address and writes back the file as it was. -/
theorem allocate_then_release_restores (m : Subnets) (hs : Subnets.Sorted m)
    (hp : Subnets.Plain m) (subnet : IPNet) (bitmap : List Char) (c : Nat)
    (hfit : (jsonMarshal m).length ≤ loadBufferSize)
    (h : m.get? (ParseCIDR subnet.IP subnet.ones).2.String = some bitmap)
    (hc : firstZero bitmap = some c) :
    IPAM.Allocate (IPAM.dump m) subnet
      = { ip := some (offsetIP (ParseCIDR subnet.IP subnet.ones).2.IP c), err := none,
          file := IPAM.dump (m.set (ParseCIDR subnet.IP subnet.ones).2.String
            (bitmap.set c '1')) } ∧
    releaseIndex (ParseCIDR subnet.IP subnet.ones).2.IP
      (offsetIP (ParseCIDR subnet.IP subnet.ones).2.IP c) = c ∧
    IPAM.Release (IPAM.Allocate (IPAM.dump m) subnet).file subnet
        (offsetIP (ParseCIDR subnet.IP subnet.ones).2.IP c)
      = ReleaseResult.returned (IPAM.dump m)
          { offsetIP (ParseCIDR subnet.IP subnet.ones).2.IP c with
            b3 := u8 ((offsetIP (ParseCIDR subnet.IP subnet.ones).2.IP c).b3.val + 255) } := by
  have hload : IPAM.load (IPAM.dump m) = (m, none) := by
    rw [load_dump m hs hp, if_pos hfit]
  have hmem := get?_some_mem m _ _ h
  have hne : m ≠ [] := List.ne_nil_of_mem hmem
  have hclt : c < bitmap.length := firstZero_lt bitmap c hc
  have hlen : (jsonMarshal m).length = membersSize m + 1 := jsonMarshal_length m hne
  have hbig : c < 2 ^ 32 := by
    have : bitmap.length ≤ membersSize m := mem_size_le m _ _ hmem
    simp only [loadBufferSize] at hfit
    omega
  have hidx := releaseIndex_offsetIP (ParseCIDR subnet.IP subnet.ones).2.IP c hbig
  obtain ⟨hs1, hback, hsize, hfrom, -⟩ :=
    set_present m (ParseCIDR subnet.IP subnet.ones).2.String bitmap (bitmap.set c '1') hs h
  have hp1 : Subnets.Plain (m.set (ParseCIDR subnet.IP subnet.ones).2.String
      (bitmap.set c '1')) := by
    intro e he
    rcases hfrom e he with h1 | h1
    · exact hp e h1
    · subst h1
      refine ⟨(hp _ hmem).1, ?_⟩
      intro x hx
      rcases List.mem_or_eq_of_mem_set hx with h2 | h2
      · exact (hp _ hmem).2 x h2
      · subst h2; decide
  have hne1 : m.set (ParseCIDR subnet.IP subnet.ones).2.String (bitmap.set c '1') ≠ [] := by
    intro h0
    have := get?_set_self m (ParseCIDR subnet.IP subnet.ones).2.String (bitmap.set c '1')
    rw [h0] at this
    simp [Subnets.get?] at this
  have hfit1 : (jsonMarshal (m.set (ParseCIDR subnet.IP subnet.ones).2.String
      (bitmap.set c '1'))).length ≤ loadBufferSize := by
    rw [jsonMarshal_length _ hne1]
    rw [hlen] at hfit
    simp only [List.length_set] at hsize
    omega
  have hload1 : IPAM.load (IPAM.dump (m.set (ParseCIDR subnet.IP subnet.ones).2.String
      (bitmap.set c '1'))) = (m.set (ParseCIDR subnet.IP subnet.ones).2.String
      (bitmap.set c '1'), none) := by
    rw [load_dump _ hs1 hp1, if_pos hfit1]
  have hA := Allocate_present (IPAM.dump m) subnet bitmap c (by rw [hload]; exact h) hc
  rw [hload] at hA
  refine ⟨hA, hidx, ?_⟩
  rw [hA]
  simp only [IPAM.Release, hload1, hidx, get?_set_self, Option.getD_some, List.length_set, hclt,
    if_true, firstZero_set bitmap c hc, hback]


theorem CreateNetwork_networks (host : Host) (w : World) (driver : List Char)
    (subnet : IPv4 × Fin 33) (name : List Char) :
    (CreateNetwork host w driver subnet name).2.networks = w.networks := by
  unfold CreateNetwork
  simp only []
  split
  · rfl
  · split_ifs
    · split
      · rfl
      · split <;> rfl
    · rfl

/-- Without a run of `Init` in between, `Connect` does not find the network: `CreateNetwork`
writes the descriptor file and leaves the registry `networks` as it was. -/
theorem connect_before_Init (host : Host) (cinfo : ContainerInfo) :
    (Connect host
      (CreateNetwork host (Init emptyWorld) "bridge".toList testnetCIDR "testnet".toList).2
      "testnet".toList cinfo).1 = Res.err (NetErr.NoSuchNetwork "testnet".toList) := by
  have h : (CreateNetwork host (Init emptyWorld) "bridge".toList testnetCIDR
      "testnet".toList).2.networks.lookup "testnet".toList = none := by
    rw [CreateNetwork_networks]
    decide
  simp only [Connect, h]

/-! ## The command line through the pipe -/

theorem splitAux_append (sep : Char) (a : List Char) (ha : sep ∉ a) (rest acc : List Char) :
    splitAux sep (a ++ rest) acc = splitAux sep rest (a.reverse ++ acc) := by
  induction a generalizing acc with
  | nil => rfl
  | cons c cs ih =>
    have hc : c ≠ sep := fun h => ha (h ▸ List.mem_cons_self _ _)
    have hcs : sep ∉ cs := fun h => ha (List.mem_cons_of_mem _ h)
    simp only [List.cons_append, splitAux, hc, if_false]
    refine (ih hcs (c :: acc)).trans ?_
    simp

theorem splitAux_join (sep : Char) (rest : List (List Char)) :
    ∀ (a acc : List Char), (∀ x ∈ a :: rest, sep ∉ x) →
      splitAux sep (strJoin [sep] (a :: rest)) acc = (acc.reverse ++ a) :: rest := by
  induction rest with
  | nil =>
    intro a acc h
    have ha : sep ∉ a := h a (List.mem_cons_self _ _)
    have := splitAux_append sep a ha [] acc
    simp only [List.append_nil] at this
    simp [strJoin, this, splitAux]
  | cons b rest ih =>
    intro a acc h
    have ha : sep ∉ a := h a (List.mem_cons_self _ _)
    have hrest : ∀ x ∈ b :: rest, sep ∉ x := fun x hx => h x (List.mem_cons_of_mem _ hx)
    simp only [strJoin, List.append_assoc, List.singleton_append]
    rw [splitAux_append sep a ha]
    simp only [splitAux, if_true]
    rw [ih b [] hrest]
    simp

theorem strSplit_strJoin (sep : Char) (args : List (List Char)) (hne : args ≠ [])
    (h : ∀ x ∈ args, sep ∉ x) : strSplit sep (strJoin [sep] args) = args := by
  cases args with
  | nil => exact absurd rfl hne
  | cons a rest =>
    have := splitAux_join sep rest a [] h
    simpa [strSplit] using this

/-! ## Workspace lemmas -/

theorem strSplit_nil (sep : Char) : strSplit sep [] = [[]] := rfl

theorem volumeParts_some (volume a b : List Char) (h : strSplit ':' volume = [a, b])
    (ha : a ≠ []) (hb : b ≠ []) : volume ≠ [] ∧ volumeParts volume = some (a, b) := by
  have hv : volume ≠ [] := by
    intro h0
    rw [h0, strSplit_nil] at h
    simp at h
  refine ⟨hv, ?_⟩
  simp [volumeParts, hv, h, ha, hb]

theorem volumeParts_none (volume : List Char)
    (h : ¬ ∃ a b, strSplit ':' volume = [a, b] ∧ a ≠ [] ∧ b ≠ []) :
    volumeParts volume = none := by
  unfold volumeParts
  split_ifs with hv
  · split
    · rename_i a b hab
      split_ifs with hne
      · exact absurd ⟨a, b, hab, hne.1, hne.2⟩ h
      · rfl
    · rfl
  · rfl

theorem MountVolume_mounts (host : WsHost) (w : WsWorld) (a b name : List Char) :
    WsEvent.call (WsCall.MountAufs ("dirs=".toList ++ a) (mntUrlOf name ++ "/".toList ++ b))
      ∈ (MountVolume host w a b name).2.trace := by
  unfold MountVolume
  simp only [WsHost.call]
  split_ifs <;> simp [WsWorld.report]

theorem CreateReadOnlyLayer_existing (host : WsHost) (w : WsWorld) (imageName : List Char)
    (h : (PathExists host w (RootUrl ++ "/".toList ++ imageName ++ "/".toList)).1 = WsAnswer.ok) :
    CreateReadOnlyLayer host w imageName
      = (WsRes.ok, { w with trace := w.trace ++
          [WsEvent.call (WsCall.Stat (RootUrl ++ "/".toList ++ imageName ++ "/".toList))] }) := by
  unfold CreateReadOnlyLayer
  simp only [PathExists, WsHost.call] at h ⊢
  split_ifs at h ⊢
  rfl

theorem CreateReadOnlyLayer_ok_dir (host : WsHost) (w : WsWorld) (imageName : List Char)
    (h : (CreateReadOnlyLayer host w imageName).1 = WsRes.ok) :
    RootUrl ++ "/".toList ++ imageName ++ "/".toList
      ∈ (CreateReadOnlyLayer host w imageName).2.dirs := by
  unfold CreateReadOnlyLayer at h ⊢
  simp only [PathExists, WsHost.call, WsWorld.report] at h ⊢
  generalize RootUrl ++ "/".toList ++ imageName ++ "/".toList = p at h ⊢
  generalize RootUrl ++ "/".toList ++ imageName ++ ".tar".toList = q at h ⊢
  by_cases h1 : host w.trace (WsCall.Stat p) = WsAnswer.failed
  · simp only [h1, if_true] at h
    cases h
  · by_cases h2 : p ∈ w.dirs
    · simp only [h1, h2, if_true, if_false]
    · simp only [h1, h2, if_false] at h ⊢
      by_cases h3 : host (w.trace ++ [WsEvent.call (WsCall.Stat p)]) (WsCall.MkdirAll p)
          = WsAnswer.ok
      · simp only [h3, if_true] at h ⊢
        by_cases h4 : host (w.trace ++ [WsEvent.call (WsCall.Stat p)] ++
            [WsEvent.call (WsCall.MkdirAll p)]) (WsCall.Untar q p) = WsAnswer.ok
        · simp only [h4, if_true]
          exact List.mem_cons_self _ _
        · simp only [h4, if_false] at h
          cases h
      · simp only [h3, if_false] at h
        cases h

/-! ## The record of `Run` -/

theorem NewParentProcess_quiet (env : RunEnv) (st : RunState) (tty : Bool)
    (containerName volume imageName : List Char) (envSlice : List (List Char)) :
    ∃ added, (NewParentProcess env st tty containerName volume imageName envSlice).2.trace
        = st.trace ++ added ∧ ∀ e ∈ added, e.quiet = true := by
  unfold NewParentProcess
  simp only [RunEnv.call]
  split_ifs <;>
    exact ⟨_, by simp only [List.append_assoc]; rfl, by simp [RunEvent.quiet]⟩

theorem recordContainerInfo_quiet (env : RunEnv) (st : RunState) (containerName : List Char) :
    ∃ added, (recordContainerInfo env st containerName).2.trace = st.trace ++ added ∧
      ∀ e ∈ added, e.quiet = true := by
  unfold recordContainerInfo
  simp only [RunEnv.call]
  split_ifs <;>
    exact ⟨_, by simp only [List.append_assoc]; rfl, by simp [RunEvent.quiet]⟩

theorem Run_trace (env : RunEnv) (ws : WsWorld) (net : World) (tty : Bool)
    (comArray : List (List Char)) (containerName volume imageName : List Char)
    (envSlice : List (List Char)) (nw : List Char) (portmapping : List (List Char)) :
    ∃ A B, (Run env ws net tty comArray containerName volume imageName envSlice nw
          portmapping).2.trace = A ++ B ∧
      (∀ e ∈ A, e.quiet = true) ∧
      (B = [] ∨
       (∃ r, nw ≠ [] ∧ r ≠ Res.ok ∧
          B = [RunEvent.CgroupSet, RunEvent.CgroupApply env.pid, RunEvent.NetworkInit,
            RunEvent.NetworkConnect nw r, RunEvent.CgroupDestroy]) ∨
       (∃ T,
          (∀ e ∈ T,
            e.quiet = true ∨ e = RunEvent.DeleteWorkSpace ∨ e = RunEvent.CgroupDestroy) ∧
          B = [RunEvent.CgroupSet, RunEvent.CgroupApply env.pid]
            ++ (if nw = [] then []
                else [RunEvent.NetworkInit, RunEvent.NetworkConnect nw Res.ok])
            ++ [RunEvent.PipeWrite (strJoin " ".toList comArray), RunEvent.PipeClose]
            ++ T)) := by
  unfold Run
  simp only []
  generalize (if containerName = [] then randStringBytes env.draws 10 else containerName) = name
  obtain ⟨a1, h1, q1⟩ := NewParentProcess_quiet env { trace := [], ws := ws, net := net } tty
    name volume imageName envSlice
  rcases hp : NewParentProcess env { trace := [], ws := ws, net := net } tty name volume
    imageName envSlice with ⟨_ | cmd, st1⟩
  · rw [hp] at h1
    simp only [List.nil_append] at h1
    exact ⟨a1, [], by simp [h1], q1, Or.inl rfl⟩
  · rw [hp] at h1
    simp only [List.nil_append] at h1
    simp only [RunEnv.call]
    by_cases hstart : env.succeeds st1.trace ProcCall.Start = true
    · simp only [hstart, if_true]
      obtain ⟨a2, h2, q2⟩ := recordContainerInfo_quiet env
        { st1 with trace := st1.trace ++ [RunEvent.call ProcCall.Start] } name
      generalize recordContainerInfo env
        { st1 with trace := st1.trace ++ [RunEvent.call ProcCall.Start] } name = R at h2 ⊢
      obtain ⟨recorded, st3⟩ := R
      simp only at h2
      have hA : ∀ e ∈ st3.trace, e.quiet = true := by
        intro e he
        rw [h2, h1] at he
        simp only [List.mem_append, List.mem_singleton] at he
        rcases he with (he | he) | he
        · exact q1 e he
        · subst he; rfl
        · exact q2 e he
      cases recorded
      · exact ⟨st3.trace, [], by simp, hA, Or.inl rfl⟩
      · simp only [if_true]
        by_cases hnw : nw = []
        · subst hnw
          simp only [ne_eq, not_true_eq_false, if_false, sendInitCommand]
          cases tty
          · exact ⟨st3.trace, _, by simp only [List.append_assoc]; rfl, hA,
              Or.inr (Or.inr ⟨[RunEvent.CgroupDestroy], by simp [RunEvent.quiet], by simp⟩)⟩
          · exact ⟨st3.trace, _, by simp only [List.append_assoc]; rfl, hA,
              Or.inr (Or.inr ⟨[RunEvent.call ProcCall.Wait,
                RunEvent.call (ProcCall.RemoveAll (infoLocationOf name)),
                RunEvent.DeleteWorkSpace, RunEvent.CgroupDestroy],
                by simp [RunEvent.quiet], by simp⟩)⟩
        · simp only [ne_eq, hnw, not_false_eq_true, if_true, sendInitCommand]
          generalize Connect env.netHost (Init st3.net) nw
            { Pid := itoa env.pid, Id := randStringBytes env.draws 10, Name := name,
              PortMapping := portmapping } = C
          obtain ⟨r, ep, w1⟩ := C
          cases r with
          | ok =>
            simp only []
            cases tty
            · exact ⟨st3.trace, _, by simp only [List.append_assoc]; rfl, hA,
                Or.inr (Or.inr ⟨[RunEvent.CgroupDestroy], by simp [RunEvent.quiet],
                  by simp [hnw]⟩)⟩
            · exact ⟨st3.trace, _, by simp only [List.append_assoc]; rfl, hA,
                Or.inr (Or.inr ⟨[RunEvent.call ProcCall.Wait,
                  RunEvent.call (ProcCall.RemoveAll (infoLocationOf name)),
                  RunEvent.DeleteWorkSpace, RunEvent.CgroupDestroy],
                  by simp [RunEvent.quiet], by simp [hnw]⟩)⟩
          | err e =>
            simp only []
            exact ⟨st3.trace, _, by simp only [List.append_assoc]; rfl, hA,
              Or.inr (Or.inl ⟨Res.err e, trivial, by simp, by simp⟩)⟩
          | panic =>
            simp only []
            exact ⟨st3.trace, _, by simp only [List.append_assoc]; rfl, hA,
              Or.inr (Or.inl ⟨Res.panic, trivial, by simp, by simp⟩)⟩
    · simp only [hstart, if_false, Bool.false_eq_true]
      refine ⟨st1.trace ++ [RunEvent.call ProcCall.Start], [], by simp, ?_, Or.inl rfl⟩
      intro e he
      rw [h1] at he
      simp only [List.mem_append, List.mem_singleton] at he
      rcases he with he | he
      · exact q1 e he
      · subst he; rfl

/-! ## The claims -/

/-- C1. `Allocate` followed by `Release` of the returned address does not restore the
bitmap for the subnet `10.0.0.0/16`, starting with no allocator file: `Allocate` returns
`10.0.0.1` with a nil error and writes a file longer than the buffer of `load`, so the
`load` inside `Release` leaves the map empty and `Release` panics on `ipalloc[0]` with
the bit still set in the file. -/
theorem release_after_allocate_panics :
    (IPAM.Allocate none corpNet).ip = some ⟨10, 0, 0, 1⟩ ∧
    (IPAM.Allocate none corpNet).err = none ∧
    (IPAM.Allocate none corpNet).file = IPAM.dump corpMap ∧
    IPAM.load (IPAM.Allocate none corpNet).file = ([], some LoadErr.badJSON) ∧
    releaseIndex corpNet.IP ⟨10, 0, 0, 1⟩ = 0 ∧
    IPAM.Release (IPAM.Allocate none corpNet).file corpNet ⟨10, 0, 0, 1⟩
      = ReleaseResult.panicked (IPAM.Allocate none corpNet).file ⟨10, 0, 0, 0⟩ := by
  rw [corpNet_first]
  refine ⟨rfl, rfl, rfl, corpMap_load, by decide, ?_⟩
  simp only [IPAM.Release, corpMap_load]
  rfl

/-- C2. When the map `Allocate` loaded has no entry for the subnet, the call returns the
network address with its last byte incremented by one (a `uint8` addition) and dumps a
map in which the subnet's bitmap has `2^(32 - ones)` bits, bit 0 set and every other bit
clear, the other subnets being as loaded; for `192.168.0.0/24` and no file the address
is `192.168.0.1`. -/
theorem first_allocate_returns_base_plus_one (file : AllocFile) (subnet : IPNet)
    (h : (IPAM.load file).1.get? (ParseCIDR subnet.IP subnet.ones).2.String = none) :
    (IPAM.Allocate file subnet).ip
      = some { (ParseCIDR subnet.IP subnet.ones).2.IP with
          b3 := u8 ((ParseCIDR subnet.IP subnet.ones).2.IP.b3.val + 1) } ∧
    (∃ m, (IPAM.Allocate file subnet).file = IPAM.dump m ∧
      m.get? (ParseCIDR subnet.IP subnet.ones).2.String
        = some ('1' :: List.replicate (2 ^ (32 - subnet.ones.val) - 1) '0') ∧
      ∀ k, k ≠ (ParseCIDR subnet.IP subnet.ones).2.String →
        m.get? k = (IPAM.load file).1.get? k) ∧
    (IPAM.Allocate none ⟨⟨192, 168, 0, 0⟩, 24⟩).ip = some ⟨192, 168, 0, 1⟩ := by
  rw [Allocate_absent file subnet h]
  refine ⟨rfl, ⟨_, rfl, get?_set_self _ _ _, fun k hk => get?_set_other _ _ _ _ hk⟩, ?_⟩
  decide

/-- Witness for C2: the subnet `172.17.5.9/20` with no allocator file. -/
theorem first_allocate_returns_base_plus_one_witness :
    (IPAM.load none).1.get? (ParseCIDR (⟨172, 17, 5, 9⟩ : IPv4) 20).2.String = none ∧
    (IPAM.Allocate none ⟨⟨172, 17, 5, 9⟩, 20⟩).ip = some ⟨172, 17, 0, 1⟩ :=
  ⟨by decide, (first_allocate_returns_base_plus_one none ⟨⟨172, 17, 5, 9⟩, 20⟩ (by decide)).1⟩

/-- C3. `Allocate` returns an address twice.  In `10.0.0.0/16`, starting with no file, the
second call returns `10.0.0.1` again, with the error of `load`, which could not decode
the file the first call wrote.  In the history `lanHistory` the ninth call makes the file
longer than the buffer of `load`; the tenth call fails to load it, starts from an empty
map and writes that; the eleventh call returns `192.168.0.2` with a nil error, the address
the second call returned with a nil error and nobody released. -/
theorem allocate_returns_address_twice :
    (IPAM.Allocate none corpNet).ip = some ⟨10, 0, 0, 1⟩ ∧
    (IPAM.Allocate none corpNet).err = none ∧
    (IPAM.Allocate (IPAM.Allocate none corpNet).file corpNet).ip = some ⟨10, 0, 0, 1⟩ ∧
    (IPAM.Allocate (IPAM.Allocate none corpNet).file corpNet).err = some LoadErr.badJSON ∧
    (allocRun none lanHistory).map (fun r => (r.ip, r.err))
      = [(some ⟨192, 168, 0, 1⟩, none), (some ⟨192, 168, 0, 2⟩, none),
         (some ⟨192, 168, 1, 1⟩, none), (some ⟨192, 168, 2, 1⟩, none),
         (some ⟨192, 168, 3, 1⟩, none), (some ⟨192, 168, 4, 1⟩, none),
         (some ⟨192, 168, 5, 1⟩, none), (some ⟨192, 168, 6, 1⟩, none),
         (some ⟨192, 168, 7, 1⟩, none), (some ⟨192, 168, 0, 1⟩, some LoadErr.badJSON),
         (some ⟨192, 168, 0, 2⟩, none)] := by
  rw [corpNet_first, corpNet_second]
  exact ⟨rfl, rfl, rfl, rfl, lanHistory_run⟩

/-- C4. `Allocate` returns an address outside the subnet: in `192.168.0.4/30`, starting
with no file, four successive calls return `.5`, `.6`, `.7` and `.8`, each with a nil
error, and `192.168.0.8` is not contained in `192.168.0.4/30`. -/
theorem allocate_returns_address_outside_subnet :
    (allocRun none [smallNet, smallNet, smallNet, smallNet]).map (fun r => (r.ip, r.err))
      = [(some ⟨192, 168, 0, 5⟩, none), (some ⟨192, 168, 0, 6⟩, none),
         (some ⟨192, 168, 0, 7⟩, none), (some ⟨192, 168, 0, 8⟩, none)] ∧
    smallNet.Contains ⟨192, 168, 0, 7⟩ = true ∧
    smallNet.Contains ⟨192, 168, 0, 8⟩ = false :=
  ⟨smallNet_run, by decide, by decide⟩

/-- On the map as loaded: when every bit of the bitmap `Allocate` loaded for the subnet is
`'1'`, the call returns the nil address and a nil error and dumps the map exactly as
loaded; when the file was written by `dump`, it is the same file afterwards. -/
theorem allocate_on_full_bitmap (file : AllocFile) (subnet : IPNet) (bitmap : List Char)
    (h : (IPAM.load file).1.get? (ParseCIDR subnet.IP subnet.ones).2.String = some bitmap)
    (hfull : ∀ c ∈ bitmap, c = '1') :
    IPAM.Allocate file subnet
      = { ip := none, err := none, file := IPAM.dump (IPAM.load file).1 } ∧
    ∀ m, Subnets.Sorted m → Subnets.Plain m → file = IPAM.dump m →
      (IPAM.Allocate file subnet).file = file := by
  have herr : (IPAM.load file).2 = none := by
    by_contra hne
    rw [load_err_map file hne] at h
    simp [Subnets.get?] at h
  have hz : firstZero bitmap = none :=
    firstZero_none bitmap (fun c hc => by rw [hfull c hc]; decide)
  have hA : IPAM.Allocate file subnet
      = { ip := none, err := none, file := IPAM.dump (IPAM.load file).1 } := by
    rcases hload : IPAM.load file with ⟨m0, err⟩
    rw [hload] at h herr
    simp only at h herr
    simp only [IPAM.Allocate, hload]
    simp only [ParseCIDR] at h ⊢
    simp only [h, Option.getD_some, hz, herr]
  refine ⟨hA, ?_⟩
  intro m hs hp hfile
  rw [hA]
  subst hfile
  rw [load_dump m hs hp] at h ⊢
  split_ifs at h ⊢ with hlen
  · rfl
  · simp [Subnets.get?] at h

/-- An instance of `allocate_on_full_bitmap`: the subnet `192.168.0.4/30` with all four
bits set, in a file short enough for `load`. -/
theorem allocate_on_full_bitmap_witness :
    (IPAM.load (IPAM.dump [("192.168.0.4/30".toList, "1111".toList)])).1.get?
        (ParseCIDR smallNet.IP smallNet.ones).2.String = some "1111".toList ∧
    (∀ c ∈ "1111".toList, c = '1') ∧
    IPAM.Allocate (IPAM.dump [("192.168.0.4/30".toList, "1111".toList)]) smallNet
      = { ip := none, err := none,
          file := IPAM.dump
            (IPAM.load (IPAM.dump [("192.168.0.4/30".toList, "1111".toList)])).1 } :=
  ⟨by decide, by decide,
    (allocate_on_full_bitmap (IPAM.dump [("192.168.0.4/30".toList, "1111".toList)]) smallNet
      "1111".toList (by decide) (by decide)).1⟩

/-- C6. On a host on which every call succeeds, starting with no allocator file and no
network: `CreateNetwork("bridge", "192.168.10.0/24", "testnet")` returns nil, has
allocated `192.168.10.1` and writes the descriptor of a network whose `IpRange` is
`192.168.10.1/24`; after `Init` has read the descriptors (as `Run` does before it
connects), `Connect("testnet", c1)` returns nil, its endpoint has id `c1-testnet` and
address `192.168.10.2`, and the default route through `192.168.10.1` was added. -/
theorem testnet_end_to_end (host : Host) (h : host.Obliging) :
    (CreateNetwork host (Init emptyWorld) "bridge".toList testnetCIDR "testnet".toList).1
      = Res.ok ∧
    (CreateNetwork host (Init emptyWorld) "bridge".toList testnetCIDR "testnet".toList).2.ipam
      = (IPAM.Allocate none ⟨⟨192, 168, 10, 0⟩, 24⟩).file ∧
    (IPAM.Allocate none ⟨⟨192, 168, 10, 0⟩, 24⟩).ip = some ⟨192, 168, 10, 1⟩ ∧
    (CreateNetwork host (Init emptyWorld) "bridge".toList testnetCIDR "testnet".toList).2.netDir
      = [("testnet".toList,
          { Name := "testnet".toList, IpRange := ⟨⟨192, 168, 10, 1⟩, 24⟩,
            Driver := "bridge".toList })] ∧
    (Connect host
      (Init (CreateNetwork host (Init emptyWorld) "bridge".toList testnetCIDR
        "testnet".toList).2) "testnet".toList containerC1).1 = Res.ok ∧
    (∃ ep, (Connect host
      (Init (CreateNetwork host (Init emptyWorld) "bridge".toList testnetCIDR
        "testnet".toList).2) "testnet".toList containerC1).2.1 = some ep ∧
      ep.ID = "c1-testnet".toList ∧ ep.IPAddress = some ⟨192, 168, 10, 2⟩ ∧
      ep.Network.IpRange = ⟨⟨192, 168, 10, 1⟩, 24⟩) ∧
    HostCall.RouteAddDefault "cif-c1-te".toList ⟨192, 168, 10, 1⟩ ∈
      (Connect host
        (Init (CreateNetwork host (Init emptyWorld) "bridge".toList testnetCIDR
          "testnet".toList).2) "testnet".toList containerC1).2.2.log := by
  obtain ⟨log1, hcreate⟩ := CreateNetwork_obliging host h (Init emptyWorld) "bridge".toList
    testnetCIDR "testnet".toList ⟨192, 168, 10, 1⟩ (by decide) testnet_gateway.1
    testnet_gateway.2
  rw [hcreate]
  obtain ⟨ep, w2, hconnect, hid, hip, hnet, -, hroute⟩ := Connect_obliging host h
    (Init { Init emptyWorld with
      ipam := (IPAM.Allocate (Init emptyWorld).ipam (ParseCIDR testnetCIDR.1 testnetCIDR.2).2).file
      log := log1
      netDir := assocSet (Init emptyWorld).netDir "testnet".toList
        { Name := "testnet".toList, IpRange := { IP := ⟨192, 168, 10, 1⟩, ones := testnetCIDR.2 },
          Driver := "bridge".toList } })
    "testnet".toList containerC1
    { Name := "testnet".toList, IpRange := ⟨⟨192, 168, 10, 1⟩, 24⟩, Driver := "bridge".toList }
    ⟨192, 168, 10, 2⟩ rfl (by simp [Init, emptyWorld]) testnet_container.1 testnet_container.2
    (by decide)
  rw [hconnect]
  refine ⟨rfl, rfl, testnet_gateway.1, rfl, rfl, ⟨ep, rfl, hid, hip, ?_⟩, hroute⟩
  rw [hnet]

/-- Witness for C6: the host `freshHost`, on which no interface exists beforehand. -/
theorem testnet_end_to_end_witness :
    freshHost.Obliging ∧
    (Connect freshHost
      (Init (CreateNetwork freshHost (Init emptyWorld) "bridge".toList testnetCIDR
        "testnet".toList).2) "testnet".toList containerC1).1 = Res.ok :=
  ⟨freshHost_obliging, (testnet_end_to_end freshHost freshHost_obliging).2.2.2.2.1⟩

/-- C7. What `load` reads is not what `dump` wrote once the JSON text is longer than the
2000 bytes `load` reads: for the map with the one subnet `10.0.0.0/16` and for the map
`eightLans` of eight `/24` subnets, `load` after `dump` returns an error and leaves the
map empty. -/
theorem load_after_dump_loses_the_map :
    IPAM.load (IPAM.dump corpMap) = ([], some LoadErr.badJSON) ∧
    IPAM.load (IPAM.dump eightLans) = ([], some LoadErr.badJSON) ∧
    corpMap.length = 1 ∧ eightLans.length = 8 :=
  ⟨corpMap_load, eightLans_load, rfl, rfl⟩

/-- C8. For a network name that is not in `networks`, `DeleteNetwork` and `Connect` return
the error `No Such Network` and leave everything as it was: the allocator file, the
registry, the descriptor files and the record of host calls. -/
theorem unknown_network_is_rejected (host : Host) (w : World) (networkName : List Char)
    (cinfo : ContainerInfo) (h : w.networks.lookup networkName = none) :
    DeleteNetwork host w networkName = (Res.err (NetErr.NoSuchNetwork networkName), w) ∧
    Connect host w networkName cinfo
      = (Res.err (NetErr.NoSuchNetwork networkName), none, w) := by
  simp [DeleteNetwork, Connect, h]

/-- Witness for C8: the name `ghost` after `Init` on a machine without networks. -/
theorem unknown_network_is_rejected_witness :
    (Init emptyWorld).networks.lookup "ghost".toList = none ∧
    DeleteNetwork freshHost (Init emptyWorld) "ghost".toList
      = (Res.err (NetErr.NoSuchNetwork "ghost".toList), Init emptyWorld) :=
  ⟨by decide,
    (unknown_network_is_rejected freshHost (Init emptyWorld) "ghost".toList containerC1
      (by decide)).1⟩

set_option maxRecDepth 100000 in
/-- C9. `CreateNetwork` with the driver name `overlay`, which `Init` does not register,
returns no error value on any host: the method call on the nil driver panics, after the
address `192.168.10.1` was allocated and the allocator file written. -/
theorem unknown_driver_panics (host : Host) :
    "overlay".toList ∉ (Init emptyWorld).drivers ∧
    CreateNetwork host (Init emptyWorld) "overlay".toList testnetCIDR "testnet".toList
      = (Res.panic,
         { Init emptyWorld with ipam := (IPAM.Allocate none ⟨⟨192, 168, 10, 0⟩, 24⟩).file }) ∧
    (IPAM.Allocate none ⟨⟨192, 168, 10, 0⟩, 24⟩).ip = some ⟨192, 168, 10, 1⟩ := by
  refine ⟨by decide, ?_, testnet_gateway.1⟩
  have herr : (IPAM.Allocate (Init emptyWorld).ipam (ParseCIDR testnetCIDR.1 testnetCIDR.2).2).err
      = none := testnet_gateway.2
  have hd : "overlay".toList ∉ (Init emptyWorld).drivers := by decide
  simp only [CreateNetwork, herr, hd, if_false]
  rfl

/-- C10. The user command is executed after a failed mount step: on a machine where the
bind mount of the new root fails, `RunContainerInitProcess` goes on to the two mounts,
looks the command up and execs it. -/
theorem init_execs_after_failed_mount :
    brokenMountEnv.succeeds [SysCall.Getwd] (SysCall.MountBind "/root/mnt/c1".toList) = false ∧
    RunContainerInitProcess brokenMountEnv (some "sh".toList)
      = (InitEnd.execed "/bin/sh".toList ["sh".toList],
         [SysCall.Getwd, SysCall.MountBind "/root/mnt/c1".toList, SysCall.MountProc,
          SysCall.MountDev, SysCall.LookPath "sh".toList,
          SysCall.Exec "/bin/sh".toList ["sh".toList]]) :=
  ⟨rfl, brokenMountEnv_run⟩

/-- C11. The claim fails on the code: workspace creation cannot abort anything.  On a machine
without the image archive (`tar` fails and so does the union mount) the two failures are
reported in the workspace record, yet `NewParentProcess` hands back a command, `Run` starts
it, records the container, sets up the cgroup and writes the command line to the pipe; and
whatever the workspace host answers, `NewParentProcess` hands back a command and `Run`
calls `Start`. -/
theorem workspace_failure_does_not_abort_run :
    (WsEvent.logged (WsCall.Untar "/root/busybox.tar".toList "/root/busybox/".toList)
        ∈ (Run (launchEnv missingImageWs) emptyWs emptyWorld false ["sh".toList] "c1".toList []
            "busybox".toList [] [] []).2.ws.trace ∧
      WsEvent.logged (WsCall.MountAufs "dirs=/root/writeLayer/c1:/root/busybox".toList
          "/root/mnt/c1".toList)
        ∈ (Run (launchEnv missingImageWs) emptyWs emptyWorld false ["sh".toList] "c1".toList []
            "busybox".toList [] [] []).2.ws.trace ∧
      (NewParentProcess (launchEnv missingImageWs) { trace := [], ws := emptyWs, net := emptyWorld }
          false "c1".toList [] "busybox".toList []).1.isSome = true ∧
      (Run (launchEnv missingImageWs) emptyWs emptyWorld false ["sh".toList] "c1".toList []
          "busybox".toList [] [] []).1 = RunEnd.finished ∧
      (Run (launchEnv missingImageWs) emptyWs emptyWorld false ["sh".toList] "c1".toList []
          "busybox".toList [] [] []).2.trace
        = [RunEvent.call ProcCall.Pipe, RunEvent.call ProcCall.Readlink,
            RunEvent.call (ProcCall.MkdirAll "/var/run/mydocker/c1/".toList),
            RunEvent.call (ProcCall.Create "/var/run/mydocker/c1/container.log".toList),
            RunEvent.NewWorkSpace, RunEvent.call ProcCall.Start,
            RunEvent.call (ProcCall.MkdirAll "/var/run/mydocker/c1/".toList),
            RunEvent.call (ProcCall.Create "/var/run/mydocker/c1//config.json".toList),
            RunEvent.call (ProcCall.WriteInfo "/var/run/mydocker/c1//config.json".toList),
            RunEvent.CgroupSet, RunEvent.CgroupApply 4242,
            RunEvent.PipeWrite "sh".toList, RunEvent.PipeClose, RunEvent.CgroupDestroy]) ∧
    ∀ (wsHost : WsHost) (ws : WsWorld) (net : World) (tty : Bool) (comArray : List (List Char))
      (containerName volume imageName : List Char),
      (NewParentProcess (launchEnv wsHost) { trace := [], ws := ws, net := net } tty
          containerName volume imageName []).1.isSome = true ∧
      RunEvent.call ProcCall.Start
        ∈ (Run (launchEnv wsHost) ws net tty comArray containerName volume imageName [] []
            []).2.trace := by
  refine ⟨by decide, ?_⟩
  intro wsHost ws net tty comArray containerName volume imageName
  constructor
  · cases tty <;> simp [NewParentProcess, RunEnv.call, launchEnv]
  · unfold Run
    simp only []
    generalize (if containerName = [] then randStringBytes (launchEnv wsHost).draws 10
      else containerName) = name
    cases tty <;>
      simp [NewParentProcess, RunEnv.call, launchEnv, recordContainerInfo, sendInitCommand]

/-- C12, counterexample. The argument list `sh`, `-c`, `echo hi` is written to the pipe as
`sh -c echo hi` and comes back as the four arguments `sh`, `-c`, `echo`, `hi`; the empty
argument list is written as the empty string and comes back as one empty argument. -/
theorem command_with_space_is_split_again :
    (sendInitCommand { trace := [], ws := emptyWs, net := emptyWorld }
        ["sh".toList, "-c".toList, "echo hi".toList]).trace
      = [RunEvent.PipeWrite "sh -c echo hi".toList, RunEvent.PipeClose] ∧
    readUserCommand (some "sh -c echo hi".toList)
      = some ["sh".toList, "-c".toList, "echo".toList, "hi".toList] ∧
    readUserCommand (some "sh -c echo hi".toList)
      ≠ some ["sh".toList, "-c".toList, "echo hi".toList] ∧
    (sendInitCommand { trace := [], ws := emptyWs, net := emptyWorld } []).trace
      = [RunEvent.PipeWrite [], RunEvent.PipeClose] ∧
    readUserCommand (some []) = some [[]] := by decide

/-- C12, amended. For every argument list that is not empty and has no space inside an
argument, `sendInitCommand` writes the arguments joined by single spaces to the pipe and
closes it, and `readUserCommand` on the text written returns the list that was sent. -/
theorem command_round_trip (st : RunState) (comArray : List (List Char))
    (hne : comArray ≠ []) (h : ∀ arg ∈ comArray, ' ' ∉ arg) :
    (sendInitCommand st comArray).trace
      = st.trace ++ [RunEvent.PipeWrite (strJoin " ".toList comArray), RunEvent.PipeClose] ∧
    readUserCommand (some (strJoin " ".toList comArray)) = some comArray := by
  refine ⟨rfl, ?_⟩
  have hs : " ".toList = [' '] := rfl
  rw [hs]
  simp only [readUserCommand, Option.map_some']
  rw [strSplit_strJoin ' ' comArray hne h]

/-- Witness for C12: the argument list `sh`, `-c`, `ls`. -/
theorem command_round_trip_witness :
    (sendInitCommand { trace := [], ws := emptyWs, net := emptyWorld }
        ["sh".toList, "-c".toList, "ls".toList]).trace
      = [] ++ [RunEvent.PipeWrite (strJoin " ".toList ["sh".toList, "-c".toList, "ls".toList]),
          RunEvent.PipeClose] ∧
    readUserCommand (some (strJoin " ".toList ["sh".toList, "-c".toList, "ls".toList]))
      = some ["sh".toList, "-c".toList, "ls".toList] :=
  command_round_trip { trace := [], ws := emptyWs, net := emptyWorld }
    ["sh".toList, "-c".toList, "ls".toList] (by decide) (by decide)

/-- C13. For every volume parameter: when `strings.Split(volume, ":")` gives exactly two
parts and both are not empty, `NewWorkSpace` is the build without a volume followed by
`MountVolume` on the two parts, and the mount of the first part at the second part under
the mount point is in the record; in every other case (the empty parameter included) the
directories are those of the build without a volume, and the record is that of the build
without a volume, followed only by the message that the parameter is not correct when the
parameter is not empty: no call is added. -/
theorem volume_mounted_iff_two_nonempty_parts (host : WsHost) (w : WsWorld)
    (volume imageName containerName : List Char) :
    (∀ a b, strSplit ':' volume = [a, b] → a ≠ [] → b ≠ [] →
      NewWorkSpace host w volume imageName containerName
        = (MountVolume host (NewWorkSpace host w [] imageName containerName) a b
            containerName).2 ∧
      WsEvent.call (WsCall.MountAufs ("dirs=".toList ++ a)
          (mntUrlOf containerName ++ "/".toList ++ b))
        ∈ (NewWorkSpace host w volume imageName containerName).trace) ∧
    ((¬ ∃ a b, strSplit ':' volume = [a, b] ∧ a ≠ [] ∧ b ≠ []) →
      (NewWorkSpace host w volume imageName containerName).dirs
        = (NewWorkSpace host w [] imageName containerName).dirs ∧
      (NewWorkSpace host w volume imageName containerName).trace
        = (NewWorkSpace host w [] imageName containerName).trace
            ++ (if volume = [] then [] else [WsEvent.volumeIgnored])) := by
  constructor
  · intro a b h ha hb
    obtain ⟨hv, hp⟩ := volumeParts_some volume a b h ha hb
    have heq : NewWorkSpace host w volume imageName containerName
        = (MountVolume host (NewWorkSpace host w [] imageName containerName) a b
            containerName).2 := by
      simp [NewWorkSpace, hv, hp]
    rw [heq]
    exact ⟨rfl, MountVolume_mounts _ _ _ _ _⟩
  · intro h
    have hp := volumeParts_none volume h
    by_cases hv : volume = []
    · subst hv
      simp [NewWorkSpace]
    · simp [NewWorkSpace, hv, hp]

/-- Witness for C13: the volume `/host:/data` is mounted, the volume `/host:` is not. -/
theorem volume_mounted_iff_two_nonempty_parts_witness :
    WsEvent.call (WsCall.MountAufs ("dirs=".toList ++ "/host".toList)
        (mntUrlOf "c1".toList ++ "/".toList ++ "/data".toList))
      ∈ (NewWorkSpace allOkWs emptyWs "/host:/data".toList "busybox".toList "c1".toList).trace ∧
    (NewWorkSpace allOkWs emptyWs "/host:".toList "busybox".toList "c1".toList).trace
      = (NewWorkSpace allOkWs emptyWs [] "busybox".toList "c1".toList).trace
          ++ (if "/host:".toList = [] then [] else [WsEvent.volumeIgnored]) :=
  ⟨((volume_mounted_iff_two_nonempty_parts allOkWs emptyWs "/host:/data".toList
      "busybox".toList "c1".toList).1 "/host".toList "/data".toList (by decide) (by decide)
      (by decide)).2,
   ((volume_mounted_iff_two_nonempty_parts allOkWs emptyWs "/host:".toList
      "busybox".toList "c1".toList).2 (by
        rintro ⟨a, b, h, _, hb⟩
        have hs : strSplit ':' "/host:".toList = ["/host".toList, []] := by decide
        rw [hs] at h
        simp only [List.cons.injEq, and_true] at h
        exact hb h.2.symm)).2⟩

/-- The mount-point directory is removed only after a successful `umount`.  On a machine
where `umount` fails, `DeleteWorkSpace` for container `c1` without a volume does not call
`os.RemoveAll` on `/root/mnt/c1`, which it does when the `umount` succeeds: the record is
the failed `umount`, its report, and the removal of the writable layer. -/
theorem failed_umount_skips_mount_point_removal :
    (DeleteWorkSpace busyMountWs emptyWs [] "c1".toList).trace
      = [WsEvent.call (WsCall.Umount "/root/mnt/c1".toList),
          WsEvent.logged (WsCall.Umount "/root/mnt/c1".toList),
          WsEvent.call (WsCall.RemoveAll "/root/writeLayer/c1".toList)] ∧
    WsEvent.call (WsCall.RemoveAll "/root/mnt/c1".toList)
      ∉ (DeleteWorkSpace busyMountWs emptyWs [] "c1".toList).trace ∧
    (DeleteWorkSpace allOkWs emptyWs [] "c1".toList).trace
      = [WsEvent.call (WsCall.Umount "/root/mnt/c1".toList),
          WsEvent.call (WsCall.RemoveAll "/root/mnt/c1".toList),
          WsEvent.call (WsCall.RemoveAll "/root/writeLayer/c1".toList)] ∧
    "/root/mnt/c1".toList
      ∈ (DeleteWorkSpace busyMountWs
          { dirs := ["/root/mnt/c1".toList, "/root/writeLayer/c1".toList], trace := [] } []
          "c1".toList).dirs ∧
    (DeleteWorkSpace allOkWs
        { dirs := ["/root/mnt/c1".toList, "/root/writeLayer/c1".toList], trace := [] } []
        "c1".toList).dirs = [] := by decide

/-- C14. `DeleteWorkSpace` makes its steps in the order: the `umount` of the volume
directory, made exactly when the volume parameter splits on `:` into two parts that are
not empty; the `umount` of the mount point; the removal of the writable layer.  A failed
`umount` is reported, and the steps after it are made all the same.  The record the call
adds is given in full, for every host: the `umount` of the volume directory with the
report of its failure; the `umount` of the mount point, followed by the removal of the
mount-point directory when it succeeded and by its report when it failed; the removal of
the writable layer, with the report of its failure. -/
theorem delete_workspace_record (host : WsHost) (w : WsWorld)
    (volume containerName : List Char) :
    let mnt := mntUrlOf containerName
    let layer := writeLayerUrlOf containerName
    let pre := match volumeParts volume with
      | some (_, containerUrl) =>
        WsEvent.call (WsCall.Umount (mnt ++ "/".toList ++ containerUrl)) ::
          (if host w.trace (WsCall.Umount (mnt ++ "/".toList ++ containerUrl)) = WsAnswer.ok
            then [] else [WsEvent.logged (WsCall.Umount (mnt ++ "/".toList ++ containerUrl))])
      | none => []
    let mid :=
      if host (w.trace ++ pre) (WsCall.Umount mnt) = WsAnswer.ok then
        WsEvent.call (WsCall.RemoveAll mnt) ::
          (if host (w.trace ++ pre ++ [WsEvent.call (WsCall.Umount mnt)]) (WsCall.RemoveAll mnt)
              = WsAnswer.ok then [] else [WsEvent.logged (WsCall.RemoveAll mnt)])
      else [WsEvent.logged (WsCall.Umount mnt)]
    let post :=
      if host (w.trace ++ pre ++ WsEvent.call (WsCall.Umount mnt) :: mid) (WsCall.RemoveAll layer)
          = WsAnswer.ok then [] else [WsEvent.logged (WsCall.RemoveAll layer)]
    (DeleteWorkSpace host w volume containerName).trace
        = w.trace ++ pre ++ WsEvent.call (WsCall.Umount mnt) :: mid
            ++ WsEvent.call (WsCall.RemoveAll layer) :: post ∧
      ((volumeParts volume).isSome = true ↔
        ∃ a b, strSplit ':' volume = [a, b] ∧ a ≠ [] ∧ b ≠ []) := by
  intro mnt layer pre mid post
  constructor
  · simp only [pre, mid, post, mnt, layer]
    simp only [DeleteWorkSpace, DeleteVolume, DeleteMountPoint, DeleteWriteLayer, WsHost.call,
      WsWorld.report]
    cases volumeParts volume with
    | none =>
      simp only [List.append_nil]
      split_ifs <;> simp_all
    | some p =>
      obtain ⟨a, b⟩ := p
      simp only []
      split_ifs <;> simp_all
  · constructor
    · intro hsome
      by_contra hno
      rw [volumeParts_none volume hno] at hsome
      cases hsome
    · rintro ⟨a, b, h, ha, hb⟩
      rw [(volumeParts_some volume a b h ha hb).2]
      rfl

/-- C15. For every image name: when `PathExists` reports that the extraction directory
`/root/<image>/` exists, `CreateReadOnlyLayer` returns nil after that one `os.Stat`: no
directory is created, `tar` is not run, the directories are unchanged.  A call that
returned nil leaves the directory in existence, and a second call for the same image whose
`os.Stat` does not fail returns nil and adds only that `os.Stat` to what the first call
left. -/
theorem create_read_only_layer_idempotent (host : WsHost) (w : WsWorld)
    (imageName : List Char) :
    ((PathExists host w (RootUrl ++ "/".toList ++ imageName ++ "/".toList)).1 = WsAnswer.ok →
      CreateReadOnlyLayer host w imageName
        = (WsRes.ok, { w with trace := w.trace ++
            [WsEvent.call (WsCall.Stat (RootUrl ++ "/".toList ++ imageName ++ "/".toList))] })) ∧
    ((CreateReadOnlyLayer host w imageName).1 = WsRes.ok →
      RootUrl ++ "/".toList ++ imageName ++ "/".toList
          ∈ (CreateReadOnlyLayer host w imageName).2.dirs ∧
        (host (CreateReadOnlyLayer host w imageName).2.trace
            (WsCall.Stat (RootUrl ++ "/".toList ++ imageName ++ "/".toList)) ≠ WsAnswer.failed →
          CreateReadOnlyLayer host (CreateReadOnlyLayer host w imageName).2 imageName
            = (WsRes.ok, { (CreateReadOnlyLayer host w imageName).2 with
                trace := (CreateReadOnlyLayer host w imageName).2.trace ++
                  [WsEvent.call
                    (WsCall.Stat (RootUrl ++ "/".toList ++ imageName ++ "/".toList))] }))) := by
  refine ⟨CreateReadOnlyLayer_existing host w imageName, ?_⟩
  intro hok
  have hdir := CreateReadOnlyLayer_ok_dir host w imageName hok
  refine ⟨hdir, ?_⟩
  intro hstat
  apply CreateReadOnlyLayer_existing
  simp only [PathExists, WsHost.call, hstat, hdir, if_true, if_false]

/-- Witness for C15: the image `busybox` with its directory in place, and two calls in a
row on a machine without it. -/
theorem create_read_only_layer_idempotent_witness :
    CreateReadOnlyLayer allOkWs { dirs := ["/root/busybox/".toList], trace := [] }
        "busybox".toList
      = (WsRes.ok,
          { ({ dirs := ["/root/busybox/".toList], trace := [] } : WsWorld) with
            trace := [] ++ [WsEvent.call
              (WsCall.Stat (RootUrl ++ "/".toList ++ "busybox".toList ++ "/".toList))] }) ∧
    CreateReadOnlyLayer allOkWs (CreateReadOnlyLayer allOkWs emptyWs "busybox".toList).2
        "busybox".toList
      = (WsRes.ok, { (CreateReadOnlyLayer allOkWs emptyWs "busybox".toList).2 with
          trace := (CreateReadOnlyLayer allOkWs emptyWs "busybox".toList).2.trace ++
            [WsEvent.call
              (WsCall.Stat (RootUrl ++ "/".toList ++ "busybox".toList ++ "/".toList))] }) :=
  ⟨(create_read_only_layer_idempotent allOkWs
      { dirs := ["/root/busybox/".toList], trace := [] } "busybox".toList).1 (by decide),
   ((create_read_only_layer_idempotent allOkWs emptyWs "busybox".toList).2 (by decide)).2
      (by decide)⟩

theorem split_at_unique {α : Type} (p : α → Bool) (X Y : List α) (w : α) :
    ∀ (pre post : List α) (e : α), (∀ x ∈ X, p x = false) → (∀ y ∈ Y, p y = false) →
      p e = true → X ++ w :: Y = pre ++ e :: post → pre = X ∧ e = w ∧ post = Y := by
  induction X with
  | nil =>
    intro pre post e _ hY he h
    cases pre with
    | nil =>
      simp only [List.nil_append, List.cons.injEq] at h
      exact ⟨rfl, h.1.symm, h.2.symm⟩
    | cons a pre1 =>
      simp only [List.nil_append, List.cons_append, List.cons.injEq] at h
      have hmem : e ∈ Y := by rw [h.2]; simp
      rw [hY e hmem] at he
      cases he
  | cons x X1 ih =>
    intro pre post e hX hY he h
    cases pre with
    | nil =>
      simp only [List.nil_append, List.cons_append, List.cons.injEq] at h
      have hx := hX x (List.mem_cons_self _ _)
      rw [h.1, he] at hx
      cases hx
    | cons a pre1 =>
      simp only [List.cons_append, List.cons.injEq] at h
      obtain ⟨h1, h2, h3⟩ := ih pre1 post e
        (fun y hy => hX y (List.mem_cons_of_mem _ hy)) hY he h.2
      exact ⟨by rw [h.1, h1], h2, h3⟩

theorem quiet_not_isPipeWrite (e : RunEvent) (h : e.quiet = true) :
    e.isPipeWrite = false ∧ e ≠ RunEvent.PipeClose ∧
      ∀ n r, e ≠ RunEvent.NetworkConnect n r := by
  cases e <;> simp_all [RunEvent.quiet, RunEvent.isPipeWrite]

theorem Run_trace_write (env : RunEnv) (ws : WsWorld) (net : World) (tty : Bool)
    (comArray : List (List Char)) (containerName volume imageName : List Char)
    (envSlice : List (List Char)) (nw : List Char) (portmapping : List (List Char)) :
    (∀ e ∈ (Run env ws net tty comArray containerName volume imageName envSlice nw
          portmapping).2.trace, e.isPipeWrite = false ∧ e ≠ RunEvent.PipeClose) ∨
    ∃ X T, (Run env ws net tty comArray containerName volume imageName envSlice nw
          portmapping).2.trace
        = X ++ RunEvent.PipeWrite (strJoin " ".toList comArray) :: (RunEvent.PipeClose :: T) ∧
      (∀ e ∈ X, e.isPipeWrite = false ∧ e ≠ RunEvent.PipeClose ∧
        ∀ r, e = RunEvent.NetworkConnect nw r → r = Res.ok) ∧
      (∀ e ∈ T, e.isPipeWrite = false ∧ e ≠ RunEvent.PipeClose ∧
        ∀ r, e ≠ RunEvent.NetworkConnect nw r) ∧
      RunEvent.CgroupSet ∈ X ∧ RunEvent.CgroupApply env.pid ∈ X ∧
      (nw ≠ [] → RunEvent.NetworkConnect nw Res.ok ∈ X) := by
  obtain ⟨A, B, htr, hA, hB⟩ := Run_trace env ws net tty comArray containerName volume
    imageName envSlice nw portmapping
  rw [htr]
  rcases hB with rfl | ⟨r, _, _, rfl⟩ | ⟨T, hT, rfl⟩
  · left
    intro e he
    rw [List.append_nil] at he
    exact ⟨(quiet_not_isPipeWrite e (hA e he)).1, (quiet_not_isPipeWrite e (hA e he)).2.1⟩
  · left
    intro e he
    rw [List.mem_append] at he
    rcases he with he | he
    · exact ⟨(quiet_not_isPipeWrite e (hA e he)).1, (quiet_not_isPipeWrite e (hA e he)).2.1⟩
    · simp only [List.mem_cons, List.mem_singleton, List.not_mem_nil, or_false] at he
      rcases he with rfl | rfl | rfl | rfl | rfl <;> simp [RunEvent.isPipeWrite]
  · right
    refine ⟨A ++ ([RunEvent.CgroupSet, RunEvent.CgroupApply env.pid] ++
      (if nw = [] then [] else [RunEvent.NetworkInit, RunEvent.NetworkConnect nw Res.ok])), T,
      by simp, ?_, ?_, by simp, by simp, ?_⟩
    · intro e he
      rw [List.mem_append] at he
      rcases he with he | he
      · have := quiet_not_isPipeWrite e (hA e he)
        exact ⟨this.1, this.2.1, fun r hr => absurd hr (this.2.2 nw r)⟩
      · by_cases hnw : nw = []
        · simp only [hnw, if_true, List.append_nil, List.mem_cons, List.mem_singleton,
            List.not_mem_nil, or_false] at he
          rcases he with rfl | rfl <;> simp [RunEvent.isPipeWrite]
        · simp only [hnw, if_false, List.cons_append, List.nil_append, List.mem_cons,
            List.mem_singleton, List.not_mem_nil, or_false] at he
          rcases he with rfl | rfl | rfl | rfl <;> simp [RunEvent.isPipeWrite]
    · intro e he
      rcases hT e he with h | rfl | rfl
      · have := quiet_not_isPipeWrite e h
        exact ⟨this.1, this.2.1, this.2.2 nw⟩
      · simp [RunEvent.isPipeWrite]
      · simp [RunEvent.isPipeWrite]
    · intro hnw
      simp [hnw]

/-- C16. In every execution of `Run`: the record holds at most one write to the pipe and at
most one close of it; wherever the record holds a write, what is written is the command
line (the arguments joined by spaces), the close follows at once, and before the write the
record holds the cgroup `Set`, the cgroup `Apply` on the pid of the child and, when a network
name is given, a `Connect` to that network that returned nil; and when the record holds a
`Connect` that did not return nil, it holds no write to the pipe. -/
theorem command_written_once_after_setup (env : RunEnv) (ws : WsWorld) (net : World)
    (tty : Bool) (comArray : List (List Char)) (containerName volume imageName : List Char)
    (envSlice : List (List Char)) (nw : List Char) (portmapping : List (List Char)) :
    ((Run env ws net tty comArray containerName volume imageName envSlice nw
        portmapping).2.trace.countP RunEvent.isPipeWrite ≤ 1) ∧
    ((Run env ws net tty comArray containerName volume imageName envSlice nw
        portmapping).2.trace.count RunEvent.PipeClose ≤ 1) ∧
    (∀ pre command post,
      (Run env ws net tty comArray containerName volume imageName envSlice nw
          portmapping).2.trace = pre ++ RunEvent.PipeWrite command :: post →
        command = strJoin " ".toList comArray ∧
        (∃ post1, post = RunEvent.PipeClose :: post1) ∧
        RunEvent.CgroupSet ∈ pre ∧ RunEvent.CgroupApply env.pid ∈ pre ∧
        (nw ≠ [] → RunEvent.NetworkConnect nw Res.ok ∈ pre) ∧
        (∀ r, RunEvent.NetworkConnect nw r ∈ pre → r = Res.ok)) ∧
    (∀ r, r ≠ Res.ok →
      RunEvent.NetworkConnect nw r
        ∈ (Run env ws net tty comArray containerName volume imageName envSlice nw
            portmapping).2.trace →
      ∀ e ∈ (Run env ws net tty comArray containerName volume imageName envSlice nw
            portmapping).2.trace, e.isPipeWrite = false) := by
  rcases Run_trace_write env ws net tty comArray containerName volume imageName envSlice nw
    portmapping with hno | ⟨X, T, htr, hX, hT, hset, happly, hconn⟩
  · refine ⟨?_, ?_, ?_, ?_⟩
    · rw [List.countP_eq_zero.mpr (fun e he => by simp [(hno e he).1])]
      exact Nat.zero_le _
    · rw [List.count_eq_zero.mpr (fun hmem => (hno _ hmem).2 rfl)]
      exact Nat.zero_le _
    · intro pre command post h
      have := (hno (RunEvent.PipeWrite command) (by rw [h]; simp)).1
      simp [RunEvent.isPipeWrite] at this
    · intro r _ _ e he
      exact (hno e he).1
  · rw [htr]
    have hXw : ∀ x ∈ X, RunEvent.isPipeWrite x = false := fun x hx => (hX x hx).1
    have hTw : ∀ y ∈ RunEvent.PipeClose :: T, RunEvent.isPipeWrite y = false := by
      intro y hy
      rcases List.mem_cons.mp hy with rfl | hy
      · rfl
      · exact (hT y hy).1
    refine ⟨?_, ?_, ?_, ?_⟩
    · rw [List.countP_append, List.countP_eq_zero.mpr (fun e he => by simp [hXw e he]),
        List.countP_cons, List.countP_eq_zero.mpr (fun e he => by simp [hTw e he])]
      simp [RunEvent.isPipeWrite]
    · rw [List.count_append, List.count_eq_zero.mpr (fun hmem => (hX _ hmem).2.1 rfl),
        List.count_cons, List.count_cons, List.count_eq_zero.mpr (fun hmem => (hT _ hmem).2.1 rfl)]
      simp
    · intro pre command post h
      obtain ⟨h1, h2, h3⟩ := split_at_unique RunEvent.isPipeWrite X (RunEvent.PipeClose :: T)
        (RunEvent.PipeWrite (strJoin " ".toList comArray)) pre post
        (RunEvent.PipeWrite command) hXw hTw rfl h
      subst h1
      refine ⟨by simpa using h2, ⟨T, h3⟩, hset, happly, hconn, ?_⟩
      intro r hr
      exact (hX _ hr).2.2 r rfl
    · intro r hr hmem
      exfalso
      rw [List.mem_append] at hmem
      rcases hmem with hmem | hmem
      · exact hr ((hX _ hmem).2.2 r rfl)
      · rcases List.mem_cons.mp hmem with h | hmem
        · cases h
        · rcases List.mem_cons.mp hmem with h | hmem
          · cases h
          · exact (hT _ hmem).2.2 r rfl

/-- Witness for C16: a run of `sh -c ls` in the foreground without a network, and a run
with the unknown network `nonet`. -/
theorem command_written_once_after_setup_witness :
    ("sh -c ls".toList = strJoin " ".toList ["sh".toList, "-c".toList, "ls".toList] ∧
      RunEvent.CgroupSet
        ∈ [RunEvent.call ProcCall.Pipe, RunEvent.call ProcCall.Readlink, RunEvent.NewWorkSpace,
            RunEvent.call ProcCall.Start,
            RunEvent.call (ProcCall.MkdirAll "/var/run/mydocker/c1/".toList),
            RunEvent.call (ProcCall.Create "/var/run/mydocker/c1//config.json".toList),
            RunEvent.call (ProcCall.WriteInfo "/var/run/mydocker/c1//config.json".toList),
            RunEvent.CgroupSet, RunEvent.CgroupApply 4242]) ∧
    ∀ e ∈ (Run (launchEnv allOkWs) emptyWs emptyWorld true ["sh".toList] "c1".toList []
        "busybox".toList [] "nonet".toList []).2.trace, e.isPipeWrite = false := by
  have h := (command_written_once_after_setup (launchEnv allOkWs) emptyWs emptyWorld true
    ["sh".toList, "-c".toList, "ls".toList] "c1".toList [] "busybox".toList [] [] []).2.2.1
    [RunEvent.call ProcCall.Pipe, RunEvent.call ProcCall.Readlink, RunEvent.NewWorkSpace,
      RunEvent.call ProcCall.Start,
      RunEvent.call (ProcCall.MkdirAll "/var/run/mydocker/c1/".toList),
      RunEvent.call (ProcCall.Create "/var/run/mydocker/c1//config.json".toList),
      RunEvent.call (ProcCall.WriteInfo "/var/run/mydocker/c1//config.json".toList),
      RunEvent.CgroupSet, RunEvent.CgroupApply 4242]
    "sh -c ls".toList
    [RunEvent.PipeClose, RunEvent.call ProcCall.Wait,
      RunEvent.call (ProcCall.RemoveAll "/var/run/mydocker/c1/".toList),
      RunEvent.DeleteWorkSpace, RunEvent.CgroupDestroy] (by decide)
  exact ⟨⟨h.1, h.2.2.1⟩,
    (command_written_once_after_setup (launchEnv allOkWs) emptyWs emptyWorld true
      ["sh".toList] "c1".toList [] "busybox".toList [] "nonet".toList []).2.2.2
      (Res.err (NetErr.NoSuchNetwork "nonet".toList)) (by decide) (by decide)⟩

theorem lookupWithRetry_calm (host : Host) (name : List Char) (n : Nat) :
    ∀ log, ∃ added, (lookupWithRetry host name n log).2 = log ++ added ∧
      ∀ c ∈ added, c.switches = false := by
  induction n with
  | zero => intro log; exact ⟨[], by simp [lookupWithRetry], by simp⟩
  | succ k ih =>
    intro log
    cases k with
    | zero =>
      simp only [lookupWithRetry, Host.call]
      split
      · exact ⟨_, rfl, by simp [HostCall.switches]⟩
      · exact ⟨_, by simp only [List.append_assoc]; rfl, by simp [HostCall.switches]⟩
    | succ j =>
      rw [lookupWithRetry]
      simp only [Host.call]
      split
      · exact ⟨_, rfl, by simp [HostCall.switches]⟩
      · obtain ⟨added, h1, h2⟩ := ih (log ++ [HostCall.LinkByName name] ++ [HostCall.Sleep])
        refine ⟨[HostCall.LinkByName name, HostCall.Sleep] ++ added, ?_, ?_⟩
        · rw [h1]; simp
        · intro c hc
          rw [List.mem_append] at hc
          rcases hc with hc | hc
          · simp only [List.mem_cons, List.mem_singleton, List.not_mem_nil, or_false] at hc
            rcases hc with rfl | rfl <;> rfl
          · exact h2 c hc

theorem setInterfaceIP_calm (host : Host) (log : List HostCall) (name : List Char)
    (rawIP : Option IPv4 × Fin 33) :
    ∃ added, (setInterfaceIP host log name rawIP).2 = log ++ added ∧
      ∀ c ∈ added, c.switches = false := by
  obtain ⟨a0, h1, h2⟩ := lookupWithRetry_calm host name 2 log
  unfold setInterfaceIP
  rcases hl : lookupWithRetry host name 2 log with ⟨found, log1⟩
  rw [hl] at h1
  simp only at h1
  subst h1
  simp only [Host.call]
  cases found
  · exact ⟨a0, rfl, h2⟩
  · simp only [if_true]
    rcases rawIP with ⟨_ | ip, ones⟩
    · exact ⟨a0, rfl, h2⟩
    · simp only []
      refine ⟨a0 ++ [HostCall.AddrAdd name ip ones], ?_, ?_⟩
      · split <;> simp
      · intro c hc
        rw [List.mem_append] at hc
        rcases hc with hc | hc
        · exact h2 c hc
        · simp only [List.mem_singleton] at hc
          subst hc; rfl

theorem setInterfaceUP_calm (host : Host) (log : List HostCall) (name : List Char) :
    ∃ added, (setInterfaceUP host log name).2 = log ++ added ∧
      ∀ c ∈ added, c.switches = false := by
  unfold setInterfaceUP
  simp only [Host.call]
  split
  · split
    · exact ⟨_, by simp only [List.append_assoc]; rfl, by simp [HostCall.switches]⟩
    · exact ⟨_, by simp only [List.append_assoc]; rfl, by simp [HostCall.switches]⟩
  · exact ⟨_, rfl, by simp [HostCall.switches]⟩

theorem configInsideNetns_calm (host : Host) (log : List HostCall) (ep : Endpoint) :
    ∃ added, (configInsideNetns host log ep).2 = log ++ added ∧
      ∀ c ∈ added, c.switches = false := by
  unfold configInsideNetns
  obtain ⟨a1, h1, q1⟩ := setInterfaceIP_calm host log ep.Device.PeerName
    (ep.IPAddress, ep.Network.IpRange.ones)
  rcases hs1 : setInterfaceIP host log ep.Device.PeerName
    (ep.IPAddress, ep.Network.IpRange.ones) with ⟨r1, log1⟩
  rw [hs1] at h1
  simp only at h1
  subst h1
  cases r1 with
  | err e => exact ⟨a1, rfl, q1⟩
  | panic => exact ⟨a1, rfl, q1⟩
  | ok =>
    simp only []
    obtain ⟨a2, h2, q2⟩ := setInterfaceUP_calm host (log ++ a1) ep.Device.PeerName
    rcases hs2 : setInterfaceUP host (log ++ a1) ep.Device.PeerName with ⟨r2, log2⟩
    rw [hs2] at h2
    simp only at h2
    subst h2
    have q12 : ∀ c ∈ a1 ++ a2, c.switches = false := by
      intro c hc
      rcases List.mem_append.mp hc with hc | hc
      · exact q1 c hc
      · exact q2 c hc
    cases r2 with
    | err e => exact ⟨a1 ++ a2, by simp, q12⟩
    | panic => exact ⟨a1 ++ a2, by simp, q12⟩
    | ok =>
      simp only []
      obtain ⟨a3, h3, q3⟩ := setInterfaceUP_calm host (log ++ a1 ++ a2) "lo".toList
      rcases hs3 : setInterfaceUP host (log ++ a1 ++ a2) "lo".toList with ⟨r3, log3⟩
      rw [hs3] at h3
      simp only at h3
      subst h3
      have q123 : ∀ c ∈ a1 ++ a2 ++ a3, c.switches = false := by
        intro c hc
        rcases List.mem_append.mp hc with hc | hc
        · exact q12 c hc
        · exact q3 c hc
      cases r3 with
      | err e => exact ⟨a1 ++ a2 ++ a3, by simp, q123⟩
      | panic => exact ⟨a1 ++ a2 ++ a3, by simp, q123⟩
      | ok =>
        simp only [Host.call]
        refine ⟨a1 ++ a2 ++ a3 ++
          [HostCall.RouteAddDefault ep.Device.PeerName ep.Network.IpRange.IP], ?_, ?_⟩
        · split <;> simp
        · intro c hc
          rcases List.mem_append.mp hc with hc | hc
          · exact q123 c hc
          · simp only [List.mem_singleton] at hc
            subst hc; rfl

/-- The calls of the way back are always made.  For every host, record, endpoint and
container: either the lookup of the peer failed, the function returned that error after this
one call and made no namespace call at all; or the record it leaves is the lookup, then the
entry into the namespace of the container (open the namespace file, `LockOSThread`, move the
peer, `netns.Get`, `netns.Set` on the namespace of the container), then the calls of the
body, none of which sets a namespace or locks or unlocks the thread, then `netns.Set` on the
original namespace, the close of its handle, `UnlockOSThread` and the close of the namespace
file, in this order at the very end.  The result is the result of the body, whichever it is:
nil, the error of the address, of an interface or of the route, or a panic. -/
theorem netns_restored_on_every_path (host : Host) (log : List HostCall) (ep : Endpoint)
    (cinfo : ContainerInfo) :
    (host log (HostCall.LinkByName ep.Device.PeerName) ≠ HostAnswer.ok ∧
      configEndpointIpAddressAndRoute host log ep cinfo
        = (Res.err (NetErr.Host (HostCall.LinkByName ep.Device.PeerName)),
            log ++ [HostCall.LinkByName ep.Device.PeerName])) ∨
    (host log (HostCall.LinkByName ep.Device.PeerName) = HostAnswer.ok ∧
      ∃ body,
        (∀ c ∈ body, c.switches = false) ∧
        configInsideNetns host
            (log ++ [HostCall.LinkByName ep.Device.PeerName, HostCall.OpenNetns cinfo.Pid,
              HostCall.LockOSThread, HostCall.LinkSetNsFd ep.Device.PeerName cinfo.Pid,
              HostCall.NetnsGet, HostCall.NetnsSetContainer cinfo.Pid]) ep
          = ((configEndpointIpAddressAndRoute host log ep cinfo).1,
              log ++ [HostCall.LinkByName ep.Device.PeerName, HostCall.OpenNetns cinfo.Pid,
                HostCall.LockOSThread, HostCall.LinkSetNsFd ep.Device.PeerName cinfo.Pid,
                HostCall.NetnsGet, HostCall.NetnsSetContainer cinfo.Pid] ++ body) ∧
        (configEndpointIpAddressAndRoute host log ep cinfo).2
          = log ++ [HostCall.LinkByName ep.Device.PeerName, HostCall.OpenNetns cinfo.Pid,
              HostCall.LockOSThread, HostCall.LinkSetNsFd ep.Device.PeerName cinfo.Pid,
              HostCall.NetnsGet, HostCall.NetnsSetContainer cinfo.Pid] ++ body
            ++ [HostCall.NetnsSetOrigin, HostCall.CloseOrigin, HostCall.UnlockOSThread,
              HostCall.CloseNetns]) := by
  by_cases hl : host log (HostCall.LinkByName ep.Device.PeerName) = HostAnswer.ok
  · right
    refine ⟨hl, ?_⟩
    obtain ⟨body, hb, qb⟩ := configInsideNetns_calm host
      (log ++ [HostCall.LinkByName ep.Device.PeerName, HostCall.OpenNetns cinfo.Pid,
        HostCall.LockOSThread, HostCall.LinkSetNsFd ep.Device.PeerName cinfo.Pid,
        HostCall.NetnsGet, HostCall.NetnsSetContainer cinfo.Pid]) ep
    refine ⟨body, qb, ?_, ?_⟩
    · rw [← hb]
      simp [configEndpointIpAddressAndRoute, Host.call, hl, enterContainerNetns]
    · simp only [configEndpointIpAddressAndRoute, Host.call, hl, enterContainerNetns,
        leaveContainerNetns, List.append_assoc, List.singleton_append, List.cons_append,
        List.nil_append] at hb ⊢
      rw [hb]
      simp
  · left
    refine ⟨hl, ?_⟩
    simp only [configEndpointIpAddressAndRoute, Host.call]

/-- An instance of `netns_restored_on_every_path`: on a host where adding the address
fails the function returns that
error and the record still ends with the way back. -/
theorem netns_restored_on_every_path_witness :
    (configEndpointIpAddressAndRoute addrFailHost [] endpointC1 containerC1).1
        = Res.err (NetErr.Host (HostCall.AddrAdd "cif-c1-te".toList ⟨192, 168, 0, 2⟩ 24)) ∧
      (configEndpointIpAddressAndRoute addrFailHost [] endpointC1 containerC1).2
        = [HostCall.LinkByName "cif-c1-te".toList, HostCall.OpenNetns containerC1.Pid,
            HostCall.LockOSThread, HostCall.LinkSetNsFd "cif-c1-te".toList containerC1.Pid,
            HostCall.NetnsGet, HostCall.NetnsSetContainer containerC1.Pid,
            HostCall.LinkByName "cif-c1-te".toList,
            HostCall.AddrAdd "cif-c1-te".toList ⟨192, 168, 0, 2⟩ 24,
            HostCall.NetnsSetOrigin, HostCall.CloseOrigin, HostCall.UnlockOSThread,
            HostCall.CloseNetns] ∧
      ∃ body, (∀ c ∈ body, c.switches = false) ∧
        (configEndpointIpAddressAndRoute addrFailHost [] endpointC1 containerC1).2
          = [] ++ [HostCall.LinkByName endpointC1.Device.PeerName,
              HostCall.OpenNetns containerC1.Pid, HostCall.LockOSThread,
              HostCall.LinkSetNsFd endpointC1.Device.PeerName containerC1.Pid,
              HostCall.NetnsGet, HostCall.NetnsSetContainer containerC1.Pid] ++ body
            ++ [HostCall.NetnsSetOrigin, HostCall.CloseOrigin, HostCall.UnlockOSThread,
              HostCall.CloseNetns] := by
  refine ⟨by decide, by decide, ?_⟩
  rcases netns_restored_on_every_path addrFailHost [] endpointC1 containerC1 with h | h
  · exact absurd rfl h.1
  · obtain ⟨_, body, hb, _, hlog⟩ := h
    exact ⟨body, hb, hlog⟩

theorem firstZero_some_of_mem : ∀ (bm : List Char), '0' ∈ bm → ∃ c, firstZero bm = some c
  | [], h => by simp at h
  | x :: xs, h => by
    simp only [firstZero]
    split_ifs with hx
    · exact ⟨0, rfl⟩
    · have hmem : '0' ∈ xs := by
        rcases List.mem_cons.mp h with h0 | h0
        · exact absurd h0.symm hx
        · exact h0
      obtain ⟨c, hc⟩ := firstZero_some_of_mem xs hmem
      exact ⟨c + 1, by simp [hc]⟩

theorem firstZero_lowest : ∀ (bm : List Char) (c : Nat), firstZero bm = some c →
    bm[c]? = some '0' ∧ ∀ i, i < c → bm[i]? ≠ some '0'
  | [], c, h => by simp [firstZero] at h
  | x :: xs, c, h => by
    simp only [firstZero] at h
    split_ifs at h with hx
    · simp only [Option.some.injEq] at h
      subst h
      exact ⟨by simp [hx], fun i hi => absurd hi (Nat.not_lt_zero i)⟩
    · simp only [Option.map_eq_some'] at h
      obtain ⟨a, ha, rfl⟩ := h
      obtain ⟨h1, h2⟩ := firstZero_lowest xs a ha
      refine ⟨by simpa using h1, ?_⟩
      intro i hi
      cases i with
      | zero => simpa using hx
      | succ j => simpa using h2 j (by omega)

theorem offsetIP_bytes (base : IPv4) (c : Nat) :
    offsetIP base c
      = { b0 := u8 (base.b0.val + (c >>> 24)), b1 := u8 (base.b1.val + (c >>> 16)),
          b2 := u8 (base.b2.val + (c >>> 8)), b3 := u8 (base.b3.val + c + 1) } := by
  simp only [offsetIP, u8, Nat.shiftRight_zero, IPv4.mk.injEq, Fin.mk.injEq]
  refine ⟨?_, ?_, ?_, ?_⟩ <;> omega

/-- The bitmap `Allocate` works on: the one loaded for the subnet, or the fresh one. -/
theorem Allocate_at (file : AllocFile) (subnet : IPNet) (c : Nat)
    (hc : firstZero (((IPAM.load file).1.get? (ParseCIDR subnet.IP subnet.ones).2.String).getD
      (List.replicate (2 ^ (32 - subnet.ones.val)) '0')) = some c) :
    IPAM.Allocate file subnet
      = { ip := some (offsetIP (ParseCIDR subnet.IP subnet.ones).2.IP c)
          err := (IPAM.load file).2
          file := IPAM.dump ((IPAM.load file).1.set (ParseCIDR subnet.IP subnet.ones).2.String
            ((((IPAM.load file).1.get? (ParseCIDR subnet.IP subnet.ones).2.String).getD
              (List.replicate (2 ^ (32 - subnet.ones.val)) '0')).set c '1')) } := by
  cases hg : (IPAM.load file).1.get? (ParseCIDR subnet.IP subnet.ones).2.String with
  | some bitmap =>
    rw [hg] at hc
    exact Allocate_present file subnet bitmap c hg hc
  | none =>
    rw [hg] at hc
    simp only [Option.getD_none] at hc ⊢
    have hpos : 0 < 2 ^ (32 - subnet.ones.val) := Nat.pow_pos (by decide)
    obtain ⟨n, hn⟩ := Nat.exists_eq_succ_of_ne_zero (Nat.pos_iff_ne_zero.mp hpos)
    rw [hn] at hc ⊢
    simp only [List.replicate_succ, firstZero, if_true, Option.some.injEq] at hc
    subst hc
    rw [Allocate_absent file subnet hg, hn, offsetIP_zero]
    simp [List.replicate_succ]

/-- On the map as loaded.  Let `bitmap` be the bitmap `Allocate` works on for the subnet: the
one it loaded, or, when it loaded none, the fresh one of `2^(32-p)` zeros.  When `bitmap` has
a `'0'`, there is the lowest index `c` with `bitmap[c] = '0'`; the address returned has the
bytes `base[0] + (c >> 24)`, `base[1] + (c >> 16)`, `base[2] + (c >> 8)` and `base[3] + c +
1`, each modulo 256, where `base` is the network address of the subnet; and the map dumped
holds for the subnet a bitmap of the same length with `'1'` at `c` and every other bit as in
`bitmap`, and for every other subnet what was loaded. -/
theorem allocate_sets_lowest_zero_bit (file : AllocFile) (subnet : IPNet)
    (bitmap : List Char)
    (hbm : ((IPAM.load file).1.get? (ParseCIDR subnet.IP subnet.ones).2.String).getD
      (List.replicate (2 ^ (32 - subnet.ones.val)) '0') = bitmap)
    (hzero : '0' ∈ bitmap) :
    ∃ c, c < bitmap.length ∧ bitmap[c]? = some '0' ∧
      (∀ i, i < c → bitmap[i]? ≠ some '0') ∧
      (IPAM.Allocate file subnet).ip
        = some { b0 := u8 ((ParseCIDR subnet.IP subnet.ones).2.IP.b0.val + (c >>> 24)),
                 b1 := u8 ((ParseCIDR subnet.IP subnet.ones).2.IP.b1.val + (c >>> 16)),
                 b2 := u8 ((ParseCIDR subnet.IP subnet.ones).2.IP.b2.val + (c >>> 8)),
                 b3 := u8 ((ParseCIDR subnet.IP subnet.ones).2.IP.b3.val + c + 1) } ∧
      ∃ m after, (IPAM.Allocate file subnet).file = IPAM.dump m ∧
        m.get? (ParseCIDR subnet.IP subnet.ones).2.String = some after ∧
        after.length = bitmap.length ∧ after[c]? = some '1' ∧
        (∀ i, i ≠ c → after[i]? = bitmap[i]?) ∧
        ∀ k, k ≠ (ParseCIDR subnet.IP subnet.ones).2.String →
          m.get? k = (IPAM.load file).1.get? k := by
  obtain ⟨c, hc⟩ := firstZero_some_of_mem bitmap hzero
  have hlt := firstZero_lt bitmap c hc
  obtain ⟨h0, hlow⟩ := firstZero_lowest bitmap c hc
  have hA := Allocate_at file subnet c (by rw [hbm]; exact hc)
  rw [hbm] at hA
  refine ⟨c, hlt, h0, hlow, ?_, ?_⟩
  · rw [hA, offsetIP_bytes]
  · refine ⟨_, bitmap.set c '1', by rw [hA], get?_set_self _ _ _, by simp, ?_, ?_, ?_⟩
    · simp [hlt]
    · intro i hi
      simp [List.getElem?_set, Ne.symm hi]
    · intro k hk
      exact get?_set_other _ _ _ _ hk

set_option maxRecDepth 100000 in
/-- An instance of `allocate_sets_lowest_zero_bit`: the subnet `192.168.0.4/30` with the
bitmap `1101`. -/
theorem allocate_sets_lowest_zero_bit_witness :
    ∃ c, c < "1101".toList.length ∧ "1101".toList[c]? = some '0' ∧
      (IPAM.Allocate (IPAM.dump [("192.168.0.4/30".toList, "1101".toList)]) smallNet).ip
        = some { b0 := u8 ((ParseCIDR smallNet.IP smallNet.ones).2.IP.b0.val + (c >>> 24)),
                 b1 := u8 ((ParseCIDR smallNet.IP smallNet.ones).2.IP.b1.val + (c >>> 16)),
                 b2 := u8 ((ParseCIDR smallNet.IP smallNet.ones).2.IP.b2.val + (c >>> 8)),
                 b3 := u8 ((ParseCIDR smallNet.IP smallNet.ones).2.IP.b3.val + c + 1) } := by
  obtain ⟨c, h1, h2, _, h3, _⟩ := allocate_sets_lowest_zero_bit
    (IPAM.dump [("192.168.0.4/30".toList, "1101".toList)]) smallNet "1101".toList
    (by decide) (by decide)
  exact ⟨c, h1, h2, h3⟩

theorem Allocate_no_zero (file : AllocFile) (subnet : IPNet) (bitmap : List Char)
    (h : (IPAM.load file).1.get? (ParseCIDR subnet.IP subnet.ones).2.String = some bitmap)
    (hc : firstZero bitmap = none) :
    (IPAM.Allocate file subnet).file = IPAM.dump (IPAM.load file).1 := by
  rcases hload : IPAM.load file with ⟨m0, err⟩
  rw [hload] at h
  simp only [IPAM.Allocate, hload]
  simp only [ParseCIDR] at h ⊢
  simp only [h, Option.getD_some, hc]

theorem set_keeps_shape (m : Subnets) (key old : List Char) (c : Nat) (bit : Char)
    (hbit : bit = '0' ∨ bit = '1') (hold : m.get? key = some old) :
    ∀ k bm, m.get? k = some bm →
      ∃ after, (m.set key (old.set c bit)).get? k = some after ∧ after.length = bm.length ∧
        ((∀ ch ∈ bm, ch = '0' ∨ ch = '1') → ∀ ch ∈ after, ch = '0' ∨ ch = '1') := by
  intro k bm hk
  by_cases hkey : k = key
  · subst hkey
    rw [hold] at hk
    simp only [Option.some.injEq] at hk
    subst hk
    refine ⟨old.set c bit, get?_set_self _ _ _, by simp, ?_⟩
    intro hal ch hch
    rcases List.mem_or_eq_of_mem_set hch with h | h
    · exact hal ch h
    · rw [h]; exact hbit
  · exact ⟨bm, by rw [get?_set_other _ _ _ _ hkey]; exact hk, rfl, fun h => h⟩

/-- On the map as loaded.  For every allocator file and subnet of mask length `p`.  When
`Allocate` loaded no bitmap for the subnet, the bitmap it leaves in the map it dumps is the
string of `2^(32-p)` characters `'0'` with the bit it hands out, bit 0, set.  The map
`Allocate` dumps, and the map a `Release` that returns dumps, hold for every bitmap that was
loaded a bitmap of the same length under the same key, and one over `'0'` and `'1'` when the
loaded one was. -/
theorem bitmap_shape_is_invariant (file : AllocFile) (subnet : IPNet) :
    ((IPAM.load file).1.get? (ParseCIDR subnet.IP subnet.ones).2.String = none →
      (List.replicate (2 ^ (32 - subnet.ones.val)) '0').length = 2 ^ (32 - subnet.ones.val) ∧
      (∀ ch ∈ List.replicate (2 ^ (32 - subnet.ones.val)) '0', ch = '0') ∧
      ∃ m, (IPAM.Allocate file subnet).file = IPAM.dump m ∧
        m.get? (ParseCIDR subnet.IP subnet.ones).2.String
          = some ((List.replicate (2 ^ (32 - subnet.ones.val)) '0').set 0 '1')) ∧
    (∃ m, (IPAM.Allocate file subnet).file = IPAM.dump m ∧
      ∀ k bm, (IPAM.load file).1.get? k = some bm →
        ∃ after, m.get? k = some after ∧ after.length = bm.length ∧
          ((∀ ch ∈ bm, ch = '0' ∨ ch = '1') → ∀ ch ∈ after, ch = '0' ∨ ch = '1')) ∧
    (∀ ipaddr out ipAfter,
      IPAM.Release file subnet ipaddr = ReleaseResult.returned out ipAfter →
      ∃ m, out = IPAM.dump m ∧
        ∀ k bm, (IPAM.load file).1.get? k = some bm →
          ∃ after, m.get? k = some after ∧ after.length = bm.length ∧
            ((∀ ch ∈ bm, ch = '0' ∨ ch = '1') →
              ∀ ch ∈ after, ch = '0' ∨ ch = '1')) := by
  have hpos : 0 < 2 ^ (32 - subnet.ones.val) := Nat.pow_pos (by decide)
  refine ⟨?_, ?_, ?_⟩
  · intro hnone
    refine ⟨by simp, fun ch hch => List.eq_of_mem_replicate hch, ?_⟩
    have hz : firstZero (((IPAM.load file).1.get?
        (ParseCIDR subnet.IP subnet.ones).2.String).getD
        (List.replicate (2 ^ (32 - subnet.ones.val)) '0')) = some 0 := by
      rw [hnone]
      obtain ⟨n, hn⟩ := Nat.exists_eq_succ_of_ne_zero (Nat.pos_iff_ne_zero.mp hpos)
      simp [hn, List.replicate_succ, firstZero]
    have hA := Allocate_at file subnet 0 hz
    rw [hnone] at hA
    exact ⟨_, by rw [hA], by simp only [Option.getD_none]; exact get?_set_self _ _ _⟩
  · cases hg : (IPAM.load file).1.get? (ParseCIDR subnet.IP subnet.ones).2.String with
    | none =>
      refine ⟨_, by rw [Allocate_absent file subnet hg], ?_⟩
      intro k bm hk
      have hkey : k ≠ (ParseCIDR subnet.IP subnet.ones).2.String := by
        intro h
        rw [h, hg] at hk
        cases hk
      exact ⟨bm, by rw [get?_set_other _ _ _ _ hkey]; exact hk, rfl, fun h => h⟩
    | some bitmap =>
      cases hz : firstZero bitmap with
      | none =>
        refine ⟨_, Allocate_no_zero file subnet bitmap hg hz, ?_⟩
        intro k bm hk
        exact ⟨bm, hk, rfl, fun h => h⟩
      | some c =>
        refine ⟨_, by rw [Allocate_present file subnet bitmap c hg hz], ?_⟩
        exact set_keeps_shape _ _ bitmap c '1' (Or.inr rfl) hg
  · intro ipaddr out ipAfter hrel
    unfold IPAM.Release at hrel
    rcases hload : IPAM.load file with ⟨m0, err⟩
    rw [hload] at hrel
    simp only at hrel ⊢
    split_ifs at hrel with hlen
    simp only [ReleaseResult.returned.injEq] at hrel
    cases hg : m0.get? (ParseCIDR subnet.IP subnet.ones).2.String with
    | none =>
      rw [hg] at hlen
      simp at hlen
    | some bitmap =>
      rw [hg] at hrel
      simp only [Option.getD_some] at hrel
      refine ⟨_, hrel.1.symm, ?_⟩
      exact set_keeps_shape m0 _ bitmap _ '0' (Or.inl rfl) hg

set_option maxRecDepth 100000 in
/-- An instance of `bitmap_shape_is_invariant`: the first allocation in `192.168.0.4/30`
with no file, and the release
of `192.168.0.5` from the bitmap `1101`. -/
theorem bitmap_shape_is_invariant_witness :
    ((List.replicate (2 ^ (32 - smallNet.ones.val)) '0').length = 2 ^ (32 - smallNet.ones.val) ∧
      (∀ ch ∈ List.replicate (2 ^ (32 - smallNet.ones.val)) '0', ch = '0') ∧
      ∃ m, (IPAM.Allocate none smallNet).file = IPAM.dump m ∧
        m.get? (ParseCIDR smallNet.IP smallNet.ones).2.String
          = some ((List.replicate (2 ^ (32 - smallNet.ones.val)) '0').set 0 '1')) ∧
    (∃ m, IPAM.dump [("192.168.0.4/30".toList, "0101".toList)] = IPAM.dump m ∧
      ∀ k bm,
        (IPAM.load (IPAM.dump [("192.168.0.4/30".toList, "1101".toList)])).1.get? k = some bm →
          ∃ after, m.get? k = some after ∧ after.length = bm.length ∧
            ((∀ ch ∈ bm, ch = '0' ∨ ch = '1') → ∀ ch ∈ after, ch = '0' ∨ ch = '1')) :=
  ⟨(bitmap_shape_is_invariant none smallNet).1 (by decide),
   (bitmap_shape_is_invariant (IPAM.dump [("192.168.0.4/30".toList, "1101".toList)])
      smallNet).2.2 ⟨192, 168, 0, 5⟩ (IPAM.dump [("192.168.0.4/30".toList, "0101".toList)])
      ⟨192, 168, 0, 4⟩ (by decide)⟩

theorem Release_absent (file : AllocFile) (subnet : IPNet) (ipaddr : IPv4)
    (h : (IPAM.load file).1.get? (ParseCIDR subnet.IP subnet.ones).2.String = none) :
    IPAM.Release file subnet ipaddr
      = ReleaseResult.panicked file { ipaddr with b3 := u8 (ipaddr.b3.val + 255) } := by
  rcases hload : IPAM.load file with ⟨m0, err⟩
  rw [hload] at h
  simp only [IPAM.Release, hload]
  simp only [ParseCIDR] at h ⊢
  simp [h]

theorem corp_created :
    ∃ log1, CreateNetwork freshHost (Init emptyWorld) "bridge".toList corpCIDR "corp".toList
      = (Res.ok,
          (⟨IPAM.dump corpMap, ["bridge".toList], [], [("corp".toList, corpNetwork)], log1⟩ :
            World)) := by
  have hnet : (ParseCIDR corpCIDR.1 corpCIDR.2).2 = corpNet := by decide
  have hipam : (Init emptyWorld).ipam = none := rfl
  obtain ⟨log1, h⟩ := CreateNetwork_obliging freshHost freshHost_obliging (Init emptyWorld)
    "bridge".toList corpCIDR "corp".toList ⟨10, 0, 0, 1⟩ (by decide)
    (by rw [hnet, hipam, corpNet_first]) (by rw [hnet, hipam, corpNet_first])
  refine ⟨log1, ?_⟩
  rw [h, hnet, hipam, corpNet_first]
  rfl

theorem Release_ipAfter (file : AllocFile) (subnet : IPNet) (ipaddr : IPv4) :
    (∃ out, IPAM.Release file subnet ipaddr
        = ReleaseResult.returned out { ipaddr with b3 := u8 (ipaddr.b3.val + 255) }) ∨
    IPAM.Release file subnet ipaddr
      = ReleaseResult.panicked file { ipaddr with b3 := u8 (ipaddr.b3.val + 255) } := by
  unfold IPAM.Release
  rcases IPAM.load file with ⟨m0, err⟩
  simp only []
  split_ifs
  · exact Or.inl ⟨_, rfl⟩
  · exact Or.inr rfl

theorem u8_pred_ne (ip : IPv4) : ({ ip with b3 := u8 (ip.b3.val + 255) } : IPv4) ≠ ip := by
  intro h
  have h3 : u8 (ip.b3.val + 255) = ip.b3 := congrArg IPv4.b3 h
  have hv : (ip.b3.val + 255) % 256 = ip.b3.val := congrArg Fin.val h3
  have := ip.b3.isLt
  omega

theorem setInterfaceUP_lookup (host : Host) (log : List HostCall) (name : List Char) :
    host log (HostCall.LinkByName name) = HostAnswer.ok ∨
    setInterfaceUP host log name = (Res.panic, log ++ [HostCall.LinkByName name]) := by
  by_cases h : host log (HostCall.LinkByName name) = HostAnswer.ok
  · exact Or.inl h
  · right
    simp only [setInterfaceUP, Host.call]

set_option maxRecDepth 100000 in
/-- C21. `Release` indexes the bitmap out of range.  The network `corp` with the subnet
`10.0.0.0/16` is created and loaded by `Init`; `DeleteNetwork` of it panics, because the
`load` inside `Release` leaves the map empty and `ipalloc[0]` is out of range on the empty
bitmap.  So does `Release` with no allocator file (index 0, length 0), and `Release` of
`192.168.0.9` in `192.168.0.4/30` whose bitmap has 4 bits (index 4); in each case nothing
is dumped.  For every file, subnet and address: when the map loaded holds no bitmap for
the subnet, `Release` panics. -/
theorem release_indexes_out_of_range :
    ((CreateNetwork freshHost (Init emptyWorld) "bridge".toList corpCIDR "corp".toList).1
        = Res.ok ∧
      (DeleteNetwork freshHost
        (Init (CreateNetwork freshHost (Init emptyWorld) "bridge".toList corpCIDR
          "corp".toList).2) "corp".toList).1 = Res.panic) ∧
    IPAM.Release none smallNet ⟨192, 168, 0, 5⟩
      = ReleaseResult.panicked none ⟨192, 168, 0, 4⟩ ∧
    (releaseIndex smallNet.IP ⟨192, 168, 0, 9⟩ = 4 ∧
      (IPAM.load (IPAM.dump [("192.168.0.4/30".toList, "1111".toList)])).1
        = [("192.168.0.4/30".toList, "1111".toList)] ∧
      IPAM.Release (IPAM.dump [("192.168.0.4/30".toList, "1111".toList)]) smallNet
          ⟨192, 168, 0, 9⟩
        = ReleaseResult.panicked (IPAM.dump [("192.168.0.4/30".toList, "1111".toList)])
            ⟨192, 168, 0, 8⟩) ∧
    ∀ (file : AllocFile) (subnet : IPNet) (ipaddr : IPv4),
      ((IPAM.load file).1.get? (ParseCIDR subnet.IP subnet.ones).2.String).isSome = true ∨
      IPAM.Release file subnet ipaddr
        = ReleaseResult.panicked file { ipaddr with b3 := u8 (ipaddr.b3.val + 255) } := by
  refine ⟨?_, by decide, by decide, ?_⟩
  · obtain ⟨log1, h⟩ := corp_created
    rw [h]
    refine ⟨rfl, ?_⟩
    have hrel : IPAM.Release (IPAM.dump corpMap) corpNetwork.IpRange corpNetwork.IpRange.IP
        = ReleaseResult.panicked (IPAM.dump corpMap) ⟨10, 0, 0, 0⟩ := by
      rw [Release_absent _ _ _ (by rw [corpMap_load]; rfl)]
      rfl
    have hlook : (Init (⟨IPAM.dump corpMap, ["bridge".toList], [],
        [("corp".toList, corpNetwork)], log1⟩ : World)).networks.lookup "corp".toList
        = some corpNetwork := by
      simp [Init, assocSet]
    simp only [DeleteNetwork, hlook]
    have hipam : (Init (⟨IPAM.dump corpMap, ["bridge".toList], [],
        [("corp".toList, corpNetwork)], log1⟩ : World)).ipam = IPAM.dump corpMap := rfl
    rw [hipam, hrel]
  · intro file subnet ipaddr
    cases hg : (IPAM.load file).1.get? (ParseCIDR subnet.IP subnet.ones).2.String with
    | some bm => exact Or.inl rfl
    | none => exact Or.inr (Release_absent file subnet ipaddr hg)

set_option maxRecDepth 100000 in
/-- C22. `Release` changes the address the caller passes in: `To4` hands back the bytes of
the caller and `releaseIP[3] -= 1` decrements the last one in place.  For every file,
subnet and address the address the caller holds after the call has its last byte
decremented (a `uint8` subtraction) and so differs from the one passed in, whether
`Release` returns or panics.  For the network `testnet` created with `192.168.10.0/24`,
the registered network holds the gateway `192.168.10.1` before `DeleteNetwork` and
`192.168.10.0` after it, the range of the network being the caller's subnet. -/
theorem release_decrements_callers_address :
    (∀ (file : AllocFile) (subnet : IPNet) (ipaddr : IPv4),
      ((∃ out, IPAM.Release file subnet ipaddr
          = ReleaseResult.returned out { ipaddr with b3 := u8 (ipaddr.b3.val + 255) }) ∨
        IPAM.Release file subnet ipaddr
          = ReleaseResult.panicked file { ipaddr with b3 := u8 (ipaddr.b3.val + 255) }) ∧
      ({ ipaddr with b3 := u8 (ipaddr.b3.val + 255) } : IPv4) ≠ ipaddr) ∧
    (∃ out, IPAM.Release (IPAM.Allocate none ⟨⟨192, 168, 10, 0⟩, 24⟩).file
        ⟨⟨192, 168, 10, 1⟩, 24⟩ ⟨192, 168, 10, 1⟩
      = ReleaseResult.returned out ⟨192, 168, 10, 0⟩) ∧
    ((Init (CreateNetwork freshHost (Init emptyWorld) "bridge".toList testnetCIDR
        "testnet".toList).2).networks.lookup "testnet".toList).map Network.IpRange
      = some ⟨⟨192, 168, 10, 1⟩, 24⟩ ∧
    (DeleteNetwork freshHost
      (Init (CreateNetwork freshHost (Init emptyWorld) "bridge".toList testnetCIDR
        "testnet".toList).2) "testnet".toList).1 = Res.ok ∧
    ((DeleteNetwork freshHost
      (Init (CreateNetwork freshHost (Init emptyWorld) "bridge".toList testnetCIDR
        "testnet".toList).2) "testnet".toList).2.networks.lookup "testnet".toList).map
        Network.IpRange
      = some ⟨⟨192, 168, 10, 0⟩, 24⟩ := by
  refine ⟨fun file subnet ipaddr => ⟨Release_ipAfter file subnet ipaddr, u8_pred_ne ipaddr⟩,
    ?_, by decide, by decide, by decide⟩
  rcases Release_ipAfter (IPAM.Allocate none ⟨⟨192, 168, 10, 0⟩, 24⟩).file
    ⟨⟨192, 168, 10, 1⟩, 24⟩ ⟨192, 168, 10, 1⟩ with h | h
  · exact h
  · exfalso
    revert h
    decide

set_option maxRecDepth 100000 in
/-- C23. `setInterfaceUP` dereferences the missing link.  For every host, record and
interface name, either the lookup succeeded or the function panics right after it
(`iface.Attrs()` on the nil link), so no error value reaches a caller.  On a host where
the bridge can no longer be looked up after its address was added, `CreateNetwork` for
`testnet` panics in `initBridge` after the calls listed, and
`configEndpointIpAddressAndRoute` panics as well. -/
theorem setInterfaceUP_panics_on_failed_lookup :
    (∀ (host : Host) (log : List HostCall) (name : List Char),
      host log (HostCall.LinkByName name) = HostAnswer.ok ∨
      setInterfaceUP host log name = (Res.panic, log ++ [HostCall.LinkByName name])) ∧
    setInterfaceUP vanishingLinkHost [HostCall.AddrAdd "lo".toList ⟨127, 0, 0, 1⟩ 8] "lo".toList
      = (Res.panic, [HostCall.AddrAdd "lo".toList ⟨127, 0, 0, 1⟩ 8,
          HostCall.LinkByName "lo".toList]) ∧
    initBridge vanishingLinkHost []
        { Name := "testnet".toList, IpRange := ⟨⟨192, 168, 10, 1⟩, 24⟩,
          Driver := "bridge".toList }
      = (Res.panic,
          [HostCall.InterfaceByName "testnet".toList, HostCall.LinkAddBridge "testnet".toList,
            HostCall.LinkByName "testnet".toList,
            HostCall.AddrAdd "testnet".toList ⟨192, 168, 10, 1⟩ 24,
            HostCall.LinkByName "testnet".toList]) ∧
    (CreateNetwork vanishingLinkHost (Init emptyWorld) "bridge".toList testnetCIDR
      "testnet".toList).1 = Res.panic ∧
    (configEndpointIpAddressAndRoute vanishingLinkHost [] endpointC1 containerC1).1
      = Res.panic :=
  ⟨setInterfaceUP_lookup, by decide, by decide, by decide, by decide⟩

set_option maxRecDepth 100000 in
theorem crowdedMap_size : membersSize crowdedMap = 2232 := by decide

set_option maxRecDepth 100000 in
theorem nineCallsMap_size : membersSize nineCallsMap = 2208 := by decide

set_option maxRecDepth 100000 in
theorem eightLans_size : membersSize eightLans = 2208 := by decide

set_option maxRecDepth 100000 in
/-- C5. With every bit of the bitmap of a subnet set, `Allocate` hands out an address that
is in use.  Twelve calls, each with a nil error, fill `192.168.0.4/30` and take the first
address of eight `/24` subnets; the file they leave holds the bitmap `1111` for
`192.168.0.4/30` and has 2233 bytes, so `load` fails on it.  The next call for
`192.168.0.4/30` returns `192.168.0.5`, the address the first call handed out, together
with the error of `load`, and writes a file in which the bitmap of the subnet is `1000`
and no other subnet is left. -/
theorem full_subnet_hands_out_used_address :
    (allocRun none crowdedHistory).map (fun r => (r.ip, r.err))
      = [(some ⟨192, 168, 0, 5⟩, none), (some ⟨192, 168, 0, 6⟩, none),
         (some ⟨192, 168, 0, 7⟩, none), (some ⟨192, 168, 0, 8⟩, none),
         (some ⟨192, 168, 1, 1⟩, none), (some ⟨192, 168, 2, 1⟩, none),
         (some ⟨192, 168, 3, 1⟩, none), (some ⟨192, 168, 4, 1⟩, none),
         (some ⟨192, 168, 5, 1⟩, none), (some ⟨192, 168, 6, 1⟩, none),
         (some ⟨192, 168, 7, 1⟩, none), (some ⟨192, 168, 8, 1⟩, none)] ∧
    (allocRun none crowdedHistory).getLast?.map (fun r => r.file)
      = some (IPAM.dump crowdedMap) ∧
    crowdedMap.get? smallNet.String = some "1111".toList ∧
    (jsonMarshal crowdedMap).length = 2233 ∧
    IPAM.load (IPAM.dump crowdedMap) = ([], some LoadErr.badJSON) ∧
    IPAM.Allocate (IPAM.dump crowdedMap) smallNet
      = { ip := some ⟨192, 168, 0, 5⟩, err := some LoadErr.badJSON,
          file := IPAM.dump [(smallNet.String, "1000".toList)] } := by
  refine ⟨by decide, by rfl, by decide, ?_, by decide, by decide⟩
  rw [jsonMarshal_length _ (by decide), crowdedMap_size]

set_option maxRecDepth 100000 in
/-- C17. The thread is left in the namespace of the container when `netns.Get` fails.
`enterContainerNetns` only logs that error and goes on to `netns.Set` on the namespace of
the container; the deferred function then calls `netns.Set` on the handle `netns.Get` did
not deliver, which fails, and unlocks the thread.  On a host where every other call
succeeds the function returns nil after the calls listed, and the thread, which started
in the original namespace, is in the namespace of the container and unlocked; the same
holds when adding the address fails in between.  With `netns.Get` succeeding the thread
is back in the original namespace. -/
theorem failed_netns_get_leaves_thread_in_container :
    configEndpointIpAddressAndRoute (lostOrigin freshHost) [] endpointC1 containerC1
      = (Res.ok,
          [HostCall.LinkByName "cif-c1-te".toList, HostCall.OpenNetns "4242".toList,
            HostCall.LockOSThread, HostCall.LinkSetNsFd "cif-c1-te".toList "4242".toList,
            HostCall.NetnsGet, HostCall.NetnsSetContainer "4242".toList,
            HostCall.LinkByName "cif-c1-te".toList,
            HostCall.AddrAdd "cif-c1-te".toList ⟨192, 168, 0, 2⟩ 24,
            HostCall.LinkByName "cif-c1-te".toList, HostCall.LinkSetUp "cif-c1-te".toList,
            HostCall.LinkByName "lo".toList, HostCall.LinkSetUp "lo".toList,
            HostCall.RouteAddDefault "cif-c1-te".toList ⟨192, 168, 0, 1⟩,
            HostCall.NetnsSetOrigin, HostCall.CloseOrigin, HostCall.UnlockOSThread,
            HostCall.CloseNetns]) ∧
    netnsReplay (lostOrigin freshHost) []
        (configEndpointIpAddressAndRoute (lostOrigin freshHost) [] endpointC1 containerC1).2
        { inContainer := false, locked := false }
      = { inContainer := true, locked := false } ∧
    (configEndpointIpAddressAndRoute (lostOrigin addrFailHost) [] endpointC1 containerC1).1
      = Res.err (NetErr.Host (HostCall.AddrAdd "cif-c1-te".toList ⟨192, 168, 0, 2⟩ 24)) ∧
    netnsReplay (lostOrigin addrFailHost) []
        (configEndpointIpAddressAndRoute (lostOrigin addrFailHost) [] endpointC1
          containerC1).2
        { inContainer := false, locked := false }
      = { inContainer := true, locked := false } ∧
    netnsReplay freshHost []
        (configEndpointIpAddressAndRoute freshHost [] endpointC1 containerC1).2
        { inContainer := false, locked := false }
      = { inContainer := false, locked := false } := by decide

set_option maxRecDepth 100000 in
/-- C19. `Allocate` does not always take the lowest `'0'` of the bitmap of the subnet.  The
first nine calls of `lanHistory`, each with a nil error, leave a file of 2209 bytes in
which the bitmap of `192.168.0.0/24` has bits 0 and 1 set, so that its lowest `'0'` is at
index 2, the address `192.168.0.3`.  `load` fails on that file, and the next call for
`192.168.0.0/24` returns `192.168.0.1`, the address of index 0, and writes a file in which
the bitmap of the subnet has bit 0 set and bit 1 clear, and in which the bitmap of
`192.168.1.0/24` is gone. -/
theorem lowest_free_bit_is_not_taken :
    (allocRun none (lanHistory.take 9)).map (fun r => (r.ip, r.err))
      = [(some ⟨192, 168, 0, 1⟩, none), (some ⟨192, 168, 0, 2⟩, none),
         (some ⟨192, 168, 1, 1⟩, none), (some ⟨192, 168, 2, 1⟩, none),
         (some ⟨192, 168, 3, 1⟩, none), (some ⟨192, 168, 4, 1⟩, none),
         (some ⟨192, 168, 5, 1⟩, none), (some ⟨192, 168, 6, 1⟩, none),
         (some ⟨192, 168, 7, 1⟩, none)] ∧
    (allocRun none (lanHistory.take 9)).getLast?.map (fun r => r.file)
      = some (IPAM.dump nineCallsMap) ∧
    (jsonMarshal nineCallsMap).length = 2209 ∧
    (nineCallsMap.get? (lan 0).String = some ('1' :: '1' :: List.replicate 254 '0') ∧
      firstZero ('1' :: '1' :: List.replicate 254 '0') = some 2 ∧
      offsetIP (ParseCIDR (lan 0).IP (lan 0).ones).2.IP 2 = ⟨192, 168, 0, 3⟩) ∧
    IPAM.Allocate (IPAM.dump nineCallsMap) (lan 0)
      = { ip := some ⟨192, 168, 0, 1⟩, err := some LoadErr.badJSON,
          file := IPAM.dump [((lan 0).String, '1' :: List.replicate 255 '0')] } ∧
    (nineCallsMap.get? (lan 1).String = some ('1' :: List.replicate 255 '0') ∧
      Subnets.get? [((lan 0).String, '1' :: List.replicate 255 '0')] (lan 1).String
        = none) := by
  refine ⟨by decide, by rfl, ?_, by decide, by decide, by decide⟩
  rw [jsonMarshal_length _ (by decide), nineCallsMap_size]

set_option maxRecDepth 100000 in
/-- C20. `Allocate` does not leave every existing bitmap in place.  Eight calls, each with a
nil error, take the first address of `192.168.0.0/24` to `192.168.7.0/24` and leave the
file of `eightLans`, 2209 bytes with eight bitmaps of 256 bits.  `load` fails on it, and
the next call, for the new subnet `192.168.8.0/24`, writes a file of 277 bytes that holds
the bitmap of that subnet alone: the eight bitmaps that existed are gone. -/
theorem allocate_drops_existing_bitmaps :
    (allocRun none ((List.range 8).map (fun i => lan (u8 i)))).map (fun r => (r.ip, r.err))
      = [(some ⟨192, 168, 0, 1⟩, none), (some ⟨192, 168, 1, 1⟩, none),
         (some ⟨192, 168, 2, 1⟩, none), (some ⟨192, 168, 3, 1⟩, none),
         (some ⟨192, 168, 4, 1⟩, none), (some ⟨192, 168, 5, 1⟩, none),
         (some ⟨192, 168, 6, 1⟩, none), (some ⟨192, 168, 7, 1⟩, none)] ∧
    (allocRun none ((List.range 8).map (fun i => lan (u8 i)))).getLast?.map (fun r => r.file)
      = some (IPAM.dump eightLans) ∧
    (jsonMarshal eightLans).length = 2209 ∧
    (∀ i : Fin 8, eightLans.get? (lan (u8 i.val)).String
      = some ('1' :: List.replicate 255 '0')) ∧
    IPAM.Allocate (IPAM.dump eightLans) (lan 8)
      = { ip := some ⟨192, 168, 8, 1⟩, err := some LoadErr.badJSON,
          file := IPAM.dump [((lan 8).String, '1' :: List.replicate 255 '0')] } ∧
    (jsonMarshal [((lan 8).String, '1' :: List.replicate 255 '0')]).length = 277 ∧
    (∀ i : Fin 8,
      Subnets.get? [((lan 8).String, '1' :: List.replicate 255 '0')] (lan (u8 i.val)).String
        = none) := by
  refine ⟨by decide, by rfl, ?_, by decide, by decide, by decide, by decide⟩
  rw [jsonMarshal_length _ (by decide), eightLans_size]

end MyDocker
